import Mathlib

/-!
# FBXUtils: morph-target preprocessing

A shallow embedding of `Tools/FBXUtils/FBXUtils.cpp`.  The FBX SDK objects the
program manipulates (scene, nodes, meshes, layers, layer elements, deformers,
channels, target shapes) are modelled as plain data; the scene owns its objects
in arrays and pointers are indices into them.  Colour channels are exact
rationals, machine integers are `Nat`/`Int` with explicit wrap-around.
-/

namespace FBXUtils

/-! ## SDK value types -/

/-- An `FbxColor`: four normalised channels. -/
structure FbxColor where
  mRed : ℚ
  mGreen : ℚ
  mBlue : ℚ
  mAlpha : ℚ
deriving DecidableEq

/-- Channel `k` of a colour: 0 red, 1 green, 2 blue, otherwise alpha. -/
def FbxColor.channel (c : FbxColor) : Nat → ℚ
  | 0 => c.mRed
  | 1 => c.mGreen
  | 2 => c.mBlue
  | _ => c.mAlpha

/-- Conversion of a C `int` to `unsigned int` (value modulo 2^32). -/
def toUInt (v : Int) : Nat := (v % 2 ^ 32).toNat

/-- The function `getColorFromUInt` of FBXUtils.cpp. -/
def getColorFromUInt (index : Nat) : FbxColor :=
  { mRed := (((index >>> 24) &&& 0xFF : Nat) : ℚ) / 0xFF
    mGreen := (((index >>> 16) &&& 0xFF : Nat) : ℚ) / 0xFF
    mBlue := (((index >>> 8) &&& 0xFF : Nat) : ℚ) / 0xFF
    mAlpha := ((index &&& 0xFF : Nat) : ℚ) / 0xFF }

/-- Modelled from the spec: the decoder `Decode`, which the repository does not
contain (consumers of the exported asset perform it):
`index = Σ round(channel[k]*255) << (8*(3-k))` for `k` in 0..3.  `round` is
rounding to the nearest integer; channels are non-negative, so the direction
in which a negative half is rounded plays no role. -/
def Decode (c : FbxColor) : Nat :=
  ((List.range 4).map fun k => (round (c.channel k * 255)).toNat <<< (8 * (3 - k))).sum

/-- An `FbxVector4` (control point or normal). -/
structure FbxVector4 where
  x : ℚ
  y : ℚ
  z : ℚ
  w : ℚ
deriving DecidableEq

/-- The value of the default constructor `FbxVector4()`. -/
def FbxVector4.zero : FbxVector4 := ⟨0, 0, 0, 1⟩

/-- An `FbxDouble3` (a local transform component or a material colour). -/
structure FbxDouble3 where
  x : ℚ
  y : ℚ
  z : ℚ
deriving DecidableEq

/-- Mapping modes of a layer element (`FbxLayerElement::EMappingMode`). -/
inductive EMappingMode where
  | eNone
  | eByControlPoint
  | eByPolygonVertex
  | eByPolygon
  | eByEdge
  | eAllSame
deriving DecidableEq

/-- Reference modes of a layer element (`FbxLayerElement::EReferenceMode`). -/
inductive EReferenceMode where
  | eDirect
  | eIndex
  | eIndexToDirect
deriving DecidableEq

/-- Shading modes of a node (`FbxNode::EShadingMode`). -/
inductive EShadingMode where
  | eHardShading
  | eWireFrame
  | eFlatShading
  | eLightShading
  | eTextureShading
  | eFullShading
deriving DecidableEq

/-- Read of an SDK array at a C `int` index: the stored element, or the
default-constructed value `d` when the index is out of range. -/
def getAt {α : Type} (l : List α) (pIndex : Int) (d : α) : α :=
  if 0 ≤ pIndex then l.getD pIndex.toNat d else d

/-- Apply `f` to the element at position `i` of a list, if there is one. -/
def modifyAt {α : Type} (f : α → α) : Nat → List α → List α
  | _, [] => []
  | 0, a :: as => f a :: as
  | n + 1, a :: as => a :: modifyAt f n as

/-! ## Layer elements and layers -/

/-- A layer element (`FbxLayerElementTemplate<T>`): mapping mode, reference
mode, direct array and index array. -/
structure FbxLayerElementTemplate (α : Type) where
  mMappingMode : EMappingMode
  mReferenceMode : EReferenceMode
  mDirectArray : List α
  mIndexArray : List Int
deriving DecidableEq

namespace FbxLayerElementTemplate

/-- A newly created layer element: no mapping, direct reference, empty arrays. -/
def Create {α : Type} : FbxLayerElementTemplate α :=
  { mMappingMode := .eNone, mReferenceMode := .eDirect, mDirectArray := [], mIndexArray := [] }

/-- The SDK call `SetMappingMode`. -/
def SetMappingMode {α : Type} (e : FbxLayerElementTemplate α) (mode : EMappingMode) :
    FbxLayerElementTemplate α :=
  { e with mMappingMode := mode }

/-- The SDK call `SetReferenceMode`. -/
def SetReferenceMode {α : Type} (e : FbxLayerElementTemplate α) (mode : EReferenceMode) :
    FbxLayerElementTemplate α :=
  { e with mReferenceMode := mode }

/-- The SDK call `GetDirectArray().Add(v)`. -/
def DirectAdd {α : Type} (e : FbxLayerElementTemplate α) (v : α) : FbxLayerElementTemplate α :=
  { e with mDirectArray := e.mDirectArray ++ [v] }

/-- The SDK call `GetIndexArray().SetCount(n)`: resize, new slots zero. -/
def IndexSetCount {α : Type} (e : FbxLayerElementTemplate α) (n : Nat) :
    FbxLayerElementTemplate α :=
  { e with mIndexArray := (e.mIndexArray ++ List.replicate n 0).take n }

/-- The SDK call `GetIndexArray().SetAt(i, v)`. -/
def IndexSetAt {α : Type} (e : FbxLayerElementTemplate α) (i : Nat) (v : Int) :
    FbxLayerElementTemplate α :=
  { e with mIndexArray := e.mIndexArray.set i v }

end FbxLayerElementTemplate

/-- An `FbxLayer`: at most one element of each kind.  The kinds the program
touches are normals, vertex colours and materials; UVs stand for the kinds it
never touches. -/
structure FbxLayer where
  mNormals : Option (FbxLayerElementTemplate FbxVector4)
  mVertexColors : Option (FbxLayerElementTemplate FbxColor)
  mMaterials : Option (FbxLayerElementTemplate Nat)
  mUVs : Option (FbxLayerElementTemplate (ℚ × ℚ))
deriving DecidableEq

namespace FbxLayer

/-- A newly created, empty layer. -/
def Create : FbxLayer :=
  { mNormals := none, mVertexColors := none, mMaterials := none, mUVs := none }

/-- Update the normal element of a layer through its pointer. -/
def modifyNormals (l : FbxLayer)
    (f : FbxLayerElementTemplate FbxVector4 → FbxLayerElementTemplate FbxVector4) : FbxLayer :=
  { l with mNormals := l.mNormals.map f }

/-- Update the vertex-colour element of a layer through its pointer. -/
def modifyVertexColors (l : FbxLayer)
    (f : FbxLayerElementTemplate FbxColor → FbxLayerElementTemplate FbxColor) : FbxLayer :=
  { l with mVertexColors := l.mVertexColors.map f }

/-- Update the material element of a layer through its pointer. -/
def modifyMaterials (l : FbxLayer)
    (f : FbxLayerElementTemplate Nat → FbxLayerElementTemplate Nat) : FbxLayer :=
  { l with mMaterials := l.mMaterials.map f }

end FbxLayer

/-- Index of the first layer satisfying `free`, if any. -/
def findLayer (free : FbxLayer → Bool) : List FbxLayer → Option Nat
  | [] => none
  | l :: ls => if free l then some 0 else (findLayer free ls).map (· + 1)

/-! ## Geometry, deformers, nodes, scene -/

/-- An `FbxMesh`.  `mNode` is the node the mesh is attached to, `mDeformers`
the ids of its deformers, a polygon is the list of its control-point indices. -/
structure FbxMesh where
  mName : String
  mNode : Option Nat
  mControlPoints : List FbxVector4
  mPolygons : List (List Int)
  mLayers : List FbxLayer
  mDeformers : List Nat
deriving DecidableEq

/-- An `FbxShape` (target shape): its control points, the array of the
control-point indices it affects, and its layers. -/
structure FbxShape where
  mName : String
  mControlPoints : List FbxVector4
  mControlPointIndices : List Int
  mLayers : List FbxLayer
deriving DecidableEq

/-- An `FbxBlendShapeChannel`: its target shapes and the deformer it belongs to. -/
structure FbxBlendShapeChannel where
  mName : String
  mTargetShapes : List FbxShape
  mBlendShapeDeformer : Option Nat
deriving DecidableEq

/-- An `FbxBlendShape` deformer: the geometry it deforms and its channels. -/
structure FbxBlendShape where
  mName : String
  mGeometry : Option Nat
  mChannels : List FbxBlendShapeChannel
deriving DecidableEq

/-- An `FbxDeformer`, by runtime class. -/
inductive FbxDeformer where
  | eBlendShape (morpher : FbxBlendShape)
  | eSkin
  | eVertexCache
  | eUnknown
deriving DecidableEq

/-- An `FbxSurfacePhong` material. -/
structure FbxSurfacePhong where
  mName : String
  Emissive : FbxDouble3
  Ambient : FbxDouble3
  Diffuse : FbxDouble3
  TransparencyFactor : ℚ
  ShadingModel : String
  Shininess : ℚ
deriving DecidableEq

/-- An `FbxNode`.  `mNodeAttribute` is the id of the attached mesh (`GetMesh()`),
`mChildren` the ids of its child nodes, `mMaterials` the ids of its materials. -/
structure FbxNode where
  mName : String
  mNodeAttribute : Option Nat
  mChildren : List Nat
  LclTranslation : FbxDouble3
  LclRotation : FbxDouble3
  LclScaling : FbxDouble3
  mMaterials : List Nat
  mShadingMode : EShadingMode
deriving DecidableEq

/-- An `FbxScene`.  Node id 0 is the root node, node id `i + 1` is `mNodes[i]`;
mesh, deformer and material ids index the other arrays.  A destroyed deformer
leaves `none` in its slot. -/
structure FbxScene where
  mRootNode : FbxNode
  mNodes : List FbxNode
  mMeshes : List FbxMesh
  mDeformers : List (Option FbxDeformer)
  mMaterials : List FbxSurfacePhong
deriving DecidableEq

/-! ## SDK operations -/

namespace FbxLayer

/-- The SDK call `GetLayerElementOfType(FbxLayerElement::eVertexColor)`. -/
def GetVertexColors (l : FbxLayer) : Option (FbxLayerElementTemplate FbxColor) :=
  l.mVertexColors

/-- The SDK call `CreateLayerElementOfType(FbxLayerElement::eVertexColor)`:
a new vertex-colour element is created and set on the layer. -/
def CreateVertexColors (l : FbxLayer) : FbxLayer :=
  { l with mVertexColors := some FbxLayerElementTemplate.Create }

/-- The SDK call `GetNormals()`. -/
def GetNormals (l : FbxLayer) : Option (FbxLayerElementTemplate FbxVector4) :=
  l.mNormals

end FbxLayer

namespace FbxMesh

/-- A mesh as `FbxMesh::Create` makes it: named, otherwise empty. -/
def Create (pName : String) : FbxMesh :=
  { mName := pName, mNode := none, mControlPoints := [], mPolygons := [], mLayers := [],
    mDeformers := [] }

/-- The SDK call `GetLayerCount()`. -/
def GetLayerCount (m : FbxMesh) : Nat := m.mLayers.length

/-- The SDK call `GetLayer(i)`. -/
def GetLayer (m : FbxMesh) (i : Nat) : Option FbxLayer := m.mLayers[i]?

/-- The SDK call `GetControlPointsCount()`. -/
def GetControlPointsCount (m : FbxMesh) : Nat := m.mControlPoints.length

/-- Update layer `i` of a mesh through its pointer. -/
def modifyLayer (m : FbxMesh) (i : Nat) (f : FbxLayer → FbxLayer) : FbxMesh :=
  { m with mLayers := modifyAt f i m.mLayers }

/-- The SDK call `InitControlPoints(n)`: `n` control points are allocated. -/
def InitControlPoints (m : FbxMesh) (n : Nat) : FbxMesh :=
  { m with mControlPoints := List.replicate n FbxVector4.zero }

/-- The SDK call `CreateElementNormal()`: the element is created on the first
layer that has no normals, on a new layer if there is none.  Returns the index
of the layer that holds the new element. -/
def CreateElementNormal (m : FbxMesh) : Nat × FbxMesh :=
  match findLayer (fun l => l.mNormals.isNone) m.mLayers with
  | some i => (i, m.modifyLayer i fun l => { l with mNormals := some FbxLayerElementTemplate.Create })
  | none => (m.mLayers.length,
      { m with mLayers := m.mLayers ++
          [{ FbxLayer.Create with mNormals := some FbxLayerElementTemplate.Create }] })

/-- The SDK call `CreateElementVertexColor()`, as `CreateElementNormal`. -/
def CreateElementVertexColor (m : FbxMesh) : Nat × FbxMesh :=
  match findLayer (fun l => l.mVertexColors.isNone) m.mLayers with
  | some i =>
    (i, m.modifyLayer i fun l => { l with mVertexColors := some FbxLayerElementTemplate.Create })
  | none => (m.mLayers.length,
      { m with mLayers := m.mLayers ++
          [{ FbxLayer.Create with mVertexColors := some FbxLayerElementTemplate.Create }] })

/-- The SDK call `CreateElementMaterial()`, as `CreateElementNormal`. -/
def CreateElementMaterial (m : FbxMesh) : Nat × FbxMesh :=
  match findLayer (fun l => l.mMaterials.isNone) m.mLayers with
  | some i =>
    (i, m.modifyLayer i fun l => { l with mMaterials := some FbxLayerElementTemplate.Create })
  | none => (m.mLayers.length,
      { m with mLayers := m.mLayers ++
          [{ FbxLayer.Create with mMaterials := some FbxLayerElementTemplate.Create }] })

/-- The SDK call `BeginPolygon()` with its default arguments (no material, no
texture, no group): a new polygon without vertices is opened. -/
def BeginPolygon (m : FbxMesh) : FbxMesh :=
  { m with mPolygons := m.mPolygons ++ [[]] }

/-- The SDK call `AddPolygon(pIndex)`: a vertex is added to the open polygon. -/
def AddPolygon (m : FbxMesh) (pIndex : Int) : FbxMesh :=
  { m with mPolygons := modifyAt (fun poly => poly ++ [pIndex]) (m.mPolygons.length - 1) m.mPolygons }

/-- The SDK call `EndPolygon()`: the open polygon is closed. -/
def EndPolygon (m : FbxMesh) : FbxMesh := m

end FbxMesh

namespace FbxShape

/-- The SDK call `GetLayerCount()`. -/
def GetLayerCount (s : FbxShape) : Nat := s.mLayers.length

/-- The SDK call `GetControlPointIndicesCount()`. -/
def GetControlPointIndicesCount (s : FbxShape) : Nat := s.mControlPointIndices.length

/-- The SDK call `GetControlPointAt(pIndex)`: `FbxVector4(0, 0, 0)` when the
index is out of range. -/
def GetControlPointAt (s : FbxShape) (pIndex : Int) : FbxVector4 :=
  getAt s.mControlPoints pIndex FbxVector4.zero

end FbxShape

namespace FbxNode

/-- A node as `FbxNode::Create` makes it: named, no attribute, no children,
identity local transform, no material. -/
def Create (pName : String) : FbxNode :=
  { mName := pName, mNodeAttribute := none, mChildren := [],
    LclTranslation := ⟨0, 0, 0⟩, LclRotation := ⟨0, 0, 0⟩, LclScaling := ⟨1, 1, 1⟩,
    mMaterials := [], mShadingMode := .eHardShading }

/-- The SDK call `AddChild(child)`. -/
def AddChild (n : FbxNode) (child : Nat) : FbxNode :=
  { n with mChildren := n.mChildren ++ [child] }

/-- The SDK call `AddMaterial(pMaterial)`; a null material is not added. -/
def AddMaterial (n : FbxNode) (pMaterial : Option Nat) : FbxNode :=
  match pMaterial with
  | some mat => { n with mMaterials := n.mMaterials ++ [mat] }
  | none => n

/-- The SDK call `SetShadingMode(mode)`. -/
def SetShadingMode (n : FbxNode) (mode : EShadingMode) : FbxNode :=
  { n with mShadingMode := mode }

end FbxNode

namespace FbxScene

/-- The SDK call `GetNodeCount()`. -/
def GetNodeCount (s : FbxScene) : Nat := s.mNodes.length + 1

/-- The SDK call `GetNode(i)`; `none` for an id that names no node. -/
def GetNode (s : FbxScene) : Nat → Option FbxNode
  | 0 => some s.mRootNode
  | i + 1 => s.mNodes[i]?

/-- The mesh with the given id; `none` for an id that names no mesh. -/
def GetMeshAt (s : FbxScene) (mesh : Nat) : Option FbxMesh := s.mMeshes[mesh]?

/-- The blend-shape deformer with the given id; `none` for an id that names
no live blend shape. -/
def GetBlendShapeAt (s : FbxScene) (morpher : Nat) : Option FbxBlendShape :=
  match s.mDeformers[morpher]? with
  | some (some (.eBlendShape b)) => some b
  | _ => none

/-- The pointer chain `mesh->GetNode()`; `none` when a pointer on the way is null. -/
def GetNodeOfMesh (s : FbxScene) (mesh : Nat) : Option FbxNode := do
  let m ← s.GetMeshAt mesh
  let node ← m.mNode
  s.GetNode node

/-- The pointer chain `mtChannel->GetBlendShapeDeformer()->GetGeometry()->GetNode()`;
`none` when a pointer on the way is null. -/
def GetNodeOfChannel (s : FbxScene) (mtChannel : FbxBlendShapeChannel) : Option FbxNode := do
  let morpher ← mtChannel.mBlendShapeDeformer
  let blendShape ← s.GetBlendShapeAt morpher
  let geometry ← blendShape.mGeometry
  s.GetNodeOfMesh geometry

end FbxScene

/-! ## The program -/

/-- The function `preprocessSourceMesh` of FBXUtils.cpp.  Returns the result
and the mesh as the call leaves it. -/
def preprocessSourceMesh (mesh : FbxMesh) : Bool × FbxMesh :=
  -- Source mesh must have a layer of vertex data, which must not have vertex colors
  if mesh.GetLayerCount ≤ 0 ||
      ((mesh.GetLayer 0).bind FbxLayer.GetVertexColors).isSome then
    (false, mesh)
  else
    -- Initialize color array
    let mesh := mesh.modifyLayer 0 FbxLayer.CreateVertexColors
    let mesh := mesh.modifyLayer 0 fun l =>
      l.modifyVertexColors fun colors => colors.SetMappingMode .eByControlPoint
    let mesh := mesh.modifyLayer 0 fun l =>
      l.modifyVertexColors fun colors => colors.SetReferenceMode .eDirect
    -- Fill color array
    let mesh := (List.range mesh.GetControlPointsCount).foldl
      (fun mesh cpi => mesh.modifyLayer 0 fun l =>
        l.modifyVertexColors fun colors => colors.DirectAdd (getColorFromUInt (toUInt cpi)))
      mesh
    (true, mesh)

/-- One iteration of the copy loop of `extractMorphTarget` (lines 98-109), for
compacted slot `cpi`.  `mtnorms` is the layer of the new normal element (`none`
for `NULL`), `mtcolors` the layer of the new colour element. -/
def copyTargetVertex (mt : FbxShape) (mtLayer0 : FbxLayer) (mtnorms : Option Nat)
    (mtcolors : Nat) (mtmesh : FbxMesh) (cpi : Nat) : FbxMesh :=
  let tvi := mt.mControlPointIndices.getD cpi 0
  let mtmesh := { mtmesh with
    mControlPoints := mtmesh.mControlPoints.set cpi (mt.GetControlPointAt tvi) }
  let mtmesh :=
    match mtnorms, mtLayer0.GetNormals with
    | some mtnorms, some normals =>
      mtmesh.modifyLayer mtnorms fun l =>
        l.modifyNormals fun e => e.DirectAdd (getAt normals.mDirectArray tvi FbxVector4.zero)
    | _, _ => mtmesh
  -- "Hide" affected vertex index in the color channel
  mtmesh.modifyLayer mtcolors fun l =>
    l.modifyVertexColors fun e => e.DirectAdd (getColorFromUInt (toUInt tvi))

/-- Read of a C array at an `int` index: the stored element, and `none` when
the index is outside the array, where the read has no defined value. -/
def readAt {α : Type} (l : List α) (pIndex : Int) : Option α :=
  if 0 ≤ pIndex then l[pIndex.toNat]? else none

/-- One iteration of the copy loop of `extractMorphTarget` (lines 98-109), the
statements of `copyTargetVertex` with every array access checked against the
bounds of its array: the read `mt->GetControlPointIndices()[cpi]`, the read
`mt->GetControlPointAt(tvi)`, the store `mtverts[cpi] = ..` into the allocated
control points and the read `..->GetNormals()->GetDirectArray()[tvi]`.  The
result is `none` when an access of the iteration falls outside its array. -/
def copyTargetVertexChecked (mt : FbxShape) (mtLayer0 : FbxLayer) (mtnorms : Option Nat)
    (mtcolors : Nat) (mtmesh : FbxMesh) (cpi : Nat) : Option FbxMesh := do
  let tvi ← mt.mControlPointIndices[cpi]?
  let vertex ← readAt mt.mControlPoints tvi
  if mtmesh.mControlPoints.length ≤ cpi then none
  else
    let mtmesh := { mtmesh with mControlPoints := mtmesh.mControlPoints.set cpi vertex }
    let mtmesh ←
      match mtnorms, mtLayer0.GetNormals with
      | some mtnorms, some normals => do
        let normal ← readAt normals.mDirectArray tvi
        some (mtmesh.modifyLayer mtnorms fun l => l.modifyNormals fun e => e.DirectAdd normal)
      | _, _ => some mtmesh
    -- "Hide" affected vertex index in the color channel
    some (mtmesh.modifyLayer mtcolors fun l =>
      l.modifyVertexColors fun e => e.DirectAdd (getColorFromUInt (toUInt tvi)))

/-- One iteration of the face loop of `extractMorphTarget` (lines 113-122). -/
def addDummyFace (mtmesh : FbxMesh) (fi : Nat) : FbxMesh :=
  let mtmesh := mtmesh.BeginPolygon
  let mtmesh := mtmesh.AddPolygon (3 * fi)
  let mtmesh := mtmesh.AddPolygon (3 * fi + 1)
  let mtmesh := mtmesh.AddPolygon (3 * fi + 2)
  mtmesh.EndPolygon

/-- One iteration of the material loop of `extractMorphTarget` (lines 132-133). -/
def applyDummyMaterial (mtmats : Nat) (mtmesh : FbxMesh) (fi : Nat) : FbxMesh :=
  mtmesh.modifyLayer mtmats fun l => l.modifyMaterials fun e => e.IndexSetAt fi 0

/-- Lines 79-133 of `extractMorphTarget`, the statements on the new mesh:
vertices, normals and colours are filled from the target shape `mt` (whose
first layer is `mtLayer0`), then the dummy faces and the material indices. -/
def defineMorphTargetMesh (mt : FbxShape) (mtLayer0 : FbxLayer) (mtmesh : FbxMesh) : FbxMesh :=
  -- Initialize vertex array
  let mtmesh := mtmesh.InitControlPoints mt.GetControlPointIndicesCount
  -- Initialize normal array
  let (mtnorms, mtmesh) : Option Nat × FbxMesh :=
    match mtLayer0.GetNormals with
    | some _ =>
      let (mtnorms, mtmesh) := mtmesh.CreateElementNormal
      let mtmesh := mtmesh.modifyLayer mtnorms fun l =>
        l.modifyNormals fun e => e.SetMappingMode .eByControlPoint
      let mtmesh := mtmesh.modifyLayer mtnorms fun l =>
        l.modifyNormals fun e => e.SetReferenceMode .eDirect
      (some mtnorms, mtmesh)
    | none => (none, mtmesh)
  -- Initialize color (but really target vertex index) array
  let (mtcolors, mtmesh) := mtmesh.CreateElementVertexColor
  let mtmesh := mtmesh.modifyLayer mtcolors fun l =>
    l.modifyVertexColors fun e => e.SetMappingMode .eByControlPoint
  let mtmesh := mtmesh.modifyLayer mtcolors fun l =>
    l.modifyVertexColors fun e => e.SetReferenceMode .eDirect
  -- Set target vertices and normals
  let mtmesh := (List.range mt.GetControlPointIndicesCount).foldl
    (copyTargetVertex mt mtLayer0 mtnorms mtcolors) mtmesh
  -- Create "dummy" faces
  let num_faces := mtmesh.GetControlPointsCount / 3
  let mtmesh := (List.range num_faces).foldl addDummyFace mtmesh
  -- Apply "dummy" material
  let (mtmats, mtmesh) := mtmesh.CreateElementMaterial
  let mtmesh := mtmesh.modifyLayer mtmats fun l =>
    l.modifyMaterials fun e => e.SetMappingMode .eByPolygon
  let mtmesh := mtmesh.modifyLayer mtmats fun l =>
    l.modifyMaterials fun e => e.SetReferenceMode .eIndexToDirect
  -- Apply to each face
  let mtmesh := mtmesh.modifyLayer mtmats fun l =>
    l.modifyMaterials fun e => e.IndexSetCount num_faces
  (List.range num_faces).foldl (applyDummyMaterial mtmats) mtmesh

/-- Lines 79-95 of `extractMorphTarget`, the statements of
`defineMorphTargetMesh` before the copy loop: the layer of the new normal
element (`none` for `NULL`), the layer of the new colour element, and the new
mesh at the entry of the loop. -/
def copyLoopEntry (mt : FbxShape) (mtLayer0 : FbxLayer) (mtmesh : FbxMesh) :
    Option Nat × Nat × FbxMesh :=
  -- Initialize vertex array
  let mtmesh := mtmesh.InitControlPoints mt.GetControlPointIndicesCount
  -- Initialize normal array
  let (mtnorms, mtmesh) : Option Nat × FbxMesh :=
    match mtLayer0.GetNormals with
    | some _ =>
      let (mtnorms, mtmesh) := mtmesh.CreateElementNormal
      let mtmesh := mtmesh.modifyLayer mtnorms fun l =>
        l.modifyNormals fun e => e.SetMappingMode .eByControlPoint
      let mtmesh := mtmesh.modifyLayer mtnorms fun l =>
        l.modifyNormals fun e => e.SetReferenceMode .eDirect
      (some mtnorms, mtmesh)
    | none => (none, mtmesh)
  -- Initialize color (but really target vertex index) array
  let (mtcolors, mtmesh) := mtmesh.CreateElementVertexColor
  let mtmesh := mtmesh.modifyLayer mtcolors fun l =>
    l.modifyVertexColors fun e => e.SetMappingMode .eByControlPoint
  let mtmesh := mtmesh.modifyLayer mtcolors fun l =>
    l.modifyVertexColors fun e => e.SetReferenceMode .eDirect
  (mtnorms, mtcolors, mtmesh)

/-- Lines 111-133 of `extractMorphTarget`, the statements of
`defineMorphTargetMesh` after the copy loop: the dummy faces and the material
indices. -/
def addDummyFaces (mtmesh : FbxMesh) : FbxMesh :=
  -- Create "dummy" faces
  let num_faces := mtmesh.GetControlPointsCount / 3
  let mtmesh := (List.range num_faces).foldl addDummyFace mtmesh
  -- Apply "dummy" material
  let (mtmats, mtmesh) := mtmesh.CreateElementMaterial
  let mtmesh := mtmesh.modifyLayer mtmats fun l =>
    l.modifyMaterials fun e => e.SetMappingMode .eByPolygon
  let mtmesh := mtmesh.modifyLayer mtmats fun l =>
    l.modifyMaterials fun e => e.SetReferenceMode .eIndexToDirect
  -- Apply to each face
  let mtmesh := mtmesh.modifyLayer mtmats fun l =>
    l.modifyMaterials fun e => e.IndexSetCount num_faces
  (List.range num_faces).foldl (applyDummyMaterial mtmats) mtmesh

/-- The function `extractMorphTarget` of FBXUtils.cpp, on the globals `gModel`
and `gMat`.  The outer `none` is a null-pointer dereference (undefined
behaviour); otherwise the result is the returned mesh (`none` for `NULL`, else
the id of the new mesh) and the scene as the call leaves it.  The new node and
the new mesh get the next free ids of the scene; the statements on them are
applied to the new objects, which are stored in the scene under those ids.
The statements on the new mesh (`defineMorphTargetMesh`) and those on the new
node touch different objects, so the two on the node that the source
interleaves (lines 129 and 135) are applied after those on the mesh. -/
def extractMorphTarget (gModel : FbxScene) (gMat : Option Nat) (srcMesh : Nat)
    (mtChannel : FbxBlendShapeChannel) : Option (Option Nat × FbxScene) :=
  -- There needs to be one morph target defined
  match mtChannel.mTargetShapes with
  | [] => some (none, gModel)
  | mt :: _ =>
    -- Morph target mesh must have a layer of vertex data
    match mt.mLayers with
    | [] => some (none, gModel)
    | mtLayer0 :: _ => do
      -- Create new morph target mesh
      let srcNode ← gModel.GetNodeOfMesh srcMesh
      let mt_name := "MT&" ++ srcNode.mName ++ "&" ++ mt.mName
      let mtnodeId := gModel.GetNodeCount
      let mtnode := FbxNode.Create mt_name
      let mtmeshId := gModel.mMeshes.length
      let mtmesh := FbxMesh.Create mt_name
      let mtnode := { mtnode with mNodeAttribute := some mtmeshId }
      let mtmesh := { mtmesh with mNode := some mtnodeId }
      let gModel := { gModel with mRootNode := gModel.mRootNode.AddChild mtnodeId }
      let scalingNode ← gModel.GetNodeOfChannel mtChannel
      let mtnode := { mtnode with LclScaling := scalingNode.LclScaling }
      -- Define vertices, dummy faces, dummy material
      let mtmesh := defineMorphTargetMesh mt mtLayer0 mtmesh
      -- Add to node
      let mtnode := mtnode.AddMaterial gMat
      let mtnode := mtnode.SetShadingMode .eLightShading
      some (some mtmeshId,
        { gModel with mNodes := gModel.mNodes ++ [mtnode], mMeshes := gModel.mMeshes ++ [mtmesh] })

/-- The globals `gModel` and `gMat` of FBXUtils.cpp. -/
structure Globals where
  gModel : FbxScene
  gMat : Option Nat
deriving DecidableEq

namespace FbxScene

/-- Store a mesh under an existing id. -/
def setMesh (s : FbxScene) (mesh : Nat) (m : FbxMesh) : FbxScene :=
  { s with mMeshes := s.mMeshes.set mesh m }

/-- The SDK call `FbxSurfacePhong::Create(scene, name)`: the id of the new
material and the scene that holds it. -/
def CreateSurfacePhong (s : FbxScene) (mat : FbxSurfacePhong) : Nat × FbxScene :=
  (s.mMaterials.length, { s with mMaterials := s.mMaterials ++ [mat] })

/-- The SDK call `morpher->Destroy()`: the object is deleted and all its
connections are removed, so no mesh lists it as a deformer any more. -/
def DestroyDeformer (s : FbxScene) (morpher : Nat) : FbxScene :=
  { s with
    mDeformers := s.mDeformers.set morpher none
    mMeshes := s.mMeshes.map fun m =>
      { m with mDeformers := m.mDeformers.filter fun d => d ≠ morpher } }

end FbxScene

/-- Lines 199-211 of `preprocessMorphMeshes`: the first deformer of the list
whose runtime class is `FbxBlendShape`, if any. -/
def findMorpher (gModel : FbxScene) : List Nat → Option Nat
  | [] => none
  | d :: rest =>
    if (gModel.GetBlendShapeAt d).isSome then some d else findMorpher gModel rest

/-- One iteration of the scan loop of `preprocessMorphMeshes` (lines 190-215)
on the vectors `meshes` and `morphers`. -/
def scanNode (gModel : FbxScene) (acc : List Nat × List Nat) (node_i : Nat) :
    Option (List Nat × List Nat) := do
  let node ← gModel.GetNode node_i
  match node.mNodeAttribute with
  | none => some acc
  | some mesh =>
    let m ← gModel.GetMeshAt mesh
    if m.GetLayerCount ≤ 0 then some acc
    else
      match findMorpher gModel m.mDeformers with
      | some morpher => some (acc.1 ++ [mesh], acc.2 ++ [morpher])
      | none => some acc

/-- One iteration of the processing loop of `preprocessMorphMeshes`
(lines 218-242) for the recorded pair `mesh`, `morpher`. -/
def processMorphedMesh (gModel : FbxScene) (gMat : Option Nat) (mesh morpher : Nat) :
    Option FbxScene := do
  let m ← gModel.GetMeshAt mesh
  let gModel := gModel.setMesh mesh (preprocessSourceMesh m).2
  let blendShape ← gModel.GetBlendShapeAt morpher
  let gModel ← (List.range blendShape.mChannels.length).foldlM
    (fun gModel morph_i => do
      let mtChannel ← blendShape.mChannels[morph_i]?
      -- Prepare morph target mesh
      let r ← extractMorphTarget gModel gMat mesh mtChannel
      pure r.2)
    gModel
  -- Destroy the original morph data
  let m ← gModel.GetMeshAt mesh
  if morpher ∈ m.mDeformers then
    let gModel := gModel.setMesh mesh { m with mDeformers := m.mDeformers.erase morpher }
    some (gModel.DestroyDeformer morpher)
  else some gModel

/-- The function `preprocessMorphMeshes` of FBXUtils.cpp on the globals.  The
outer `none` is a dereference of a null or dangling pointer. -/
def preprocessMorphMeshes (g : Globals) : Option (Bool × Globals) := do
  -- Create "dummy" material
  let (gMat, gModel) := g.gModel.CreateSurfacePhong
    { mName := "MTMat", Emissive := ⟨0, 0, 0⟩, Ambient := ⟨0, 0, 0⟩, Diffuse := ⟨0, 0, 0⟩,
      TransparencyFactor := 100, ShadingModel := "Phong", Shininess := 0 }
  let gMat := some gMat
  -- Get all the morphed meshes in the model
  let (meshes, morphers) ← (List.range gModel.GetNodeCount).foldlM (scanNode gModel) ([], [])
  -- Preprocess each mesh
  let gModel ← (List.range meshes.length).foldlM
    (fun gModel mesh_i => do
      let mesh ← meshes[mesh_i]?
      let morpher ← morphers[mesh_i]?
      processMorphedMesh gModel gMat mesh morpher)
    gModel
  some (true, { gModel := gModel, gMat := gMat })

/-- What `main` does that is visible from outside: a call of a function of
FBXUtils.h, or a line written to the standard output. -/
inductive Step where
  | initFbxSdk
  | importFbxModel
  | preprocessMorphMeshes
  | exportFbxModel
  | shutdownFbxSdk
  | print (line : String)
deriving DecidableEq

/-- The function `main` of FBXMorphPreprocess/main.cpp as the sequence of its
steps, given `argc`, the results of the calls it makes and the error strings
the importer and the exporter leave in `gErrStr` when they fail. -/
def main (argc : Nat) (initOk importOk preprocessOk exportOk : Bool)
    (importErr exportErr : String) : List Step :=
  if argc ≤ 1 then [.print "Error: FBX file not specified."]
  else if !initOk then [.initFbxSdk, .print "Error: Failed to initialize FBX SDK."]
  else
    let gErrStr := ""
    let steps := [Step.initFbxSdk, .importFbxModel]
    let gErrStr := if !importOk then importErr else gErrStr
    let steps :=
      if !importOk then
        steps ++ [.print "Error: Failed to import FBX model.", .print gErrStr]
      else steps
    let steps := steps ++ [.preprocessMorphMeshes]
    if !preprocessOk then
      steps ++ [.print "Error: Failed to preprocess FBX model.", .print gErrStr]
    else
      let steps := steps ++ [.exportFbxModel]
      let gErrStr := if !exportOk then exportErr else gErrStr
      let steps :=
        if !exportOk then
          steps ++ [.print "Error: Failed to export FBX model.", .print gErrStr]
        else steps
      steps ++ [.shutdownFbxSdk]

/-! ## Derived data and examples -/

/-- The body of the channel loop of `preprocessMorphMeshes` (line 228) on one
channel: `extractMorphTarget` is called and its result is dropped. -/
def extractChannel (gMat : Option Nat) (mesh : Nat) (gModel : FbxScene)
    (mtChannel : FbxBlendShapeChannel) : Option FbxScene :=
  (extractMorphTarget gModel gMat mesh mtChannel).map fun r => r.2

/-- Lines 231-241 of `preprocessMorphMeshes` on a scene in which `mesh` names
the mesh `m`: the first entry of the deformer list equal to `morpher` is
removed and the deformer is destroyed. -/
def stripMorpher (gModel : FbxScene) (mesh morpher : Nat) (m : FbxMesh) : FbxScene :=
  if morpher ∈ m.mDeformers then
    (gModel.setMesh mesh { m with mDeformers := m.mDeformers.erase morpher }).DestroyDeformer
      morpher
  else gModel

/-- The scene after the first statements of `preprocessMorphMeshes`
(lines 176-184): the dummy material `gMat` has been created in it. -/
def withDummyMaterial (gModel : FbxScene) : FbxScene :=
  (gModel.CreateSurfacePhong
    { mName := "MTMat", Emissive := ⟨0, 0, 0⟩, Ambient := ⟨0, 0, 0⟩, Diffuse := ⟨0, 0, 0⟩,
      TransparencyFactor := 100, ShadingModel := "Phong", Shininess := 0 }).2

/-- What the scan of `preprocessMorphMeshes` is to record for node `node_i`,
in the words of the specification: for a node whose mesh has at least one
layer, the mesh and the first blend-shape deformer of its deformer list. -/
def recordedPair (s : FbxScene) (node_i : Nat) : Option (Nat × Nat) := do
  let node ← s.GetNode node_i
  let mesh ← node.mNodeAttribute
  let m ← s.GetMeshAt mesh
  if m.GetLayerCount ≤ 0 then none
  else
    let morpher ← m.mDeformers.find? fun d => (s.GetBlendShapeAt d).isSome
    some (mesh, morpher)

/-- The pairs the scan is to record for a scene, in node order. -/
def recordedPairs (s : FbxScene) : List (Nat × Nat) :=
  (List.range s.GetNodeCount).filterMap (recordedPair s)

/-- A scene in which every object has one owner: the mesh attached to a node
names that node as its node, so no mesh is attached to two nodes, a
blend-shape deformer in the deformer list of a mesh names that mesh as its
geometry, and its channels name it as their deformer. -/
structure WellFormed (s : FbxScene) : Prop where
  nodeAttr : ∀ i node k, s.GetNode i = some node → node.mNodeAttribute = some k →
    ∃ m, s.GetMeshAt k = some m ∧ m.mNode = some i
  deformerOwner : ∀ k m d blendShape, s.GetMeshAt k = some m → d ∈ m.mDeformers →
    s.GetBlendShapeAt d = some blendShape →
    blendShape.mGeometry = some k ∧
      ∀ mtChannel ∈ blendShape.mChannels, mtChannel.mBlendShapeDeformer = some d

/-- The links of the object graph the pass follows, in a scene that may attach
one mesh to several nodes: the mesh attached to a node has a node
(`mesh->GetNode()` is not null), a blend-shape deformer in the deformer list
of a mesh names that mesh as its geometry, and its channels name it as their
deformer. -/
structure Linked (s : FbxScene) : Prop where
  nodeAttr : ∀ i node k, s.GetNode i = some node → node.mNodeAttribute = some k →
    (s.GetNodeOfMesh k).isSome = true
  deformerOwner : ∀ k m d blendShape, s.GetMeshAt k = some m → d ∈ m.mDeformers →
    s.GetBlendShapeAt d = some blendShape →
    blendShape.mGeometry = some k ∧
      ∀ mtChannel ∈ blendShape.mChannels, mtChannel.mBlendShapeDeformer = some d

/-- The scene `s1` is the scene `s` after steps that keep deformers, the node
and the deformer list of every mesh and the attribute and the name of every
node, and may add nodes that carry new meshes without deformers. -/
structure Grows (s s1 : FbxScene) : Prop where
  blend : ∀ d, s1.GetBlendShapeAt d = s.GetBlendShapeAt d
  meshes : ∀ k m, s.GetMeshAt k = some m →
    ∃ m1, s1.GetMeshAt k = some m1 ∧ m1.mNode = m.mNode ∧ m1.mDeformers = m.mDeformers
  newMeshes : ∀ k m1, s1.GetMeshAt k = some m1 → s.GetMeshAt k = none → m1.mDeformers = []
  nodes : ∀ i n, s.GetNode i = some n →
    ∃ n1, s1.GetNode i = some n1 ∧ n1.mNodeAttribute = n.mNodeAttribute ∧ n1.mName = n.mName
  newNodes : ∀ i n1, s1.GetNode i = some n1 → s.GetNode i = none →
    ∃ k, n1.mNodeAttribute = some k ∧ s.GetMeshAt k = none

/-- The scene `s` is the scene `s0` after the deformers `D` have been stripped
and destroyed: they are no blend shapes any more and are in no deformer list,
and apart from that `s` is as `Grows` has it. -/
structure Stripped (s0 : FbxScene) (D : List Nat) (s : FbxScene) : Prop where
  blend : ∀ d, s.GetBlendShapeAt d = if d ∈ D then none else s0.GetBlendShapeAt d
  meshes : ∀ k m0, s0.GetMeshAt k = some m0 →
    ∃ m, s.GetMeshAt k = some m ∧ m.mNode = m0.mNode ∧
      m.mDeformers = m0.mDeformers.filter fun d => decide (d ∉ D)
  newMeshes : ∀ k m, s.GetMeshAt k = some m → s0.GetMeshAt k = none → m.mDeformers = []
  nodes : ∀ i n0, s0.GetNode i = some n0 →
    ∃ n, s.GetNode i = some n ∧ n.mNodeAttribute = n0.mNodeAttribute ∧ n.mName = n0.mName
  newNodes : ∀ i n, s.GetNode i = some n → s0.GetNode i = none →
    ∃ k, n.mNodeAttribute = some k ∧ s0.GetMeshAt k = none

/-- The colour array the tagger writes for a mesh with `P` control points. -/
def taggedColors (P : Nat) : FbxLayerElementTemplate FbxColor :=
  { mMappingMode := .eByControlPoint, mReferenceMode := .eDirect,
    mDirectArray := (List.range P).map fun (cpi : Nat) => getColorFromUInt (toUInt cpi),
    mIndexArray := [] }

/-- A mesh with two layers and two control points whose vertex colours are on
the second layer only. -/
def meshColorsOnLayer1 : FbxMesh :=
  { mName := "M", mNode := none,
    mControlPoints := [⟨0, 0, 0, 1⟩, ⟨1, 0, 0, 1⟩],
    mPolygons := [],
    mLayers := [FbxLayer.Create,
      { FbxLayer.Create with mVertexColors := some FbxLayerElementTemplate.Create }],
    mDeformers := [] }

/-- A mesh with one empty layer and three control points. -/
def meshPlain : FbxMesh :=
  { mName := "M", mNode := none,
    mControlPoints := [⟨0, 0, 0, 1⟩, ⟨1, 0, 0, 1⟩, ⟨0, 1, 0, 1⟩],
    mPolygons := [[0, 1, 2]],
    mLayers := [FbxLayer.Create],
    mDeformers := [] }

/-- The first layer of `shapeSmile`: six normals, nothing else. -/
def layerSmile : FbxLayer :=
  { FbxLayer.Create with
    mNormals := some
      { mMappingMode := .eByControlPoint, mReferenceMode := .eDirect,
        mDirectArray := [⟨0, 0, 1, 0⟩, ⟨0, 1, 0, 0⟩, ⟨1, 0, 0, 0⟩, ⟨0, 0, 2, 0⟩, ⟨0, 0, 3, 0⟩,
          ⟨0, 0, 4, 0⟩],
        mIndexArray := [] } }

/-- A target shape over six control points that affects the four control
points 2, 5, 1 and 4, in that order. -/
def shapeSmile : FbxShape :=
  { mName := "smile",
    mControlPoints := [⟨0, 0, 0, 1⟩, ⟨1, 1, 1, 1⟩, ⟨2, 2, 2, 1⟩, ⟨3, 3, 3, 1⟩, ⟨4, 4, 4, 1⟩,
      ⟨5, 5, 5, 1⟩],
    mControlPointIndices := [2, 5, 1, 4],
    mLayers := [layerSmile] }

/-- A channel of deformer 0 whose only target shape is `shapeSmile`. -/
def channelSmile : FbxBlendShapeChannel :=
  { mName := "smile", mTargetShapes := [shapeSmile], mBlendShapeDeformer := some 0 }

/-- A channel of deformer 0 without target shapes. -/
def channelEmpty : FbxBlendShapeChannel :=
  { mName := "empty", mTargetShapes := [], mBlendShapeDeformer := some 0 }

/-- The node "Face" of `sceneFace`: it carries mesh 0 and is scaled by 2. -/
def nodeFace : FbxNode :=
  { FbxNode.Create "Face" with mNodeAttribute := some 0, LclScaling := ⟨2, 2, 2⟩ }

/-- A scene with one node under the root, carrying `meshPlain` with one
blend-shape deformer of one channel, and one material. -/
def sceneFace : FbxScene :=
  { mRootNode := { FbxNode.Create "RootNode" with mChildren := [1] },
    mNodes := [nodeFace],
    mMeshes := [{ meshPlain with mNode := some 1, mDeformers := [0] }],
    mDeformers :=
      [some (.eBlendShape { mName := "morpher", mGeometry := some 0, mChannels := [channelSmile] })],
    mMaterials :=
      [{ mName := "MTMat", Emissive := ⟨0, 0, 0⟩, Ambient := ⟨0, 0, 0⟩, Diffuse := ⟨0, 0, 0⟩,
         TransparencyFactor := 100, ShadingModel := "Phong", Shininess := 0 }] }

/-- The scene `sceneFace` after `extractMorphTarget` on mesh 0 and `channelSmile`. -/
def sceneFaceExtracted : FbxScene :=
  { sceneFace with
    mRootNode := sceneFace.mRootNode.AddChild sceneFace.GetNodeCount
    mNodes := sceneFace.mNodes ++
      [{ mName := "MT&" ++ nodeFace.mName ++ "&" ++ shapeSmile.mName
         mNodeAttribute := some sceneFace.mMeshes.length
         mChildren := []
         LclTranslation := ⟨0, 0, 0⟩
         LclRotation := ⟨0, 0, 0⟩
         LclScaling := nodeFace.LclScaling
         mMaterials := [0]
         mShadingMode := .eLightShading }]
    mMeshes := sceneFace.mMeshes ++
      [defineMorphTargetMesh shapeSmile layerSmile
        { FbxMesh.Create ("MT&" ++ nodeFace.mName ++ "&" ++ shapeSmile.mName) with
          mNode := some sceneFace.GetNodeCount }] }

/-- A target shape with one control point whose index array names control
point 5. -/
def shapeOutOfRange : FbxShape :=
  { mName := "bad", mControlPoints := [⟨0, 0, 0, 1⟩], mControlPointIndices := [5],
    mLayers := [FbxLayer.Create] }

/-- A channel of deformer 1 whose only target shape is `shapeSmile`. -/
def channelFrown : FbxBlendShapeChannel :=
  { mName := "frown", mTargetShapes := [shapeSmile], mBlendShapeDeformer := some 1 }

/-- The scene `sceneFace` with a second blend-shape deformer on its mesh. -/
def sceneTwoMorphers : FbxScene :=
  { sceneFace with
    mMeshes := [{ meshPlain with mNode := some 1, mDeformers := [0, 1] }]
    mDeformers :=
      [some (.eBlendShape { mName := "morpher", mGeometry := some 0, mChannels := [channelSmile] }),
       some (.eBlendShape { mName := "second", mGeometry := some 0, mChannels := [channelFrown] })]
    mMaterials := [] }

/-- The scene `sceneFace` with a mesh that has no layers. -/
def sceneNoLayers : FbxScene :=
  { sceneFace with
    mMeshes := [{ meshPlain with mNode := some 1, mLayers := [], mDeformers := [0] }]
    mMaterials := [] }

/-- A second channel of deformer 0, named "smile2", whose target shape is
`shapeSmile` again. -/
def channelSmile2 : FbxBlendShapeChannel :=
  { mName := "smile2", mTargetShapes := [shapeSmile], mBlendShapeDeformer := some 0 }

/-- The scene `sceneFace` with two channels, named "smile" and "smile2", whose
target shapes are both named "smile". -/
def sceneSameShapeNames : FbxScene :=
  { sceneFace with
    mDeformers :=
      [some (.eBlendShape
        { mName := "morpher", mGeometry := some 0, mChannels := [channelSmile, channelSmile2] })]
    mMaterials := [] }

/-- A channel of deformer 0, named "wink", whose target shape is named "wink". -/
def channelWink : FbxBlendShapeChannel :=
  { mName := "wink", mTargetShapes := [{ shapeSmile with mName := "wink" }],
    mBlendShapeDeformer := some 0 }

/-- The scene `sceneFace` with the two channels "smile" and "wink". -/
def sceneTwoChannels : FbxScene :=
  { sceneFace with
    mDeformers :=
      [some (.eBlendShape
        { mName := "morpher", mGeometry := some 0, mChannels := [channelSmile, channelWink] })]
    mMaterials := [] }

/-- The scene `sceneFace` with a second node "FaceCopy" that carries the same
mesh 0: the morphed mesh is instanced. -/
def sceneInstanced : FbxScene :=
  { sceneFace with
    mRootNode := { FbxNode.Create "RootNode" with mChildren := [1, 2] }
    mNodes := [nodeFace, { nodeFace with mName := "FaceCopy" }]
    mMaterials := [] }

/-- The scene `sceneFace` with a skin before and a vertex cache after the
blend shape in the deformer list of its mesh, and with a second mesh without
deformers that two nodes carry. -/
def sceneSkinned : FbxScene :=
  { mRootNode := { FbxNode.Create "RootNode" with mChildren := [1, 2, 3] },
    mNodes := [nodeFace,
      { FbxNode.Create "Prop" with mNodeAttribute := some 1 },
      { FbxNode.Create "PropCopy" with mNodeAttribute := some 1 }],
    mMeshes := [{ meshPlain with mNode := some 1, mDeformers := [1, 0, 2] },
      { meshPlain with mName := "P", mNode := some 2 }],
    mDeformers :=
      [some (.eBlendShape { mName := "morpher", mGeometry := some 0, mChannels := [channelSmile] }),
       some .eSkin, some .eVertexCache],
    mMaterials := [] }

/-- The scene `sceneTwoChannels` with a mesh that has no layers. -/
def sceneTwoChannelsNoLayers : FbxScene :=
  { sceneTwoChannels with
    mMeshes := [{ meshPlain with mNode := some 1, mLayers := [], mDeformers := [0] }] }

/-- A second channel of deformer 1, named "frown2", whose target shape is named
"wink". -/
def channelFrown2 : FbxBlendShapeChannel :=
  { mName := "frown2", mTargetShapes := [{ shapeSmile with mName := "wink" }],
    mBlendShapeDeformer := some 1 }

/-- The scene `sceneFace` with a second blend-shape deformer on its mesh, which
has the two channels "frown" and "frown2". -/
def sceneSecondMorpher : FbxScene :=
  { sceneFace with
    mMeshes := [{ meshPlain with mNode := some 1, mDeformers := [0, 1] }]
    mDeformers :=
      [some (.eBlendShape { mName := "morpher", mGeometry := some 0, mChannels := [channelSmile] }),
       some (.eBlendShape
         { mName := "second", mGeometry := some 0, mChannels := [channelFrown, channelFrown2] })]
    mMaterials := [] }

/-! ## Index codec -/

theorem and_0xFF (n : Nat) : n &&& 0xFF = n % 256 :=
  Nat.and_pow_two_sub_one_eq_mod n 8

/-- Channel `k` of an encoded index holds byte `3 - k` of the index, over 255. -/
theorem channel_getColorFromUInt (index k : Nat) (hk : k < 4) :
    (getColorFromUInt index).channel k = (((index >>> (8 * (3 - k))) &&& 0xFF : Nat) : ℚ) / 255 := by
  have h4 : k = 0 ∨ k = 1 ∨ k = 2 ∨ k = 3 := by omega
  rcases h4 with rfl | rfl | rfl | rfl <;> simp [getColorFromUInt, FbxColor.channel]

theorem round_channel (index k : Nat) (hk : k < 4) :
    (round ((getColorFromUInt index).channel k * 255)).toNat = (index >>> (8 * (3 - k))) &&& 0xFF := by
  rw [channel_getColorFromUInt index k hk, div_mul_cancel₀ _ (by norm_num : (255 : ℚ) ≠ 0),
    round_natCast, Int.toNat_natCast]

theorem Decode_getColorFromUInt (index : Nat) :
    Decode (getColorFromUInt index) = index % 2 ^ 32 := by
  have e : Decode (getColorFromUInt index) =
      (((index >>> 24) &&& 0xFF) <<< 24) + ((((index >>> 16) &&& 0xFF) <<< 16) +
        ((((index >>> 8) &&& 0xFF) <<< 8) + (((index >>> 0) &&& 0xFF) <<< 0))) := by
    simp only [Decode, List.range_succ, List.range_zero, List.nil_append, List.cons_append,
      List.map_cons, List.map_nil, List.sum_cons, List.sum_nil, Nat.add_zero]
    rw [round_channel index 0 (by norm_num), round_channel index 1 (by norm_num),
      round_channel index 2 (by norm_num), round_channel index 3 (by norm_num)]
  rw [e]
  simp only [and_0xFF, Nat.shiftRight_eq_div_pow, Nat.shiftLeft_eq]
  norm_num
  omega

theorem toUInt_natCast (n : Nat) : toUInt (n : Int) = n % 2 ^ 32 := by
  unfold toUInt
  have h : ((n : Int) % 2 ^ 32) = ((n % 2 ^ 32 : Nat) : Int) := by
    push_cast
    rfl
  rw [h, Int.toNat_natCast]

theorem toUInt_of_lt (n : Nat) (h : n < 2 ^ 32) : toUInt (n : Int) = n := by
  rw [toUInt_natCast, Nat.mod_eq_of_lt h]

/-- C1: round-trip of the index codec.  For every 32-bit unsigned index `i`,
decoding the colour that `getColorFromUInt` produces for `i` gives `i` back,
the channels being the exact rationals byte/255. -/
theorem C1_codec_round_trip (i : Nat) (hi : i < 2 ^ 32) :
    Decode (getColorFromUInt i) = i := by
  rw [Decode_getColorFromUInt, Nat.mod_eq_of_lt hi]

theorem C1_codec_round_trip_witness :
    (305419896 : Nat) < 2 ^ 32 ∧ Decode (getColorFromUInt 305419896) = 305419896 :=
  ⟨by norm_num, C1_codec_round_trip 305419896 (by norm_num)⟩

/-- C2: the encode formula.  For every unsigned index (in particular every
32-bit one) and every `k` in 0..3, channel `k` of `getColorFromUInt index` is
byte `3 - k` of the index (`(index >> (8*(3-k))) & 0xFF`, most significant byte
first) divided by 255, and it lies in [0, 1]; the function is total, so the
result exists for every index. -/
theorem C2_encode_formula (index k : Nat) (hk : k < 4) :
    (getColorFromUInt index).channel k
        = (((index >>> (8 * (3 - k))) &&& 0xFF : Nat) : ℚ) / 255 ∧
      0 ≤ (getColorFromUInt index).channel k ∧ (getColorFromUInt index).channel k ≤ 1 := by
  rw [channel_getColorFromUInt index k hk]
  refine ⟨rfl, by positivity, ?_⟩
  rw [div_le_one (by norm_num : (0 : ℚ) < 255)]
  have hb : (index >>> (8 * (3 - k))) &&& 0xFF ≤ 255 := by
    rw [and_0xFF]
    omega
  exact_mod_cast hb

theorem C2_encode_formula_witness :
    (1 : Nat) < 4 ∧
      ((getColorFromUInt 305419896).channel 1
          = (((305419896 >>> (8 * (3 - 1))) &&& 0xFF : Nat) : ℚ) / 255 ∧
        0 ≤ (getColorFromUInt 305419896).channel 1 ∧
        (getColorFromUInt 305419896).channel 1 ≤ 1) :=
  ⟨by norm_num, C2_encode_formula 305419896 1 (by norm_num)⟩

/-! ## Source mesh tagger -/

/-- The fill loop of the tagger appends one colour per index to the colour
element of layer 0 and changes nothing else. -/
theorem tagger_fill (g : Nat → FbxColor) (layer0 : FbxLayer) (rest : List FbxLayer)
    (colors : FbxLayerElementTemplate FbxColor) (hc : layer0.mVertexColors = some colors)
    (n : Nat) (mesh : FbxMesh) (hl : mesh.mLayers = layer0 :: rest) :
    (List.range n).foldl
        (fun mesh cpi => mesh.modifyLayer 0 fun l =>
          l.modifyVertexColors fun c => c.DirectAdd (g cpi)) mesh
      = { mesh with
          mLayers :=
            { layer0 with
              mVertexColors := some
                { colors with mDirectArray := colors.mDirectArray ++ (List.range n).map g } }
            :: rest } := by
  induction n with
  | zero =>
    cases mesh
    cases layer0
    simp only at hl hc
    subst hl hc
    simp
  | succ n ih =>
    rw [List.range_succ, List.foldl_append, ih]
    simp [FbxMesh.modifyLayer, modifyAt, FbxLayer.modifyVertexColors,
      FbxLayerElementTemplate.DirectAdd]

/-- The tagger on a mesh whose layer 0 has no vertex colours: it succeeds and
sets the colour element of layer 0. -/
theorem preprocessSourceMesh_ok (mesh : FbxMesh) (layer0 : FbxLayer) (rest : List FbxLayer)
    (hl : mesh.mLayers = layer0 :: rest) (hc : layer0.mVertexColors = none) :
    preprocessSourceMesh mesh
      = (true, { mesh with
          mLayers :=
            { layer0 with mVertexColors := some (taggedColors mesh.mControlPoints.length) }
            :: rest }) := by
  unfold preprocessSourceMesh
  have h1 : ¬ (mesh.GetLayerCount ≤ 0) := by simp [FbxMesh.GetLayerCount, hl]
  have h2 : ((mesh.GetLayer 0).bind FbxLayer.GetVertexColors).isSome = false := by
    simp [FbxMesh.GetLayer, hl, FbxLayer.GetVertexColors, hc]
  simp only [h1, h2, decide_False, Bool.or_self, Bool.false_eq_true, if_false]
  rw [tagger_fill (fun cpi => getColorFromUInt (toUInt cpi))
    { layer0 with mVertexColors := some (taggedColors 0) } rest (taggedColors 0) rfl]
  · simp [FbxMesh.modifyLayer, modifyAt, hl, FbxMesh.GetControlPointsCount, taggedColors]
  · simp [FbxMesh.modifyLayer, modifyAt, hl, FbxLayer.modifyVertexColors, taggedColors,
      FbxLayer.CreateVertexColors, FbxLayerElementTemplate.Create,
      FbxLayerElementTemplate.SetMappingMode, FbxLayerElementTemplate.SetReferenceMode]

/-- The tagger on a mesh without layers fails and leaves the mesh as it is. -/
theorem preprocessSourceMesh_no_layer (mesh : FbxMesh) (hl : mesh.mLayers = []) :
    preprocessSourceMesh mesh = (false, mesh) := by
  simp [preprocessSourceMesh, FbxMesh.GetLayerCount, hl]

/-- The tagger on a mesh whose layer 0 has vertex colours fails and leaves the
mesh as it is. -/
theorem preprocessSourceMesh_tagged (mesh : FbxMesh) (layer0 : FbxLayer) (rest : List FbxLayer)
    (hl : mesh.mLayers = layer0 :: rest) (hc : layer0.mVertexColors.isSome = true) :
    preprocessSourceMesh mesh = (false, mesh) := by
  simp [preprocessSourceMesh, FbxMesh.GetLayer, hl, FbxLayer.GetVertexColors, hc]

/-- The tagger succeeds exactly on the meshes that have a layer 0 without
vertex colours. -/
theorem preprocessSourceMesh_true (mesh : FbxMesh) (h : (preprocessSourceMesh mesh).1 = true) :
    ∃ layer0 rest, mesh.mLayers = layer0 :: rest ∧ layer0.mVertexColors = none := by
  cases hl : mesh.mLayers with
  | nil => simp [preprocessSourceMesh_no_layer mesh hl] at h
  | cons layer0 rest =>
    cases hc : layer0.mVertexColors with
    | none => exact ⟨layer0, rest, rfl, hc⟩
    | some c => simp [preprocessSourceMesh_tagged mesh layer0 rest hl (by simp [hc])] at h

theorem taggedColors_getElem? (P i : Nat) (hi : i < P) :
    (taggedColors P).mDirectArray[i]? = some (getColorFromUInt (toUInt i)) := by
  simp only [taggedColors, List.getElem?_map, List.getElem?_range hi, Option.map_some']

/-- C3: tagger completeness.  For every mesh with at least one layer, no
vertex-colour element on any layer and `P` control points (`P` a C `int`),
`preprocessSourceMesh` returns true, and the vertex-colour element it puts on
layer 0 is per-control-point/direct, has exactly `P` elements, and for every
`i < P` element `i` is `getColorFromUInt i` and decodes to `i`. -/
theorem C3_tagger_completeness (mesh : FbxMesh)
    (hlayers : 0 < mesh.GetLayerCount)
    (hnocolors : ∀ l ∈ mesh.mLayers, l.mVertexColors = none)
    (hcount : mesh.GetControlPointsCount < 2 ^ 31) :
    (preprocessSourceMesh mesh).1 = true ∧
      ∃ layer0 colors,
        (preprocessSourceMesh mesh).2.GetLayer 0 = some layer0 ∧
        layer0.mVertexColors = some colors ∧
        colors.mMappingMode = .eByControlPoint ∧
        colors.mReferenceMode = .eDirect ∧
        colors.mDirectArray.length = mesh.GetControlPointsCount ∧
        ∀ i, i < mesh.GetControlPointsCount →
          ∃ c, colors.mDirectArray[i]? = some c ∧ c = getColorFromUInt i ∧ Decode c = i := by
  cases hl : mesh.mLayers with
  | nil => simp [FbxMesh.GetLayerCount, hl] at hlayers
  | cons layer0 rest =>
    have hc : layer0.mVertexColors = none := hnocolors layer0 (by simp [hl])
    rw [preprocessSourceMesh_ok mesh layer0 rest hl hc]
    refine ⟨rfl, { layer0 with mVertexColors := some (taggedColors mesh.mControlPoints.length) },
      taggedColors mesh.mControlPoints.length, by simp [FbxMesh.GetLayer], rfl, rfl, rfl, ?_, ?_⟩
    · simp [taggedColors, FbxMesh.GetControlPointsCount]
    · intro i hi
      have hi32 : i < 2 ^ 32 := by
        have : mesh.GetControlPointsCount < 2 ^ 32 := by omega
        omega
      refine ⟨getColorFromUInt i, ?_, rfl, ?_⟩
      · rw [taggedColors_getElem? mesh.mControlPoints.length i hi, toUInt_of_lt i hi32]
      · rw [Decode_getColorFromUInt, Nat.mod_eq_of_lt hi32]

theorem C3_tagger_completeness_witness :
    (0 < meshPlain.GetLayerCount ∧ (∀ l ∈ meshPlain.mLayers, l.mVertexColors = none) ∧
        meshPlain.GetControlPointsCount < 2 ^ 31) ∧
      ((preprocessSourceMesh meshPlain).1 = true ∧
        ∃ layer0 colors,
          (preprocessSourceMesh meshPlain).2.GetLayer 0 = some layer0 ∧
          layer0.mVertexColors = some colors ∧
          colors.mMappingMode = .eByControlPoint ∧
          colors.mReferenceMode = .eDirect ∧
          colors.mDirectArray.length = meshPlain.GetControlPointsCount ∧
          ∀ i, i < meshPlain.GetControlPointsCount →
            ∃ c, colors.mDirectArray[i]? = some c ∧ c = getColorFromUInt i ∧ Decode c = i) :=
  have h1 : 0 < meshPlain.GetLayerCount := by decide
  have h2 : ∀ l ∈ meshPlain.mLayers, l.mVertexColors = none := by
    simp [meshPlain, FbxLayer.Create]
  have h3 : meshPlain.GetControlPointsCount < 2 ^ 31 := by
    simp [meshPlain, FbxMesh.GetControlPointsCount]
  ⟨⟨h1, h2, h3⟩, C3_tagger_completeness meshPlain h1 h2 h3⟩

/-- C4 as stated fails: a mesh whose vertex colours are on its second layer
only has a vertex-colour layer, yet `preprocessSourceMesh` returns true on it
and modifies it. -/
theorem C4_counterexample_colors_on_layer1 :
    (∃ l ∈ meshColorsOnLayer1.mLayers, l.mVertexColors.isSome = true) ∧
      (preprocessSourceMesh meshColorsOnLayer1).1 = true ∧
      (preprocessSourceMesh meshColorsOnLayer1).2 ≠ meshColorsOnLayer1 := by
  have h := preprocessSourceMesh_ok meshColorsOnLayer1 FbxLayer.Create
    [{ FbxLayer.Create with mVertexColors := some FbxLayerElementTemplate.Create }] rfl rfl
  rw [h]
  refine ⟨?_, rfl, ?_⟩
  · simp [meshColorsOnLayer1, FbxLayer.Create]
  · simp [meshColorsOnLayer1, FbxLayer.Create]

/-- C4 (amended): tagger precondition failure.  For every mesh that has zero
layers, or whose layer 0 already has a vertex-colour element,
`preprocessSourceMesh` returns false and leaves the mesh unmodified. -/
theorem C4_tagger_precondition_failure (mesh : FbxMesh)
    (h : mesh.GetLayerCount = 0 ∨
      ∃ layer0 colors, mesh.GetLayer 0 = some layer0 ∧ layer0.mVertexColors = some colors) :
    preprocessSourceMesh mesh = (false, mesh) := by
  rcases h with h | ⟨layer0, colors, h0, hc⟩
  · exact preprocessSourceMesh_no_layer mesh (List.length_eq_zero.mp h)
  · cases hl : mesh.mLayers with
    | nil => simp [FbxMesh.GetLayer, hl] at h0
    | cons l rest =>
      have : l = layer0 := by simpa [FbxMesh.GetLayer, hl] using h0
      subst this
      exact preprocessSourceMesh_tagged mesh l rest hl (by simp [hc])

theorem C4_tagger_precondition_failure_witness :
    ((FbxMesh.Create "M").GetLayerCount = 0 ∨
        ∃ layer0 colors, (FbxMesh.Create "M").GetLayer 0 = some layer0 ∧
          layer0.mVertexColors = some colors) ∧
      preprocessSourceMesh (FbxMesh.Create "M") = (false, FbxMesh.Create "M") :=
  ⟨Or.inl rfl, C4_tagger_precondition_failure (FbxMesh.Create "M") (Or.inl rfl)⟩

/-- C5: tagger idempotence guard.  For every mesh on which
`preprocessSourceMesh` succeeds, a second run on the resulting mesh returns
false and leaves it exactly as the first run left it. -/
theorem C5_tagger_idempotence_guard (mesh : FbxMesh)
    (h : (preprocessSourceMesh mesh).1 = true) :
    preprocessSourceMesh (preprocessSourceMesh mesh).2
      = (false, (preprocessSourceMesh mesh).2) := by
  obtain ⟨layer0, rest, hl, hc⟩ := preprocessSourceMesh_true mesh h
  rw [preprocessSourceMesh_ok mesh layer0 rest hl hc]
  exact preprocessSourceMesh_tagged _ _ rest rfl rfl

theorem C5_tagger_idempotence_guard_witness :
    (preprocessSourceMesh meshPlain).1 = true ∧
      preprocessSourceMesh (preprocessSourceMesh meshPlain).2
        = (false, (preprocessSourceMesh meshPlain).2) :=
  have h : (preprocessSourceMesh meshPlain).1 = true := by
    rw [preprocessSourceMesh_ok meshPlain FbxLayer.Create [] rfl rfl]
  ⟨h, C5_tagger_idempotence_guard meshPlain h⟩

/-- C6: tagger frame.  When `preprocessSourceMesh` succeeds, layer 0 had no
vertex-colour element and gets one, the number of vertex-colour elements of
the mesh grows by exactly one, and nothing else changes: name, node, control
points, polygons, deformers, the other elements of layer 0 and all the other
layers are as before the call. -/
theorem C6_tagger_frame (mesh : FbxMesh) (h : (preprocessSourceMesh mesh).1 = true) :
    ∃ layer0 rest colors,
      mesh.mLayers = layer0 :: rest ∧ layer0.mVertexColors = none ∧
      (preprocessSourceMesh mesh).2
        = { mesh with mLayers := { layer0 with mVertexColors := some colors } :: rest } ∧
      ((preprocessSourceMesh mesh).2.mLayers.filter fun l => l.mVertexColors.isSome).length
        = (mesh.mLayers.filter fun l => l.mVertexColors.isSome).length + 1 ∧
      (preprocessSourceMesh mesh).2.mControlPoints = mesh.mControlPoints ∧
      (preprocessSourceMesh mesh).2.mPolygons = mesh.mPolygons ∧
      (preprocessSourceMesh mesh).2.mDeformers = mesh.mDeformers ∧
      (preprocessSourceMesh mesh).2.mLayers.tail = mesh.mLayers.tail := by
  obtain ⟨layer0, rest, hl, hc⟩ := preprocessSourceMesh_true mesh h
  rw [preprocessSourceMesh_ok mesh layer0 rest hl hc]
  refine ⟨layer0, rest, taggedColors mesh.mControlPoints.length, hl, hc, rfl, ?_, rfl, rfl, rfl, ?_⟩
  · simp [hl, hc, List.filter_cons]
  · simp [hl]

theorem C6_tagger_frame_witness :
    (preprocessSourceMesh meshPlain).1 = true ∧
      ∃ layer0 rest colors,
        meshPlain.mLayers = layer0 :: rest ∧ layer0.mVertexColors = none ∧
        (preprocessSourceMesh meshPlain).2
          = { meshPlain with mLayers := { layer0 with mVertexColors := some colors } :: rest } ∧
        ((preprocessSourceMesh meshPlain).2.mLayers.filter fun l => l.mVertexColors.isSome).length
          = (meshPlain.mLayers.filter fun l => l.mVertexColors.isSome).length + 1 ∧
        (preprocessSourceMesh meshPlain).2.mControlPoints = meshPlain.mControlPoints ∧
        (preprocessSourceMesh meshPlain).2.mPolygons = meshPlain.mPolygons ∧
        (preprocessSourceMesh meshPlain).2.mDeformers = meshPlain.mDeformers ∧
        (preprocessSourceMesh meshPlain).2.mLayers.tail = meshPlain.mLayers.tail :=
  have h : (preprocessSourceMesh meshPlain).1 = true := by
    rw [preprocessSourceMesh_ok meshPlain FbxLayer.Create [] rfl rfl]
  ⟨h, C6_tagger_frame meshPlain h⟩

/-! ## Morph target extractor -/

theorem modifyAt_length_append {α : Type} (f : α → α) (l : List α) (a : α) (r : List α) :
    modifyAt f l.length (l ++ a :: r) = l ++ f a :: r := by
  induction l with
  | nil => rfl
  | cons b l ih => simp [modifyAt, ih]

theorem map_range_getD {α β : Type} (f : α → β) (d : α) (l : List α) :
    (List.range l.length).map (fun i => f (l.getD i d)) = l.map f := by
  apply List.ext_getElem?
  intro i
  by_cases h : i < l.length
  · simp [List.getElem?_range h, List.getD, h]
  · have h1 : l.length ≤ i := by omega
    rw [List.getElem?_map, List.getElem?_map, List.getElem?_eq_none h1,
      List.getElem?_eq_none (by simpa using h1)]
    rfl

theorem set_range_drop {α : Type} (p : Nat → α) (n : Nat) (l : List α) (h : n < l.length) :
    ((List.range n).map p ++ l.drop n).set n (p n) = (List.range (n + 1)).map p ++ l.drop (n + 1) := by
  rw [List.set_append, List.drop_eq_getElem_cons h]
  simp only [List.length_map, List.length_range, lt_irrefl, if_false, Nat.sub_self,
    List.set_cons_zero, List.range_succ, List.map_append, List.map_cons, List.map_nil,
    List.append_assoc, List.singleton_append]

/-- The copy loop on a mesh whose single layer holds the normal and the colour
element, when the target shape has normals. -/
theorem copy_loop_normals (mt : FbxShape) (mtLayer0 layer : FbxLayer)
    (normals mtnorms : FbxLayerElementTemplate FbxVector4)
    (mtcolors : FbxLayerElementTemplate FbxColor)
    (hN : mtLayer0.mNormals = some normals)
    (hn : layer.mNormals = some mtnorms) (hc : layer.mVertexColors = some mtcolors)
    (n : Nat) (mtmesh : FbxMesh) (hl : mtmesh.mLayers = [layer])
    (hle : n ≤ mtmesh.mControlPoints.length) :
    (List.range n).foldl (copyTargetVertex mt mtLayer0 (some 0) 0) mtmesh
      = { mtmesh with
          mControlPoints :=
            (List.range n).map (fun cpi =>
              mt.GetControlPointAt (mt.mControlPointIndices.getD cpi 0))
            ++ mtmesh.mControlPoints.drop n
          mLayers :=
            [{ layer with
               mNormals := some
                 { mtnorms with
                   mDirectArray := mtnorms.mDirectArray ++ (List.range n).map (fun cpi =>
                     getAt normals.mDirectArray (mt.mControlPointIndices.getD cpi 0)
                       FbxVector4.zero) }
               mVertexColors := some
                 { mtcolors with
                   mDirectArray := mtcolors.mDirectArray ++ (List.range n).map (fun cpi =>
                     getColorFromUInt (toUInt (mt.mControlPointIndices.getD cpi 0))) } }] } := by
  induction n with
  | zero =>
    cases mtmesh
    cases layer
    simp only at hl hn hc
    subst hl hn hc
    simp
  | succ n ih =>
    rw [List.range_succ, List.foldl_append, ih (by omega)]
    simp only [List.foldl_cons, List.foldl_nil, copyTargetVertex, FbxLayer.GetNormals, hN,
      set_range_drop _ n _ (by omega : n < mtmesh.mControlPoints.length)]
    simp [FbxMesh.modifyLayer, modifyAt, FbxLayer.modifyVertexColors, FbxLayer.modifyNormals,
      FbxLayerElementTemplate.DirectAdd, List.range_succ]

/-- The copy loop on a mesh whose single layer holds the colour element, when
the target shape has no normals. -/
theorem copy_loop_plain (mt : FbxShape) (mtLayer0 layer : FbxLayer)
    (mtcolors : FbxLayerElementTemplate FbxColor)
    (hc : layer.mVertexColors = some mtcolors)
    (n : Nat) (mtmesh : FbxMesh) (hl : mtmesh.mLayers = [layer])
    (hle : n ≤ mtmesh.mControlPoints.length) :
    (List.range n).foldl (copyTargetVertex mt mtLayer0 none 0) mtmesh
      = { mtmesh with
          mControlPoints :=
            (List.range n).map (fun cpi =>
              mt.GetControlPointAt (mt.mControlPointIndices.getD cpi 0))
            ++ mtmesh.mControlPoints.drop n
          mLayers :=
            [{ layer with
               mVertexColors := some
                 { mtcolors with
                   mDirectArray := mtcolors.mDirectArray ++ (List.range n).map (fun cpi =>
                     getColorFromUInt (toUInt (mt.mControlPointIndices.getD cpi 0))) } }] } := by
  induction n with
  | zero =>
    cases mtmesh
    cases layer
    simp only at hl hc
    subst hl hc
    simp
  | succ n ih =>
    rw [List.range_succ, List.foldl_append, ih (by omega)]
    simp only [List.foldl_cons, List.foldl_nil, copyTargetVertex,
      set_range_drop _ n _ (by omega : n < mtmesh.mControlPoints.length)]
    simp [FbxMesh.modifyLayer, modifyAt, FbxLayer.modifyVertexColors,
      FbxLayerElementTemplate.DirectAdd, List.range_succ]

theorem modifyAt_last {α : Type} (f : α → α) (l : List α) (a : α) :
    modifyAt f ((l ++ [a]).length - 1) (l ++ [a]) = l ++ [f a] := by
  have h : (l ++ [a]).length - 1 = l.length := by simp
  rw [h, modifyAt_length_append]

/-- One dummy face appends the triangle `(3 fi, 3 fi + 1, 3 fi + 2)`. -/
theorem addDummyFace_eq (mtmesh : FbxMesh) (fi : Nat) :
    addDummyFace mtmesh fi
      = { mtmesh with
          mPolygons := mtmesh.mPolygons ++ [[3 * (fi : Int), 3 * (fi : Int) + 1, 3 * (fi : Int) + 2]] } := by
  simp only [addDummyFace, FbxMesh.BeginPolygon, FbxMesh.AddPolygon, FbxMesh.EndPolygon,
    modifyAt_last, List.nil_append, List.cons_append]

/-- The face loop appends one triangle per face index. -/
theorem face_loop (n : Nat) (mtmesh : FbxMesh) :
    (List.range n).foldl addDummyFace mtmesh
      = { mtmesh with
          mPolygons := mtmesh.mPolygons ++
            (List.range n).map fun (fi : Nat) => [3 * (fi : Int), 3 * (fi : Int) + 1, 3 * (fi : Int) + 2] } := by
  induction n with
  | zero => simp
  | succ n ih =>
    rw [List.range_succ, List.foldl_append, ih]
    simp [addDummyFace_eq]

theorem set_replicate_zero (k i : Nat) : (List.replicate k (0 : Int)).set i 0 = List.replicate k 0 := by
  apply List.ext_getElem?
  intro j
  rw [List.getElem?_set]
  by_cases hij : i = j
  · subst hij
    by_cases hk : i < k
    · simp [hk]
    · have hk1 : k ≤ i := by omega
      simp [hk, hk1]
  · simp [hij]

/-- The material loop leaves an index array of zeros as it is. -/
theorem material_loop (layer : FbxLayer) (mtmats : FbxLayerElementTemplate Nat) (k : Nat)
    (hm : layer.mMaterials = some mtmats) (hz : mtmats.mIndexArray = List.replicate k 0)
    (n : Nat) (mtmesh : FbxMesh) (hl : mtmesh.mLayers = [layer]) :
    (List.range n).foldl (applyDummyMaterial 0) mtmesh = mtmesh := by
  induction n with
  | zero => simp
  | succ n ih =>
    rw [List.range_succ, List.foldl_append, ih]
    cases mtmesh
    cases layer
    cases mtmats
    simp only at hl hm hz
    subst hl hm hz
    simp [applyDummyMaterial, FbxMesh.modifyLayer, modifyAt, FbxLayer.modifyMaterials,
      FbxLayerElementTemplate.IndexSetAt, set_replicate_zero]

theorem defineMorphTargetMesh_eq (mt : FbxShape) (mtLayer0 : FbxLayer) (mtmesh : FbxMesh)
    (hl : mtmesh.mLayers = []) :
    defineMorphTargetMesh mt mtLayer0 mtmesh
      = { mtmesh with
          mControlPoints := mt.mControlPointIndices.map mt.GetControlPointAt
          mPolygons := mtmesh.mPolygons ++
            (List.range (mt.mControlPointIndices.length / 3)).map fun (fi : Nat) =>
              [3 * (fi : Int), 3 * (fi : Int) + 1, 3 * (fi : Int) + 2]
          mLayers :=
            [{ mNormals := mtLayer0.mNormals.map fun normals =>
                 { mMappingMode := .eByControlPoint, mReferenceMode := .eDirect,
                   mDirectArray := mt.mControlPointIndices.map fun tvi =>
                     getAt normals.mDirectArray tvi FbxVector4.zero,
                   mIndexArray := [] }
               mVertexColors := some
                 { mMappingMode := .eByControlPoint, mReferenceMode := .eDirect,
                   mDirectArray := mt.mControlPointIndices.map fun tvi =>
                     getColorFromUInt (toUInt tvi),
                   mIndexArray := [] }
               mMaterials := some
                 { mMappingMode := .eByPolygon, mReferenceMode := .eIndexToDirect,
                   mDirectArray := [],
                   mIndexArray := List.replicate (mt.mControlPointIndices.length / 3) 0 }
               mUVs := none }] } := by
  cases hN : mtLayer0.mNormals with
  | none =>
    have hcopy := copy_loop_plain mt mtLayer0
      { mNormals := none,
        mVertexColors := some
          { mMappingMode := .eByControlPoint, mReferenceMode := .eDirect, mDirectArray := [],
            mIndexArray := [] },
        mMaterials := none, mUVs := none }
      { mMappingMode := .eByControlPoint, mReferenceMode := .eDirect, mDirectArray := [],
        mIndexArray := [] } rfl mt.mControlPointIndices.length
      { mName := mtmesh.mName, mNode := mtmesh.mNode,
        mControlPoints := List.replicate mt.mControlPointIndices.length FbxVector4.zero,
        mPolygons := mtmesh.mPolygons,
        mLayers :=
          [{ mNormals := none,
             mVertexColors := some
               { mMappingMode := .eByControlPoint, mReferenceMode := .eDirect,
                 mDirectArray := [], mIndexArray := [] },
             mMaterials := none, mUVs := none }],
        mDeformers := mtmesh.mDeformers } rfl (by simp)
    simp only [List.drop_replicate, Nat.sub_self, List.replicate_zero, List.append_nil,
      List.nil_append, map_range_getD,
      map_range_getD (fun tvi => getColorFromUInt (toUInt tvi)) 0 mt.mControlPointIndices]
      at hcopy
    simp only [defineMorphTargetMesh, FbxLayer.GetNormals, hN, FbxMesh.InitControlPoints,
      FbxMesh.CreateElementVertexColor, hl, findLayer, List.nil_append, List.length_nil,
      FbxMesh.modifyLayer, modifyAt, FbxLayer.modifyVertexColors, FbxLayer.Create,
      FbxLayerElementTemplate.Create, FbxLayerElementTemplate.SetMappingMode,
      FbxLayerElementTemplate.SetReferenceMode, Option.map_some', Option.map_none',
      FbxShape.GetControlPointIndicesCount, hcopy, face_loop, FbxMesh.GetControlPointsCount,
      List.length_map, FbxMesh.CreateElementMaterial, Option.isNone_none, if_true,
      FbxLayer.modifyMaterials, FbxLayerElementTemplate.IndexSetCount, List.take_replicate,
      Nat.min_self]
    rw [material_loop _ _ _ rfl rfl _ _ rfl]
  | some normals =>
    have hcopy := copy_loop_normals mt mtLayer0
      { mNormals := some
          { mMappingMode := .eByControlPoint, mReferenceMode := .eDirect, mDirectArray := [],
            mIndexArray := [] },
        mVertexColors := some
          { mMappingMode := .eByControlPoint, mReferenceMode := .eDirect, mDirectArray := [],
            mIndexArray := [] },
        mMaterials := none, mUVs := none }
      normals
      { mMappingMode := .eByControlPoint, mReferenceMode := .eDirect, mDirectArray := [],
        mIndexArray := [] }
      { mMappingMode := .eByControlPoint, mReferenceMode := .eDirect, mDirectArray := [],
        mIndexArray := [] } hN rfl rfl mt.mControlPointIndices.length
      { mName := mtmesh.mName, mNode := mtmesh.mNode,
        mControlPoints := List.replicate mt.mControlPointIndices.length FbxVector4.zero,
        mPolygons := mtmesh.mPolygons,
        mLayers :=
          [{ mNormals := some
               { mMappingMode := .eByControlPoint, mReferenceMode := .eDirect,
                 mDirectArray := [], mIndexArray := [] },
             mVertexColors := some
               { mMappingMode := .eByControlPoint, mReferenceMode := .eDirect,
                 mDirectArray := [], mIndexArray := [] },
             mMaterials := none, mUVs := none }],
        mDeformers := mtmesh.mDeformers } rfl (by simp)
    simp only [List.drop_replicate, Nat.sub_self, List.replicate_zero, List.append_nil,
      List.nil_append, map_range_getD,
      map_range_getD (fun tvi => getColorFromUInt (toUInt tvi)) 0 mt.mControlPointIndices,
      map_range_getD (fun tvi => getAt normals.mDirectArray tvi FbxVector4.zero) 0
        mt.mControlPointIndices]
      at hcopy
    simp only [defineMorphTargetMesh, FbxLayer.GetNormals, hN, FbxMesh.InitControlPoints,
      FbxMesh.CreateElementNormal,
      FbxMesh.CreateElementVertexColor, hl, findLayer, List.nil_append, List.length_nil,
      FbxMesh.modifyLayer, modifyAt, FbxLayer.modifyVertexColors, FbxLayer.modifyNormals,
      FbxLayer.Create,
      FbxLayerElementTemplate.Create, FbxLayerElementTemplate.SetMappingMode,
      FbxLayerElementTemplate.SetReferenceMode, Option.map_some', Option.map_none',
      FbxShape.GetControlPointIndicesCount, hcopy, face_loop, FbxMesh.GetControlPointsCount,
      List.length_map, FbxMesh.CreateElementMaterial, Option.isNone_none, if_true,
      FbxLayer.modifyMaterials, FbxLayerElementTemplate.IndexSetCount, List.take_replicate,
      Nat.min_self]
    rw [material_loop _ _ _ rfl rfl _ _ rfl]

theorem GetNode_addChild (s : FbxScene) (child i : Nat) (n : FbxNode)
    (h : s.GetNode i = some n) :
    ∃ n1, ({ s with mRootNode := s.mRootNode.AddChild child } : FbxScene).GetNode i = some n1 ∧
      n1.LclScaling = n.LclScaling := by
  cases i with
  | zero =>
    simp only [FbxScene.GetNode, Option.some.injEq] at h
    subst h
    exact ⟨_, rfl, rfl⟩
  | succ i => exact ⟨n, h, rfl⟩

theorem GetNodeOfChannel_addChild (s : FbxScene) (child : Nat) (mtChannel : FbxBlendShapeChannel)
    (n : FbxNode) (h : s.GetNodeOfChannel mtChannel = some n) :
    ∃ n1, ({ s with mRootNode := s.mRootNode.AddChild child } : FbxScene).GetNodeOfChannel
        mtChannel = some n1 ∧ n1.LclScaling = n.LclScaling := by
  simp only [FbxScene.GetNodeOfChannel, FbxScene.GetNodeOfMesh, FbxScene.GetBlendShapeAt,
    FbxScene.GetMeshAt, Option.bind_eq_bind, Option.bind_eq_some] at h ⊢
  obtain ⟨morpher, h1, blendShape, h2, geometry, h3, m, h4, node, h5, h6⟩ := h
  obtain ⟨n1, hn1, hs⟩ := GetNode_addChild s child node n h6
  exact ⟨n1, ⟨morpher, h1, blendShape, h2, geometry, h3, m, h4, node, h5, hn1⟩, hs⟩

theorem GetNodeOfChannel_of_addChild (s : FbxScene) (child : Nat)
    (mtChannel : FbxBlendShapeChannel) (n1 : FbxNode)
    (h : ({ s with mRootNode := s.mRootNode.AddChild child } : FbxScene).GetNodeOfChannel
        mtChannel = some n1) :
    ∃ n, s.GetNodeOfChannel mtChannel = some n := by
  simp only [FbxScene.GetNodeOfChannel, FbxScene.GetNodeOfMesh, FbxScene.GetBlendShapeAt,
    FbxScene.GetMeshAt, Option.bind_eq_bind, Option.bind_eq_some] at h ⊢
  obtain ⟨morpher, h1, blendShape, h2, geometry, h3, m, h4, node, h5, h6⟩ := h
  cases node with
  | zero => exact ⟨s.mRootNode, morpher, h1, blendShape, h2, geometry, h3, m, h4, 0, h5, rfl⟩
  | succ i => exact ⟨n1, morpher, h1, blendShape, h2, geometry, h3, m, h4, i + 1, h5, h6⟩

/-- The extractor on valid arguments: the new node and the new mesh are
appended to the scene, the new node becomes the last child of the root. -/
theorem extractMorphTarget_ok (gModel : FbxScene) (gMat : Option Nat) (srcMesh : Nat)
    (mtChannel : FbxBlendShapeChannel) (mt : FbxShape) (shapes : List FbxShape)
    (mtLayer0 : FbxLayer) (layers : List FbxLayer) (srcNode scalingNode : FbxNode)
    (hmt : mtChannel.mTargetShapes = mt :: shapes) (hlayer : mt.mLayers = mtLayer0 :: layers)
    (hsrc : gModel.GetNodeOfMesh srcMesh = some srcNode)
    (hscal : gModel.GetNodeOfChannel mtChannel = some scalingNode) :
    extractMorphTarget gModel gMat srcMesh mtChannel
      = some (some gModel.mMeshes.length,
          { gModel with
            mRootNode := gModel.mRootNode.AddChild gModel.GetNodeCount
            mNodes := gModel.mNodes ++
              [{ mName := "MT&" ++ srcNode.mName ++ "&" ++ mt.mName
                 mNodeAttribute := some gModel.mMeshes.length
                 mChildren := []
                 LclTranslation := ⟨0, 0, 0⟩
                 LclRotation := ⟨0, 0, 0⟩
                 LclScaling := scalingNode.LclScaling
                 mMaterials := gMat.toList
                 mShadingMode := .eLightShading }]
            mMeshes := gModel.mMeshes ++
              [defineMorphTargetMesh mt mtLayer0
                { FbxMesh.Create ("MT&" ++ srcNode.mName ++ "&" ++ mt.mName) with
                  mNode := some gModel.GetNodeCount }] }) := by
  obtain ⟨n1, hn1, hs⟩ := GetNodeOfChannel_addChild gModel gModel.GetNodeCount mtChannel
    scalingNode hscal
  unfold extractMorphTarget
  simp only [hmt, hlayer, hsrc, hn1, Option.bind_eq_bind, Option.some_bind, hs]
  cases gMat <;> rfl

/-- Whenever the extractor returns a mesh, its arguments were valid. -/
theorem extractMorphTarget_some (gModel : FbxScene) (gMat : Option Nat) (srcMesh : Nat)
    (mtChannel : FbxBlendShapeChannel) (mtmesh : Nat) (gModel1 : FbxScene)
    (h : extractMorphTarget gModel gMat srcMesh mtChannel = some (some mtmesh, gModel1)) :
    ∃ mt shapes mtLayer0 layers srcNode scalingNode,
      mtChannel.mTargetShapes = mt :: shapes ∧ mt.mLayers = mtLayer0 :: layers ∧
      gModel.GetNodeOfMesh srcMesh = some srcNode ∧
      gModel.GetNodeOfChannel mtChannel = some scalingNode := by
  unfold extractMorphTarget at h
  cases hmt : mtChannel.mTargetShapes with
  | nil => simp [hmt] at h
  | cons mt shapes =>
    cases hlayer : mt.mLayers with
    | nil => simp [hmt, hlayer] at h
    | cons mtLayer0 layers =>
      cases hsrc : gModel.GetNodeOfMesh srcMesh with
      | none => simp [hmt, hlayer, hsrc] at h
      | some srcNode =>
        cases hscal : ({ gModel with mRootNode := gModel.mRootNode.AddChild gModel.GetNodeCount }
            : FbxScene).GetNodeOfChannel mtChannel with
        | none => simp [hmt, hlayer, hsrc, hscal] at h
        | some n1 =>
          obtain ⟨n, hn⟩ := GetNodeOfChannel_of_addChild gModel _ mtChannel n1 hscal
          exact ⟨mt, shapes, mtLayer0, layers, srcNode, n, rfl, hlayer, rfl, hn⟩

theorem extract_sceneFace :
    extractMorphTarget sceneFace (some 0) 0 channelSmile = some (some 1, sceneFaceExtracted) :=
  extractMorphTarget_ok sceneFace (some 0) 0 channelSmile shapeSmile [] layerSmile [] nodeFace
    nodeFace rfl rfl rfl rfl

theorem head?_eq_some {α : Type} (l : List α) (a : α) (h : l.head? = some a) :
    ∃ t, l = a :: t := by
  cases l with
  | nil => simp at h
  | cons b t =>
    simp only [List.head?_cons, Option.some.injEq] at h
    exact ⟨t, by rw [h]⟩

theorem getAt_of_getElem? {α : Type} (l : List α) (j : Int) (d v : α) (h0 : 0 ≤ j)
    (hv : l[j.toNat]? = some v) : getAt l j d = v := by
  simp [getAt, h0, List.getD, hv]

/-- C7: extractor count invariant.  For every channel whose first target shape
`mt` has at least one layer (the first being `mtLayer0`) and `K` compacted
control-point indices, called with a source mesh attached to a node and a
channel whose deformer deforms a mesh attached to a node, `extractMorphTarget`
produces a mesh that has exactly `K` control points, one layer holding exactly
`K` vertex-colour elements, exactly `K / 3` polygons, each a triangle, and a
normal element iff the target shape has normals (on its first layer, the one
the code reads), which then has exactly `K` elements. -/
theorem C7_extractor_counts (gModel : FbxScene) (gMat : Option Nat) (srcMesh : Nat)
    (mtChannel : FbxBlendShapeChannel) (mt : FbxShape) (mtLayer0 : FbxLayer)
    (hmt : mtChannel.mTargetShapes.head? = some mt)
    (hlayer : mt.mLayers.head? = some mtLayer0)
    (hsrc : (gModel.GetNodeOfMesh srcMesh).isSome = true)
    (hscal : (gModel.GetNodeOfChannel mtChannel).isSome = true) :
    ∃ mtmesh gModel1 mesh layer0 colors,
      extractMorphTarget gModel gMat srcMesh mtChannel = some (some mtmesh, gModel1) ∧
      gModel1.GetMeshAt mtmesh = some mesh ∧
      mesh.GetControlPointsCount = mt.GetControlPointIndicesCount ∧
      mesh.mLayers = [layer0] ∧
      layer0.mVertexColors = some colors ∧
      colors.mDirectArray.length = mt.GetControlPointIndicesCount ∧
      mesh.mPolygons.length = mt.GetControlPointIndicesCount / 3 ∧
      (∀ poly ∈ mesh.mPolygons, poly.length = 3) ∧
      (layer0.mNormals.isSome = true ↔ mtLayer0.mNormals.isSome = true) ∧
      (∀ mtnorms, layer0.mNormals = some mtnorms →
        mtnorms.mDirectArray.length = mt.GetControlPointIndicesCount) := by
  obtain ⟨shapes, hmt1⟩ := head?_eq_some _ _ hmt
  obtain ⟨layers, hlayer1⟩ := head?_eq_some _ _ hlayer
  obtain ⟨srcNode, hsrc1⟩ := Option.isSome_iff_exists.mp hsrc
  obtain ⟨scalingNode, hscal1⟩ := Option.isSome_iff_exists.mp hscal
  rw [extractMorphTarget_ok gModel gMat srcMesh mtChannel mt shapes mtLayer0 layers srcNode
    scalingNode hmt1 hlayer1 hsrc1 hscal1, defineMorphTargetMesh_eq _ _ _ rfl]
  refine ⟨_, _, _, _, _, rfl, List.getElem?_concat_length _ _, ?_, rfl, rfl, ?_, ?_, ?_, ?_, ?_⟩
  · simp [FbxMesh.GetControlPointsCount, FbxShape.GetControlPointIndicesCount]
  · simp [FbxShape.GetControlPointIndicesCount]
  · simp [FbxMesh.Create, FbxShape.GetControlPointIndicesCount]
  · intro poly hp
    simp only [FbxMesh.Create, List.nil_append, List.mem_map] at hp
    obtain ⟨fi, _, rfl⟩ := hp
    rfl
  · cases mtLayer0.mNormals <;> simp
  · intro mtnorms h
    cases hN : mtLayer0.mNormals with
    | none => simp [hN] at h
    | some normals =>
      simp only [hN, Option.map_some', Option.some.injEq] at h
      subst h
      simp [FbxShape.GetControlPointIndicesCount]

theorem C7_extractor_counts_witness :
    (channelSmile.mTargetShapes.head? = some shapeSmile ∧
        shapeSmile.mLayers.head? = some layerSmile ∧
        (sceneFace.GetNodeOfMesh 0).isSome = true ∧
        (sceneFace.GetNodeOfChannel channelSmile).isSome = true) ∧
      ∃ mtmesh gModel1 mesh layer0 colors,
        extractMorphTarget sceneFace (some 0) 0 channelSmile = some (some mtmesh, gModel1) ∧
        gModel1.GetMeshAt mtmesh = some mesh ∧
        mesh.GetControlPointsCount = shapeSmile.GetControlPointIndicesCount ∧
        mesh.mLayers = [layer0] ∧
        layer0.mVertexColors = some colors ∧
        colors.mDirectArray.length = shapeSmile.GetControlPointIndicesCount ∧
        mesh.mPolygons.length = shapeSmile.GetControlPointIndicesCount / 3 ∧
        (∀ poly ∈ mesh.mPolygons, poly.length = 3) ∧
        (layer0.mNormals.isSome = true ↔ layerSmile.mNormals.isSome = true) ∧
        (∀ mtnorms, layer0.mNormals = some mtnorms →
          mtnorms.mDirectArray.length = shapeSmile.GetControlPointIndicesCount) :=
  ⟨⟨rfl, rfl, rfl, rfl⟩,
    C7_extractor_counts sceneFace (some 0) 0 channelSmile shapeSmile layerSmile rfl rfl rfl rfl⟩

/-- The leftover-vertex example: `shapeSmile` has 4 compacted indices, which
gives 1 triangle. -/
theorem shapeSmile_counts :
    shapeSmile.GetControlPointIndicesCount = 4 ∧ shapeSmile.GetControlPointIndicesCount / 3 = 1 :=
  ⟨rfl, rfl⟩

/-- C8: extractor correspondence invariant.  For every mesh produced by
`extractMorphTarget` from a channel whose first target shape is `mt`, with
index array `idx` whose entries are non-negative and below 2^32, the colour
element of the produced mesh has one entry per compacted slot, and for every
slot `i` the entry at `i` is `getColorFromUInt idx[i]` and decodes to `idx[i]`. -/
theorem C8_extractor_correspondence (gModel : FbxScene) (gMat : Option Nat) (srcMesh : Nat)
    (mtChannel : FbxBlendShapeChannel) (mt : FbxShape) (mtmesh : Nat) (gModel1 : FbxScene)
    (hmt : mtChannel.mTargetShapes.head? = some mt)
    (hidx : ∀ v ∈ mt.mControlPointIndices, 0 ≤ v ∧ v < 2 ^ 32)
    (h : extractMorphTarget gModel gMat srcMesh mtChannel = some (some mtmesh, gModel1)) :
    ∃ mesh layer0 colors,
      gModel1.GetMeshAt mtmesh = some mesh ∧ mesh.GetLayer 0 = some layer0 ∧
      layer0.mVertexColors = some colors ∧
      colors.mDirectArray.length = mt.mControlPointIndices.length ∧
      ∀ (i : Nat) (tvi : Int), mt.mControlPointIndices[i]? = some tvi →
        ∃ c, colors.mDirectArray[i]? = some c ∧ c = getColorFromUInt tvi.toNat ∧
          (Decode c : Int) = tvi := by
  obtain ⟨mt1, shapes, mtLayer0, layers, srcNode, scalingNode, hmt1, hlayer1, hsrc1, hscal1⟩ :=
    extractMorphTarget_some gModel gMat srcMesh mtChannel mtmesh gModel1 h
  have e : mt1 = mt := by simpa [hmt1] using hmt
  subst e
  rw [extractMorphTarget_ok gModel gMat srcMesh mtChannel mt1 shapes mtLayer0 layers srcNode
    scalingNode hmt1 hlayer1 hsrc1 hscal1, defineMorphTargetMesh_eq _ _ _ rfl] at h
  simp only [Option.some.injEq, Prod.mk.injEq] at h
  obtain ⟨h1, h2⟩ := h
  subst h1 h2
  refine ⟨_, _, _, List.getElem?_concat_length _ _, rfl, rfl, ?_, ?_⟩
  · simp
  · intro i tvi hi
    have hmem : tvi ∈ mt1.mControlPointIndices := List.getElem?_mem hi
    obtain ⟨h0, h32⟩ := hidx tvi hmem
    have hcast : ((tvi.toNat : Nat) : Int) = tvi := Int.toNat_of_nonneg h0
    have hlt : tvi.toNat < 2 ^ 32 := by omega
    have hu : toUInt tvi = tvi.toNat := by
      rw [← hcast, toUInt_of_lt _ hlt, hcast]
    refine ⟨getColorFromUInt tvi.toNat, ?_, rfl, ?_⟩
    · simp [List.getElem?_map, hi, hu]
    · rw [Decode_getColorFromUInt, Nat.mod_eq_of_lt hlt, hcast]

theorem C8_extractor_correspondence_witness :
    (channelSmile.mTargetShapes.head? = some shapeSmile ∧
        (∀ v ∈ shapeSmile.mControlPointIndices, 0 ≤ v ∧ v < 2 ^ 32) ∧
        extractMorphTarget sceneFace (some 0) 0 channelSmile
          = some (some 1, sceneFaceExtracted)) ∧
      ∃ mesh layer0 colors,
        sceneFaceExtracted.GetMeshAt 1 = some mesh ∧ mesh.GetLayer 0 = some layer0 ∧
        layer0.mVertexColors = some colors ∧
        colors.mDirectArray.length = shapeSmile.mControlPointIndices.length ∧
        ∀ (i : Nat) (tvi : Int), shapeSmile.mControlPointIndices[i]? = some tvi →
          ∃ c, colors.mDirectArray[i]? = some c ∧ c = getColorFromUInt tvi.toNat ∧
            (Decode c : Int) = tvi :=
  have hidx : ∀ v ∈ shapeSmile.mControlPointIndices, 0 ≤ v ∧ v < 2 ^ 32 := by
    simp [shapeSmile]
  ⟨⟨rfl, hidx, extract_sceneFace⟩,
    C8_extractor_correspondence sceneFace (some 0) 0 channelSmile shapeSmile 1
      sceneFaceExtracted rfl hidx extract_sceneFace⟩

/-- C9: extractor position/normal copy.  For every mesh produced by
`extractMorphTarget` from a channel whose first target shape is `mt` (first
layer `mtLayer0`, index array `idx`) and every compacted slot `i`: the control
point at slot `i` is the target shape's control point at index `idx[i]`
(`GetControlPointAt`, which is the stored point when `idx[i]` is in range);
when the target shape carries normals, the normal element at slot `i` is the
target shape's normal at index `idx[i]`; and the colour at slot `i` encodes the
same `idx[i]`, so positions, normals and colours share the slot order. -/
theorem C9_extractor_copy (gModel : FbxScene) (gMat : Option Nat) (srcMesh : Nat)
    (mtChannel : FbxBlendShapeChannel) (mt : FbxShape) (mtLayer0 : FbxLayer) (mtmesh : Nat)
    (gModel1 : FbxScene)
    (hmt : mtChannel.mTargetShapes.head? = some mt)
    (hlayer : mt.mLayers.head? = some mtLayer0)
    (h : extractMorphTarget gModel gMat srcMesh mtChannel = some (some mtmesh, gModel1)) :
    ∃ mesh layer0 colors,
      gModel1.GetMeshAt mtmesh = some mesh ∧ mesh.mLayers = [layer0] ∧
      layer0.mVertexColors = some colors ∧
      ∀ (i : Nat) (tvi : Int), mt.mControlPointIndices[i]? = some tvi →
        mesh.mControlPoints[i]? = some (mt.GetControlPointAt tvi) ∧
        (∀ v, 0 ≤ tvi → mt.mControlPoints[tvi.toNat]? = some v →
          mesh.mControlPoints[i]? = some v) ∧
        (∀ normals, mtLayer0.mNormals = some normals →
          ∃ mtnorms, layer0.mNormals = some mtnorms ∧
            mtnorms.mDirectArray[i]? = some (getAt normals.mDirectArray tvi FbxVector4.zero) ∧
            ∀ v, 0 ≤ tvi → normals.mDirectArray[tvi.toNat]? = some v →
              mtnorms.mDirectArray[i]? = some v) ∧
        colors.mDirectArray[i]? = some (getColorFromUInt (toUInt tvi)) := by
  obtain ⟨mt1, shapes, mtLayer1, layers, srcNode, scalingNode, hmt1, hlayer1, hsrc1, hscal1⟩ :=
    extractMorphTarget_some gModel gMat srcMesh mtChannel mtmesh gModel1 h
  have e : mt1 = mt := by simpa [hmt1] using hmt
  subst e
  have e1 : mtLayer1 = mtLayer0 := by simpa [hlayer1] using hlayer
  subst e1
  rw [extractMorphTarget_ok gModel gMat srcMesh mtChannel mt1 shapes mtLayer1 layers srcNode
    scalingNode hmt1 hlayer1 hsrc1 hscal1, defineMorphTargetMesh_eq _ _ _ rfl] at h
  simp only [Option.some.injEq, Prod.mk.injEq] at h
  obtain ⟨h1, h2⟩ := h
  subst h1 h2
  refine ⟨_, _, _, List.getElem?_concat_length _ _, rfl, rfl, ?_⟩
  intro i tvi hi
  refine ⟨?_, ?_, ?_, ?_⟩
  · simp [List.getElem?_map, hi]
  · intro v h0 hv
    simp [List.getElem?_map, hi, FbxShape.GetControlPointAt, getAt_of_getElem? _ _ _ _ h0 hv]
  · intro normals hN
    refine ⟨_, by rw [hN]; rfl, ?_, ?_⟩
    · simp [List.getElem?_map, hi]
    · intro v h0 hv
      simp [List.getElem?_map, hi, getAt_of_getElem? _ _ _ _ h0 hv]
  · simp [List.getElem?_map, hi]

theorem C9_extractor_copy_witness :
    (channelSmile.mTargetShapes.head? = some shapeSmile ∧
        shapeSmile.mLayers.head? = some layerSmile ∧
        extractMorphTarget sceneFace (some 0) 0 channelSmile
          = some (some 1, sceneFaceExtracted)) ∧
      ∃ mesh layer0 colors,
        sceneFaceExtracted.GetMeshAt 1 = some mesh ∧ mesh.mLayers = [layer0] ∧
        layer0.mVertexColors = some colors ∧
        ∀ (i : Nat) (tvi : Int), shapeSmile.mControlPointIndices[i]? = some tvi →
          mesh.mControlPoints[i]? = some (shapeSmile.GetControlPointAt tvi) ∧
          (∀ v, 0 ≤ tvi → shapeSmile.mControlPoints[tvi.toNat]? = some v →
            mesh.mControlPoints[i]? = some v) ∧
          (∀ normals, layerSmile.mNormals = some normals →
            ∃ mtnorms, layer0.mNormals = some mtnorms ∧
              mtnorms.mDirectArray[i]? = some (getAt normals.mDirectArray tvi FbxVector4.zero) ∧
              ∀ v, 0 ≤ tvi → normals.mDirectArray[tvi.toNat]? = some v →
                mtnorms.mDirectArray[i]? = some v) ∧
          colors.mDirectArray[i]? = some (getColorFromUInt (toUInt tvi)) :=
  ⟨⟨rfl, rfl, extract_sceneFace⟩,
    C9_extractor_copy sceneFace (some 0) 0 channelSmile shapeSmile layerSmile 1
      sceneFaceExtracted rfl rfl extract_sceneFace⟩

/-- C10: extractor precondition failure.  For every channel with zero target
shapes, and for every channel whose first target shape has zero layers,
`extractMorphTarget` returns null and the scene is unchanged: no node, mesh or
material attachment is added. -/
theorem C10_extractor_precondition_failure (gModel : FbxScene) (gMat : Option Nat)
    (srcMesh : Nat) (mtChannel : FbxBlendShapeChannel)
    (h : mtChannel.mTargetShapes.length = 0 ∨
      ∃ mt, mtChannel.mTargetShapes.head? = some mt ∧ mt.GetLayerCount = 0) :
    extractMorphTarget gModel gMat srcMesh mtChannel = some (none, gModel) := by
  rcases h with h | ⟨mt, hmt, hl⟩
  · have h0 : mtChannel.mTargetShapes = [] := List.length_eq_zero.mp h
    simp [extractMorphTarget, h0]
  · obtain ⟨shapes, hmt1⟩ := head?_eq_some _ _ hmt
    have h0 : mt.mLayers = [] := List.length_eq_zero.mp hl
    simp [extractMorphTarget, hmt1, h0]

theorem C10_extractor_precondition_failure_witness :
    (channelEmpty.mTargetShapes.length = 0 ∨
        ∃ mt, channelEmpty.mTargetShapes.head? = some mt ∧ mt.GetLayerCount = 0) ∧
      extractMorphTarget sceneFace (some 0) 0 channelEmpty = some (none, sceneFace) :=
  ⟨Or.inl rfl, C10_extractor_precondition_failure sceneFace (some 0) 0 channelEmpty (Or.inl rfl)⟩

/-! ## Placeholder topology, node identity, frame -/

/-- Every returned mesh comes from valid arguments and is the mesh
`defineMorphTargetMesh` builds, stored last in the scene. -/
theorem extractMorphTarget_inv (gModel : FbxScene) (gMat : Option Nat) (srcMesh : Nat)
    (mtChannel : FbxBlendShapeChannel) (mtmesh : Nat) (gModel1 : FbxScene)
    (h : extractMorphTarget gModel gMat srcMesh mtChannel = some (some mtmesh, gModel1)) :
    ∃ mt shapes mtLayer0 layers srcNode scalingNode,
      mtChannel.mTargetShapes = mt :: shapes ∧ mt.mLayers = mtLayer0 :: layers ∧
      gModel.GetNodeOfMesh srcMesh = some srcNode ∧
      gModel.GetNodeOfChannel mtChannel = some scalingNode ∧
      mtmesh = gModel.mMeshes.length ∧
      gModel1 =
        { gModel with
          mRootNode := gModel.mRootNode.AddChild gModel.GetNodeCount
          mNodes := gModel.mNodes ++
            [{ mName := "MT&" ++ srcNode.mName ++ "&" ++ mt.mName
               mNodeAttribute := some gModel.mMeshes.length
               mChildren := []
               LclTranslation := ⟨0, 0, 0⟩
               LclRotation := ⟨0, 0, 0⟩
               LclScaling := scalingNode.LclScaling
               mMaterials := gMat.toList
               mShadingMode := .eLightShading }]
          mMeshes := gModel.mMeshes ++
            [defineMorphTargetMesh mt mtLayer0
              { FbxMesh.Create ("MT&" ++ srcNode.mName ++ "&" ++ mt.mName) with
                mNode := some gModel.GetNodeCount }] } := by
  obtain ⟨mt, shapes, mtLayer0, layers, srcNode, scalingNode, hmt, hlayer, hsrc, hscal⟩ :=
    extractMorphTarget_some gModel gMat srcMesh mtChannel mtmesh gModel1 h
  rw [extractMorphTarget_ok gModel gMat srcMesh mtChannel mt shapes mtLayer0 layers srcNode
    scalingNode hmt hlayer hsrc hscal] at h
  simp only [Option.some.injEq, Prod.mk.injEq] at h
  exact ⟨mt, shapes, mtLayer0, layers, srcNode, scalingNode, hmt, hlayer, hsrc, hscal,
    h.1.symm, h.2.symm⟩

/-- The dummy face number `fi`. -/
theorem mem_dummyFace (v : Int) (fi : Nat) :
    v ∈ [3 * (fi : Int), 3 * (fi : Int) + 1, 3 * (fi : Int) + 2]
      ↔ 3 * (fi : Int) ≤ v ∧ v < 3 * (fi : Int) + 3 := by
  simp only [List.mem_cons, List.mem_singleton, List.not_mem_nil, or_false]
  omega

/-- Among the first `n` dummy faces, an index below `3 n` lies on exactly one
face and any other index on none. -/
theorem dummyFaces_count (v : Int) (n : Nat) :
    (((List.range n).map fun (fi : Nat) =>
        [3 * (fi : Int), 3 * (fi : Int) + 1, 3 * (fi : Int) + 2]).filter
          fun poly => decide (v ∈ poly)).length
      = if 0 ≤ v ∧ v < 3 * (n : Int) then 1 else 0 := by
  induction n with
  | zero =>
    have : ¬ (0 ≤ v ∧ v < 0) := by omega
    simp [this]
  | succ n ih =>
    rw [List.range_succ, List.map_append, List.filter_append, List.length_append, ih]
    simp only [List.map_cons, List.map_nil, List.filter_cons, List.filter_nil, mem_dummyFace,
      decide_eq_true_eq]
    push_cast
    split_ifs <;> simp <;> omega

/-- The dummy faces list the indices `0 .. 3 n - 1` once each, in order. -/
theorem dummyFaces_flatten (n : Nat) :
    ((List.range n).map fun (fi : Nat) =>
        [3 * (fi : Int), 3 * (fi : Int) + 1, 3 * (fi : Int) + 2]).flatten
      = (List.range (3 * n)).map fun (i : Nat) => (i : Int) := by
  induction n with
  | zero => simp
  | succ n ih =>
    rw [List.range_succ, List.map_append, List.flatten_append, ih]
    have h3 : 3 * (n + 1) = 3 * n + 1 + 1 + 1 := by ring
    rw [h3]
    simp only [List.range_succ, List.map_append, List.map_cons, List.map_nil, List.flatten_cons,
      List.flatten_nil, List.append_nil, List.append_assoc, List.singleton_append]
    push_cast
    simp

/-- C16: placeholder topology.  For every mesh produced by `extractMorphTarget`,
with `K` control points: there are `K / 3` polygons and polygon `f` is exactly
`(3f, 3f+1, 3f+2)`; the emitted indices, read polygon after polygon, are
`0, 1, .., 3 (K / 3) - 1`, so each is below `K`; an index below `3 (K / 3)`
lies on exactly one polygon and every other index (the trailing `K mod 3`
points included) on none; and the material element is per-polygon
/index-to-direct with exactly `K / 3` indices, all 0. -/
theorem C16_placeholder_topology (gModel : FbxScene) (gMat : Option Nat) (srcMesh : Nat)
    (mtChannel : FbxBlendShapeChannel) (mtmesh : Nat) (gModel1 : FbxScene)
    (h : extractMorphTarget gModel gMat srcMesh mtChannel = some (some mtmesh, gModel1)) :
    ∃ mesh layer0 mtmats,
      gModel1.GetMeshAt mtmesh = some mesh ∧ mesh.mLayers = [layer0] ∧
      layer0.mMaterials = some mtmats ∧
      mesh.mPolygons.length = mesh.GetControlPointsCount / 3 ∧
      (∀ f : Nat, f < mesh.GetControlPointsCount / 3 →
        mesh.mPolygons[f]? = some [3 * (f : Int), 3 * (f : Int) + 1, 3 * (f : Int) + 2]) ∧
      mesh.mPolygons.flatten
        = (List.range (3 * (mesh.GetControlPointsCount / 3))).map (fun (i : Nat) => (i : Int)) ∧
      (∀ poly ∈ mesh.mPolygons, ∀ v ∈ poly, 0 ≤ v ∧ v < (mesh.GetControlPointsCount : Int)) ∧
      (∀ v : Int, (mesh.mPolygons.filter fun poly => decide (v ∈ poly)).length
        = if 0 ≤ v ∧ v < 3 * ((mesh.GetControlPointsCount / 3 : Nat) : Int) then 1 else 0) ∧
      mtmats.mMappingMode = .eByPolygon ∧ mtmats.mReferenceMode = .eIndexToDirect ∧
      mtmats.mIndexArray.length = mesh.GetControlPointsCount / 3 ∧
      (∀ x ∈ mtmats.mIndexArray, x = 0) := by
  obtain ⟨mt, shapes, mtLayer0, layers, srcNode, scalingNode, _, _, _, _, hid, hres⟩ :=
    extractMorphTarget_inv gModel gMat srcMesh mtChannel mtmesh gModel1 h
  subst hid hres
  rw [defineMorphTargetMesh_eq _ _ _ rfl]
  refine ⟨_, _, _, List.getElem?_concat_length _ _, rfl, rfl, ?_, ?_, ?_, ?_, ?_, rfl, rfl, ?_, ?_⟩
  · simp [FbxMesh.Create, FbxMesh.GetControlPointsCount]
  · intro f hf
    simp only [FbxMesh.GetControlPointsCount, List.length_map] at hf
    simp [FbxMesh.Create, List.getElem?_map, List.getElem?_range hf]
  · simp only [FbxMesh.Create, List.nil_append, FbxMesh.GetControlPointsCount, List.length_map]
    exact dummyFaces_flatten _
  · intro poly hp v hv
    simp only [FbxMesh.Create, List.nil_append, List.mem_map, List.mem_range] at hp
    obtain ⟨fi, hfi, rfl⟩ := hp
    rw [mem_dummyFace] at hv
    simp only [FbxMesh.GetControlPointsCount, List.length_map]
    omega
  · intro v
    simp only [FbxMesh.Create, List.nil_append, FbxMesh.GetControlPointsCount, List.length_map]
    exact dummyFaces_count v _
  · simp [FbxMesh.GetControlPointsCount]
  · intro x hx
    exact List.eq_of_mem_replicate hx

theorem C16_placeholder_topology_witness :
    extractMorphTarget sceneFace (some 0) 0 channelSmile = some (some 1, sceneFaceExtracted) ∧
      ∃ mesh layer0 mtmats,
        sceneFaceExtracted.GetMeshAt 1 = some mesh ∧ mesh.mLayers = [layer0] ∧
        layer0.mMaterials = some mtmats ∧
        mesh.mPolygons.length = mesh.GetControlPointsCount / 3 ∧
        (∀ f : Nat, f < mesh.GetControlPointsCount / 3 →
          mesh.mPolygons[f]? = some [3 * (f : Int), 3 * (f : Int) + 1, 3 * (f : Int) + 2]) ∧
        mesh.mPolygons.flatten
          = (List.range (3 * (mesh.GetControlPointsCount / 3))).map
              (fun (i : Nat) => (i : Int)) ∧
        (∀ poly ∈ mesh.mPolygons, ∀ v ∈ poly,
          0 ≤ v ∧ v < (mesh.GetControlPointsCount : Int)) ∧
        (∀ v : Int, (mesh.mPolygons.filter fun poly => decide (v ∈ poly)).length
          = if 0 ≤ v ∧ v < 3 * ((mesh.GetControlPointsCount / 3 : Nat) : Int) then 1 else 0) ∧
        mtmats.mMappingMode = .eByPolygon ∧ mtmats.mReferenceMode = .eIndexToDirect ∧
        mtmats.mIndexArray.length = mesh.GetControlPointsCount / 3 ∧
        (∀ x ∈ mtmats.mIndexArray, x = 0) :=
  ⟨extract_sceneFace,
    C16_placeholder_topology sceneFace (some 0) 0 channelSmile 1 sceneFaceExtracted
      extract_sceneFace⟩

/-- C17: new node identity.  For every successful `extractMorphTarget` on
`srcMesh` and a channel of a blend-shape deformer of `srcMesh` (the channel
names its deformer, and that deformer deforms `srcMesh`, as on the call of
line 228): a new node and a new mesh are stored in the scene, attached to each
other, both named
`"MT&" ++ (name of the node of srcMesh) ++ "&" ++ (name of the first target
shape)`; the new node is a child of the scene root; its local scale is the
local scale of the node of `srcMesh`; its translation and rotation are the
defaults. -/
theorem C17_new_node_identity (gModel : FbxScene) (gMat : Option Nat) (srcMesh : Nat)
    (mtChannel : FbxBlendShapeChannel) (mtmesh : Nat) (gModel1 : FbxScene)
    (mt : FbxShape) (srcNode : FbxNode) (morpher : Nat) (blendShape : FbxBlendShape)
    (hmt : mtChannel.mTargetShapes.head? = some mt)
    (hsrc : gModel.GetNodeOfMesh srcMesh = some srcNode)
    (hdef : mtChannel.mBlendShapeDeformer = some morpher)
    (hbs : gModel.GetBlendShapeAt morpher = some blendShape)
    (hgeo : blendShape.mGeometry = some srcMesh)
    (h : extractMorphTarget gModel gMat srcMesh mtChannel = some (some mtmesh, gModel1)) :
    ∃ mtnodeId mtnode mesh,
      gModel.GetNode mtnodeId = none ∧ gModel.GetMeshAt mtmesh = none ∧
      gModel1.GetNode mtnodeId = some mtnode ∧ gModel1.GetMeshAt mtmesh = some mesh ∧
      mtnode.mNodeAttribute = some mtmesh ∧ mesh.mNode = some mtnodeId ∧
      mtnode.mName = "MT&" ++ srcNode.mName ++ "&" ++ mt.mName ∧
      mesh.mName = "MT&" ++ srcNode.mName ++ "&" ++ mt.mName ∧
      mtnodeId ∈ gModel1.mRootNode.mChildren ∧
      mtnode.LclScaling = srcNode.LclScaling ∧
      mtnode.LclTranslation = ⟨0, 0, 0⟩ ∧ mtnode.LclRotation = ⟨0, 0, 0⟩ := by
  obtain ⟨mt1, shapes, mtLayer0, layers, srcNode1, scalingNode, hmt1, _, hsrc1, hscal, hid,
    hres⟩ := extractMorphTarget_inv gModel gMat srcMesh mtChannel mtmesh gModel1 h
  have e : mt1 = mt := by simpa [hmt1] using hmt
  have e1 : srcNode1 = srcNode := by simpa [hsrc1] using hsrc
  have e2 : scalingNode = srcNode := by
    have hown : gModel.GetNodeOfChannel mtChannel = gModel.GetNodeOfMesh srcMesh := by
      simp [FbxScene.GetNodeOfChannel, hdef, hbs, hgeo]
    rw [hscal, hsrc] at hown
    exact Option.some.inj hown
  subst e e1 e2 hid hres
  rw [defineMorphTargetMesh_eq _ _ _ rfl]
  refine ⟨gModel.GetNodeCount, _, _, ?_, ?_, List.getElem?_concat_length _ _,
    List.getElem?_concat_length _ _, rfl, rfl, rfl, rfl, ?_, rfl, rfl, rfl⟩
  · simp [FbxScene.GetNode, FbxScene.GetNodeCount]
  · simp [FbxScene.GetMeshAt]
  · simp [FbxNode.AddChild]

theorem C17_new_node_identity_witness :
    (channelSmile.mTargetShapes.head? = some shapeSmile ∧
        sceneFace.GetNodeOfMesh 0 = some nodeFace ∧
        channelSmile.mBlendShapeDeformer = some 0 ∧
        sceneFace.GetBlendShapeAt 0
          = some { mName := "morpher", mGeometry := some 0, mChannels := [channelSmile] } ∧
        extractMorphTarget sceneFace (some 0) 0 channelSmile
          = some (some 1, sceneFaceExtracted)) ∧
      ∃ mtnodeId mtnode mesh,
        sceneFace.GetNode mtnodeId = none ∧ sceneFace.GetMeshAt 1 = none ∧
        sceneFaceExtracted.GetNode mtnodeId = some mtnode ∧
        sceneFaceExtracted.GetMeshAt 1 = some mesh ∧
        mtnode.mNodeAttribute = some 1 ∧ mesh.mNode = some mtnodeId ∧
        mtnode.mName = "MT&" ++ nodeFace.mName ++ "&" ++ shapeSmile.mName ∧
        mesh.mName = "MT&" ++ nodeFace.mName ++ "&" ++ shapeSmile.mName ∧
        mtnodeId ∈ sceneFaceExtracted.mRootNode.mChildren ∧
        mtnode.LclScaling = nodeFace.LclScaling ∧
        mtnode.LclTranslation = ⟨0, 0, 0⟩ ∧ mtnode.LclRotation = ⟨0, 0, 0⟩ :=
  ⟨⟨rfl, rfl, rfl, rfl, extract_sceneFace⟩,
    C17_new_node_identity sceneFace (some 0) 0 channelSmile 1 sceneFaceExtracted shapeSmile
      nodeFace 0 { mName := "morpher", mGeometry := some 0, mChannels := [channelSmile] }
      rfl rfl rfl rfl rfl extract_sceneFace⟩

/-- C18: extractor frame.  For every successful `extractMorphTarget` call the
scene after the call is the scene before it with one node and one mesh stored
under new ids and the id of the new node appended last to the children of the
root; the new node carries the new mesh and the placeholder material.
Deformers (with their channels and target shapes) and materials are the same,
every mesh that existed is the same (the source mesh with its deformer list
included), and every node that existed other than the root is the same. -/
theorem C18_extractor_frame (gModel : FbxScene) (gMat : Option Nat) (srcMesh : Nat)
    (mtChannel : FbxBlendShapeChannel) (mtmesh : Nat) (gModel1 : FbxScene)
    (h : extractMorphTarget gModel gMat srcMesh mtChannel = some (some mtmesh, gModel1)) :
    ∃ mtnode mesh,
      gModel1 =
        { gModel with
          mRootNode :=
            { gModel.mRootNode with
              mChildren := gModel.mRootNode.mChildren ++ [gModel.GetNodeCount] }
          mNodes := gModel.mNodes ++ [mtnode]
          mMeshes := gModel.mMeshes ++ [mesh] } ∧
      mtmesh = gModel.mMeshes.length ∧
      mtnode.mNodeAttribute = some mtmesh ∧ mesh.mNode = some gModel.GetNodeCount ∧
      mtnode.mMaterials = gMat.toList ∧
      gModel1.mDeformers = gModel.mDeformers ∧ gModel1.mMaterials = gModel.mMaterials ∧
      (∀ k m, gModel.GetMeshAt k = some m → gModel1.GetMeshAt k = some m) ∧
      gModel1.GetMeshAt srcMesh = gModel.GetMeshAt srcMesh ∧
      (∀ i n, gModel.GetNode (i + 1) = some n → gModel1.GetNode (i + 1) = some n) ∧
      gModel1.mRootNode.mChildren.length = gModel.mRootNode.mChildren.length + 1 := by
  obtain ⟨mt, shapes, mtLayer0, layers, srcNode, scalingNode, _, _, hsrc, _, hid, hres⟩ :=
    extractMorphTarget_inv gModel gMat srcMesh mtChannel mtmesh gModel1 h
  subst hid hres
  have hmesh : ∀ k m, gModel.GetMeshAt k = some m →
      (gModel.mMeshes ++ [defineMorphTargetMesh mt mtLayer0
        { FbxMesh.Create ("MT&" ++ srcNode.mName ++ "&" ++ mt.mName) with
          mNode := some gModel.GetNodeCount }])[k]? = some m := by
    intro k m hk
    have hlt : k < gModel.mMeshes.length := (List.getElem?_eq_some.mp hk).1
    rw [List.getElem?_append_left hlt]
    exact hk
  refine ⟨_, _, rfl, rfl, rfl, ?_, rfl, rfl, rfl, hmesh, ?_, ?_, ?_⟩
  · rw [defineMorphTargetMesh_eq _ _ _ rfl]
  · simp only [FbxScene.GetNodeOfMesh, Option.bind_eq_bind, Option.bind_eq_some] at hsrc
    obtain ⟨m, hm, _⟩ := hsrc
    rw [hm]
    exact hmesh srcMesh m hm
  · intro i n hi
    have hlt : i < gModel.mNodes.length := (List.getElem?_eq_some.mp hi).1
    simp only [FbxScene.GetNode]
    rw [List.getElem?_append_left hlt]
    exact hi
  · simp [FbxNode.AddChild]

theorem C18_extractor_frame_witness :
    extractMorphTarget sceneFace (some 0) 0 channelSmile = some (some 1, sceneFaceExtracted) ∧
      ∃ mtnode mesh,
        sceneFaceExtracted =
          { sceneFace with
            mRootNode :=
              { sceneFace.mRootNode with
                mChildren := sceneFace.mRootNode.mChildren ++ [sceneFace.GetNodeCount] }
            mNodes := sceneFace.mNodes ++ [mtnode]
            mMeshes := sceneFace.mMeshes ++ [mesh] } ∧
        1 = sceneFace.mMeshes.length ∧
        mtnode.mNodeAttribute = some 1 ∧ mesh.mNode = some sceneFace.GetNodeCount ∧
        mtnode.mMaterials = (some 0).toList ∧
        sceneFaceExtracted.mDeformers = sceneFace.mDeformers ∧
        sceneFaceExtracted.mMaterials = sceneFace.mMaterials ∧
        (∀ k m, sceneFace.GetMeshAt k = some m → sceneFaceExtracted.GetMeshAt k = some m) ∧
        sceneFaceExtracted.GetMeshAt 0 = sceneFace.GetMeshAt 0 ∧
        (∀ i n, sceneFace.GetNode (i + 1) = some n →
          sceneFaceExtracted.GetNode (i + 1) = some n) ∧
        sceneFaceExtracted.mRootNode.mChildren.length
          = sceneFace.mRootNode.mChildren.length + 1 :=
  ⟨extract_sceneFace,
    C18_extractor_frame sceneFace (some 0) 0 channelSmile 1 sceneFaceExtracted
      extract_sceneFace⟩

/-! ## Lookup safety of the copy loop -/

theorem readAt_eq_some {α : Type} (l : List α) (pIndex : Int) (d : α)
    (h0 : 0 ≤ pIndex) (h1 : pIndex < (l.length : Int)) :
    readAt l pIndex = some (getAt l pIndex d) := by
  have hlt : pIndex.toNat < l.length := by omega
  simp [readAt, getAt, h0, List.getD, List.getElem?_eq_getElem hlt]

/-- One iteration of the copy loop stores slot `cpi` of the control points and
leaves the number of control points as it is. -/
theorem copyTargetVertex_controlPoints (mt : FbxShape) (mtLayer0 : FbxLayer)
    (mtnorms : Option Nat) (mtcolors : Nat) (mtmesh : FbxMesh) (cpi : Nat) :
    (copyTargetVertex mt mtLayer0 mtnorms mtcolors mtmesh cpi).mControlPoints
      = mtmesh.mControlPoints.set cpi
          (mt.GetControlPointAt (mt.mControlPointIndices.getD cpi 0)) := by
  unfold copyTargetVertex
  cases mtnorms <;> cases mtLayer0.GetNormals <;> rfl

theorem copyLoop_length (mt : FbxShape) (mtLayer0 : FbxLayer) (mtnorms : Option Nat)
    (mtcolors : Nat) (mtmesh : FbxMesh) (n : Nat) :
    ((List.range n).foldl (copyTargetVertex mt mtLayer0 mtnorms mtcolors)
      mtmesh).mControlPoints.length = mtmesh.mControlPoints.length := by
  induction n with
  | zero => rfl
  | succ n ih =>
    rw [List.range_succ, List.foldl_append, List.foldl_cons, List.foldl_nil,
      copyTargetVertex_controlPoints, List.length_set, ih]

/-- An iteration of the copy loop whose accesses are in bounds: the checked
iteration returns what `copyTargetVertex` returns. -/
theorem copyTargetVertexChecked_eq (mt : FbxShape) (mtLayer0 : FbxLayer) (mtnorms : Option Nat)
    (mtcolors : Nat) (mtmesh : FbxMesh) (cpi : Nat) (tvi : Int)
    (hget : mt.mControlPointIndices[cpi]? = some tvi)
    (h0 : 0 ≤ tvi) (h1 : tvi < (mt.mControlPoints.length : Int))
    (h2 : ∀ normals, mtLayer0.mNormals = some normals →
      tvi < (normals.mDirectArray.length : Int))
    (hcpi : cpi < mtmesh.mControlPoints.length) :
    copyTargetVertexChecked mt mtLayer0 mtnorms mtcolors mtmesh cpi
      = some (copyTargetVertex mt mtLayer0 mtnorms mtcolors mtmesh cpi) := by
  have hD : mt.mControlPointIndices.getD cpi 0 = tvi := by simp [List.getD, hget]
  have hnot : ¬ mtmesh.mControlPoints.length ≤ cpi := by omega
  unfold copyTargetVertexChecked copyTargetVertex
  simp only [hget, hD, Option.bind_eq_bind, Option.some_bind, FbxShape.GetControlPointAt,
    readAt_eq_some mt.mControlPoints tvi FbxVector4.zero h0 h1, hnot, if_false]
  cases mtnorms with
  | none => rfl
  | some k =>
    cases hN : mtLayer0.GetNormals with
    | none => rfl
    | some normals =>
      simp only [readAt_eq_some normals.mDirectArray tvi FbxVector4.zero h0 (h2 normals hN),
        Option.some_bind]

/-- The copy loop with checked accesses returns what the copy loop of the
extractor returns, as far as the accesses of its iterations are in bounds. -/
theorem copyLoopChecked_eq (mt : FbxShape) (mtLayer0 : FbxLayer) (mtnorms : Option Nat)
    (mtcolors : Nat) (mtmesh : FbxMesh)
    (hidx : ∀ tvi ∈ mt.mControlPointIndices,
      0 ≤ tvi ∧ tvi < (mt.mControlPoints.length : Int) ∧
      ∀ normals, mtLayer0.mNormals = some normals →
        tvi < (normals.mDirectArray.length : Int))
    (n : Nat) (hn : n ≤ mt.mControlPointIndices.length)
    (hK : n ≤ mtmesh.mControlPoints.length) :
    (List.range n).foldlM (copyTargetVertexChecked mt mtLayer0 mtnorms mtcolors) mtmesh
      = some ((List.range n).foldl (copyTargetVertex mt mtLayer0 mtnorms mtcolors) mtmesh) := by
  induction n with
  | zero => rfl
  | succ n ih =>
    have hlt : n < mt.mControlPointIndices.length := by omega
    obtain ⟨h0, h1, h2⟩ := hidx _ (List.getElem_mem hlt)
    rw [List.range_succ, List.foldlM_append, ih (by omega) (by omega), List.foldl_append]
    simp only [Option.bind_eq_bind, Option.some_bind, List.foldlM_cons, List.foldlM_nil,
      List.foldl_cons, List.foldl_nil]
    rw [copyTargetVertexChecked_eq mt mtLayer0 mtnorms mtcolors _ n _
      (List.getElem?_eq_getElem hlt) h0 h1 h2 (by rw [copyLoop_length]; omega)]
    rfl

/-- The statements of `extractMorphTarget` on the new mesh are the copy loop,
run from `copyLoopEntry`, followed by `addDummyFaces`. -/
theorem defineMorphTargetMesh_copyLoop (mt : FbxShape) (mtLayer0 : FbxLayer) (mtmesh : FbxMesh) :
    defineMorphTargetMesh mt mtLayer0 mtmesh
      = addDummyFaces ((List.range mt.GetControlPointIndicesCount).foldl
          (copyTargetVertex mt mtLayer0 (copyLoopEntry mt mtLayer0 mtmesh).1
            (copyLoopEntry mt mtLayer0 mtmesh).2.1)
          (copyLoopEntry mt mtLayer0 mtmesh).2.2) := by
  unfold defineMorphTargetMesh copyLoopEntry addDummyFaces
  cases mtLayer0.GetNormals <;> rfl

/-- At the entry of the copy loop the new mesh has the `K` allocated control
points. -/
theorem copyLoopEntry_controlPoints (mt : FbxShape) (mtLayer0 : FbxLayer) (mtmesh : FbxMesh) :
    (copyLoopEntry mt mtLayer0 mtmesh).2.2.mControlPoints
      = List.replicate mt.GetControlPointIndicesCount FbxVector4.zero := by
  have hN : ∀ m : FbxMesh, m.CreateElementNormal.2.mControlPoints = m.mControlPoints := by
    intro m
    unfold FbxMesh.CreateElementNormal
    split <;> rfl
  have hC : ∀ m : FbxMesh, m.CreateElementVertexColor.2.mControlPoints = m.mControlPoints := by
    intro m
    unfold FbxMesh.CreateElementVertexColor
    split <;> rfl
  unfold copyLoopEntry
  cases mtLayer0.GetNormals with
  | none => exact hC _
  | some normals =>
    show (FbxMesh.CreateElementVertexColor _).2.mControlPoints = _
    rw [hC]
    exact hN _

/-- C19: extractor lookup safety.  The statements of `extractMorphTarget` on
the new mesh are the copy loop, run from the state `copyLoopEntry` gives, with
the `K` allocated control points, followed by the dummy faces.  If every entry
of the index array of the target shape is non-negative and below the number of
its control points (and below the number of its normals when it has normals),
then every array access of the loop is in bounds: the loop with checked
accesses returns, and returns what the loop of the extractor returns.
Iteration `cpi` stores the control point named by entry `cpi` of the index
array in slot `cpi` and leaves every other slot as it was, for each `cpi`
below `K`, so each of the `K` slots is written by exactly one iteration, and
there are `K` slots after the loop.  Without the hypothesis a lookup can fall
outside: for the target shape `shapeOutOfRange` the read of control point 5 of
1 has no defined value and the checked loop does not return. -/
theorem C19_lookup_safety (mt : FbxShape) (mtLayer0 : FbxLayer) (mtmesh : FbxMesh)
    (mtnorms : Option Nat) (mtcolors : Nat) (entry : FbxMesh)
    (he : copyLoopEntry mt mtLayer0 mtmesh = (mtnorms, mtcolors, entry))
    (hidx : ∀ tvi ∈ mt.mControlPointIndices,
      0 ≤ tvi ∧ tvi < (mt.mControlPoints.length : Int) ∧
      ∀ normals, mtLayer0.mNormals = some normals →
        tvi < (normals.mDirectArray.length : Int)) :
    defineMorphTargetMesh mt mtLayer0 mtmesh
      = addDummyFaces ((List.range mt.GetControlPointIndicesCount).foldl
          (copyTargetVertex mt mtLayer0 mtnorms mtcolors) entry) ∧
    entry.mControlPoints.length = mt.GetControlPointIndicesCount ∧
    (List.range mt.GetControlPointIndicesCount).foldlM
        (copyTargetVertexChecked mt mtLayer0 mtnorms mtcolors) entry
      = some ((List.range mt.GetControlPointIndicesCount).foldl
          (copyTargetVertex mt mtLayer0 mtnorms mtcolors) entry) ∧
    (∀ cpi tvi vertex, mt.mControlPointIndices[cpi]? = some tvi →
      readAt mt.mControlPoints tvi = some vertex →
      ((List.range (cpi + 1)).foldl (copyTargetVertex mt mtLayer0 mtnorms mtcolors)
        entry).mControlPoints[cpi]? = some vertex ∧
      ∀ j, j ≠ cpi →
        ((List.range (cpi + 1)).foldl (copyTargetVertex mt mtLayer0 mtnorms mtcolors)
          entry).mControlPoints[j]?
        = ((List.range cpi).foldl (copyTargetVertex mt mtLayer0 mtnorms mtcolors)
          entry).mControlPoints[j]?) ∧
    ((List.range mt.GetControlPointIndicesCount).foldl
      (copyTargetVertex mt mtLayer0 mtnorms mtcolors) entry).mControlPoints.length
      = mt.GetControlPointIndicesCount ∧
    (readAt shapeOutOfRange.mControlPoints 5 = none ∧
      (List.range shapeOutOfRange.GetControlPointIndicesCount).foldlM
        (copyTargetVertexChecked shapeOutOfRange FbxLayer.Create
          (copyLoopEntry shapeOutOfRange FbxLayer.Create (FbxMesh.Create "MT")).1
          (copyLoopEntry shapeOutOfRange FbxLayer.Create (FbxMesh.Create "MT")).2.1)
        (copyLoopEntry shapeOutOfRange FbxLayer.Create (FbxMesh.Create "MT")).2.2
        = none) := by
  have hK : entry.mControlPoints.length = mt.GetControlPointIndicesCount := by
    have h := copyLoopEntry_controlPoints mt mtLayer0 mtmesh
    rw [he] at h
    show entry.mControlPoints.length = _
    have h1 : entry.mControlPoints
        = List.replicate mt.GetControlPointIndicesCount FbxVector4.zero := h
    rw [h1, List.length_replicate]
  refine ⟨?_, hK, ?_, ?_, ?_, ?_, ?_⟩
  · rw [defineMorphTargetMesh_copyLoop, he]
  · exact copyLoopChecked_eq mt mtLayer0 mtnorms mtcolors entry hidx _ (le_refl _)
      (by rw [hK])
  · intro cpi tvi vertex hget hread
    have hlt : cpi < mt.mControlPointIndices.length := (List.getElem?_eq_some.mp hget).1
    obtain ⟨h0, h1, _⟩ := hidx tvi (List.getElem?_mem hget)
    have hD : mt.mControlPointIndices.getD cpi 0 = tvi := by simp [List.getD, hget]
    have hv : mt.GetControlPointAt tvi = vertex := by
      rw [readAt_eq_some mt.mControlPoints tvi FbxVector4.zero h0 h1] at hread
      exact Option.some.inj hread
    have hstep : ((List.range (cpi + 1)).foldl (copyTargetVertex mt mtLayer0 mtnorms mtcolors)
          entry).mControlPoints
        = (((List.range cpi).foldl (copyTargetVertex mt mtLayer0 mtnorms mtcolors)
          entry).mControlPoints).set cpi vertex := by
      rw [List.range_succ, List.foldl_append, List.foldl_cons, List.foldl_nil,
        copyTargetVertex_controlPoints, hD, hv]
    rw [hstep]
    refine ⟨?_, ?_⟩
    · rw [List.getElem?_set_self]
      simp only [copyLoop_length, hK, FbxShape.GetControlPointIndicesCount, hlt, if_true]
    · intro j hj
      rw [List.getElem?_set_ne (fun e => hj e.symm)]
  · rw [copyLoop_length, hK]
  · rfl
  · rfl

theorem C19_lookup_safety_witness :
    (copyLoopEntry shapeSmile layerSmile (FbxMesh.Create "MT&Face&smile")
        = (some 0, 0,
            (copyLoopEntry shapeSmile layerSmile (FbxMesh.Create "MT&Face&smile")).2.2) ∧
      ∀ tvi ∈ shapeSmile.mControlPointIndices,
        0 ≤ tvi ∧ tvi < (shapeSmile.mControlPoints.length : Int) ∧
        ∀ normals, layerSmile.mNormals = some normals →
          tvi < (normals.mDirectArray.length : Int)) ∧
      ∃ mesh,
        (List.range shapeSmile.GetControlPointIndicesCount).foldlM
          (copyTargetVertexChecked shapeSmile layerSmile (some 0) 0)
          (copyLoopEntry shapeSmile layerSmile (FbxMesh.Create "MT&Face&smile")).2.2
          = some mesh ∧
        mesh.mControlPoints = [⟨2, 2, 2, 1⟩, ⟨5, 5, 5, 1⟩, ⟨1, 1, 1, 1⟩, ⟨4, 4, 4, 1⟩] ∧
        defineMorphTargetMesh shapeSmile layerSmile (FbxMesh.Create "MT&Face&smile")
          = addDummyFaces mesh :=
  have hidx : ∀ tvi ∈ shapeSmile.mControlPointIndices,
      0 ≤ tvi ∧ tvi < (shapeSmile.mControlPoints.length : Int) ∧
      ∀ normals, layerSmile.mNormals = some normals →
        tvi < (normals.mDirectArray.length : Int) := by
    simp [shapeSmile, layerSmile, FbxLayer.Create]
  ⟨⟨rfl, hidx⟩, _,
    (C19_lookup_safety shapeSmile layerSmile (FbxMesh.Create "MT&Face&smile") (some 0) 0 _
      rfl hidx).2.2.1, by decide,
    (C19_lookup_safety shapeSmile layerSmile (FbxMesh.Create "MT&Face&smile") (some 0) 0 _
      rfl hidx).1⟩

/-! ## The command-line program -/

/-- C13 fails on the code: in a run of `main` with a file argument in which
`initFbxSdk` succeeds and `importFbxModel` fails, `main` prints the import
error and goes on: `preprocessMorphMeshes` and `exportFbxModel` are called. -/
theorem C13_import_failure_does_not_stop :
    main 2 true false true true "Unable to open file" ""
      = [.initFbxSdk, .importFbxModel, .print "Error: Failed to import FBX model.",
          .print "Unable to open file", .preprocessMorphMeshes, .exportFbxModel,
          .shutdownFbxSdk] ∧
      Step.preprocessMorphMeshes ∈ main 2 true false true true "Unable to open file" "" ∧
      Step.exportFbxModel ∈ main 2 true false true true "Unable to open file" "" := by
  refine ⟨rfl, ?_, ?_⟩ <;> simp [main]

/-- On every run with a file argument and a working SDK, whatever the importer
returns, `main` calls `preprocessMorphMeshes` right after the import step. -/
theorem main_calls_preprocess (argc : Nat) (importOk preprocessOk exportOk : Bool)
    (importErr exportErr : String) (hargc : 1 < argc) :
    Step.preprocessMorphMeshes
      ∈ main argc true importOk preprocessOk exportOk importErr exportErr := by
  have h : ¬ argc ≤ 1 := by omega
  cases importOk <;> cases preprocessOk <;> cases exportOk <;> simp [main, h]

/-! ## Scan and strip driver -/

/-- A counting loop over the indices of a list that reads the element at each
index is the fold over the list. -/
theorem foldlM_range_getElem? {α σ : Type} (f : σ → α → Option σ) (l : List α) :
    ∀ (pre : List α) (init : σ),
      (List.range l.length).foldlM
          (fun s i => do
            let a ← (pre ++ l)[pre.length + i]?
            f s a) init
        = l.foldlM f init := by
  induction l with
  | nil => intro pre init; rfl
  | cons a l ih =>
    intro pre init
    rw [List.length_cons, List.range_succ_eq_map, List.foldlM_cons, List.foldlM_cons]
    have h0 : (pre ++ a :: l)[pre.length + 0]? = some a := by
      rw [Nat.add_zero, List.getElem?_append_right (le_refl _), Nat.sub_self,
        List.getElem?_cons_zero]
    rw [h0]
    simp only [Option.bind_eq_bind, Option.some_bind]
    congr 1
    funext s1
    rw [List.foldlM_map]
    have hpre : pre ++ a :: l = (pre ++ [a]) ++ l := by simp
    have hfun : (fun (s : σ) (i : Nat) =>
          (pre ++ a :: l)[pre.length + (i + 1)]?.bind fun a => f s a)
        = fun (s : σ) (i : Nat) =>
          ((pre ++ [a]) ++ l)[(pre ++ [a]).length + i]?.bind fun a => f s a := by
      funext s i
      rw [hpre]
      have hi : pre.length + (i + 1) = (pre ++ [a]).length + i := by
        simp only [List.length_append, List.length_singleton]
        omega
      rw [hi]
    have := ih (pre ++ [a]) s1
    simp only [Option.bind_eq_bind] at this
    rw [← this]
    exact congrArg (fun g => List.foldlM g s1 (List.range l.length)) hfun

theorem foldlM_range_index {α σ : Type} (f : σ → α → Option σ) (l : List α) (init : σ) :
    (List.range l.length).foldlM
        (fun s i => do
          let a ← l[i]?
          f s a) init
      = l.foldlM f init := by
  have h := foldlM_range_getElem? f l [] init
  simpa using h

theorem findMorpher_eq_find? (s : FbxScene) (l : List Nat) :
    findMorpher s l = l.find? fun d => (s.GetBlendShapeAt d).isSome := by
  induction l with
  | nil => rfl
  | cons d rest ih =>
    simp only [findMorpher, List.find?_cons, ih]
    cases (s.GetBlendShapeAt d).isSome <;> simp

/-- One step of the scan: when it does not dereference a dangling pointer, it
appends the pair `recordedPair` describes, if there is one. -/
theorem scanNode_some (s : FbxScene) (acc r : List Nat × List Nat) (node_i : Nat)
    (h : scanNode s acc node_i = some r) :
    r = (acc.1 ++ (recordedPair s node_i).toList.map Prod.fst,
         acc.2 ++ (recordedPair s node_i).toList.map Prod.snd) := by
  unfold scanNode at h
  unfold recordedPair
  cases hn : s.GetNode node_i with
  | none => simp [hn] at h
  | some node =>
    cases hk : node.mNodeAttribute with
    | none =>
      simp only [hn, hk, Option.bind_eq_bind, Option.some_bind, Option.some.injEq] at h
      simp [hk, ← h]
    | some mesh =>
      cases hm : s.GetMeshAt mesh with
      | none => simp [hn, hk, hm] at h
      | some m =>
        simp only [hn, hk, hm, Option.bind_eq_bind, Option.some_bind] at h
        simp only [hk, hm, Option.bind_eq_bind, Option.some_bind]
        by_cases hl : m.GetLayerCount ≤ 0
        · simp only [hl, if_true, Option.some.injEq] at h
          simp [hl, ← h]
        · simp only [hl, if_false, findMorpher_eq_find?] at h
          simp only [hl, if_false]
          cases hf : m.mDeformers.find? (fun d => (s.GetBlendShapeAt d).isSome) with
          | none =>
            simp only [hf, Option.some.injEq] at h
            simp [← h]
          | some morpher =>
            simp only [hf, Option.some.injEq] at h
            simp [← h]

/-- The scan loop: when it returns, the vectors `meshes` and `morphers` hold
the components of the recorded pairs, in node order. -/
theorem scan_some (s : FbxScene) (l : List Nat) :
    ∀ (acc r : List Nat × List Nat), l.foldlM (scanNode s) acc = some r →
      r = (acc.1 ++ (l.filterMap (recordedPair s)).map Prod.fst,
           acc.2 ++ (l.filterMap (recordedPair s)).map Prod.snd) := by
  induction l with
  | nil =>
    intro acc r h
    simp only [List.foldlM_nil, Option.pure_def, Option.some.injEq] at h
    simp [← h]
  | cons i l ih =>
    intro acc r h
    rw [List.foldlM_cons] at h
    cases h1 : scanNode s acc i with
    | none => simp [h1] at h
    | some r1 =>
      simp only [h1, Option.bind_eq_bind, Option.some_bind] at h
      have e1 := scanNode_some s acc r1 i h1
      have e2 := ih r1 r h
      rw [e2, e1]
      cases hp : recordedPair s i <;> simp [List.filterMap_cons, hp]

theorem recordedPairs_withDummyMaterial (s : FbxScene) :
    recordedPairs (withDummyMaterial s) = recordedPairs s := rfl

/-- The processing of one recorded pair, with its loops as folds. -/
theorem processMorphedMesh_eq (gModel : FbxScene) (gMat : Option Nat) (mesh morpher : Nat) :
    processMorphedMesh gModel gMat mesh morpher
      = (gModel.GetMeshAt mesh).bind fun m =>
          ((gModel.setMesh mesh (preprocessSourceMesh m).2).GetBlendShapeAt morpher).bind
            fun blendShape =>
              (blendShape.mChannels.foldlM (extractChannel gMat mesh)
                (gModel.setMesh mesh (preprocessSourceMesh m).2)).bind fun s2 =>
                  (s2.GetMeshAt mesh).bind fun m2 => some (stripMorpher s2 mesh morpher m2) := by
  unfold processMorphedMesh
  cases hm : gModel.GetMeshAt mesh with
  | none => rfl
  | some m =>
    simp only [Option.bind_eq_bind, Option.some_bind]
    cases hb : (gModel.setMesh mesh (preprocessSourceMesh m).2).GetBlendShapeAt morpher with
    | none => rfl
    | some blendShape =>
      show Option.bind (some blendShape) _ = Option.bind (some blendShape) _
      rw [Option.some_bind, Option.some_bind]
      have hloop := foldlM_range_index (extractChannel gMat mesh) blendShape.mChannels
        (gModel.setMesh mesh (preprocessSourceMesh m).2)
      simp only [extractChannel, Option.bind_eq_bind] at hloop
      have hbody : (fun (gModel : FbxScene) (morph_i : Nat) =>
            blendShape.mChannels[morph_i]?.bind fun mtChannel =>
              (extractMorphTarget gModel gMat mesh mtChannel).bind fun r => pure r.2)
          = fun (s : FbxScene) (i : Nat) =>
            blendShape.mChannels[i]?.bind fun a =>
              Option.map (fun r => r.2) (extractMorphTarget s gMat mesh a) := by
        funext s i
        cases blendShape.mChannels[i]? with
        | none => rfl
        | some ch =>
          simp only [Option.some_bind]
          cases extractMorphTarget s gMat mesh ch <;> rfl
      rw [hbody, hloop]
      congr 1
      funext s2
      cases hm2 : s2.GetMeshAt mesh with
      | none => rfl
      | some m2 =>
        simp only [Option.some_bind, stripMorpher]
        split <;> rfl

theorem foldlM_range_zip {σ : Type} (f : σ → Nat → Nat → Option σ) (P : List (Nat × Nat))
    (init : σ) :
    (List.range (P.map Prod.fst).length).foldlM
        (fun s i => do
          let a ← (P.map Prod.fst)[i]?
          let b ← (P.map Prod.snd)[i]?
          f s a b) init
      = P.foldlM (fun s p => f s p.1 p.2) init := by
  have hbody : (fun (s : σ) (i : Nat) => do
        let a ← (P.map Prod.fst)[i]?
        let b ← (P.map Prod.snd)[i]?
        f s a b)
      = fun (s : σ) (i : Nat) => P[i]?.bind fun p => f s p.1 p.2 := by
    funext s i
    rw [List.getElem?_map, List.getElem?_map]
    cases P[i]? <;> rfl
  rw [hbody, List.length_map]
  exact foldlM_range_index (fun s p => f s p.1 p.2) P init

/-- The pass, when its scan returns, is the fold of `processMorphedMesh` over
the recorded pairs. -/
theorem preprocessMorphMeshes_eq (g : Globals) (r : List Nat × List Nat)
    (hscan : (List.range (withDummyMaterial g.gModel).GetNodeCount).foldlM
      (scanNode (withDummyMaterial g.gModel)) ([], []) = some r) :
    r = ((recordedPairs g.gModel).map Prod.fst, (recordedPairs g.gModel).map Prod.snd) ∧
    preprocessMorphMeshes g
      = ((recordedPairs g.gModel).foldlM
          (fun s p => processMorphedMesh s (some g.gModel.mMaterials.length) p.1 p.2)
          (withDummyMaterial g.gModel)).map
          fun s => (true, { gModel := s, gMat := some g.gModel.mMaterials.length }) := by
  have hr := scan_some _ _ _ _ hscan
  simp only [List.nil_append] at hr
  have hr1 : r = ((recordedPairs g.gModel).map Prod.fst,
      (recordedPairs g.gModel).map Prod.snd) := hr
  refine ⟨hr1, ?_⟩
  have hloop := foldlM_range_zip
    (fun s a b => processMorphedMesh s (some g.gModel.mMaterials.length) a b)
    (recordedPairs g.gModel) (withDummyMaterial g.gModel)
  unfold preprocessMorphMeshes
  simp only [withDummyMaterial, FbxScene.CreateSurfacePhong, Option.bind_eq_bind]
    at hscan hloop ⊢
  rw [hr1] at hscan
  simp only [hscan, Option.some_bind]
  rw [hloop]
  cases List.foldlM (fun s p => processMorphedMesh s (some g.gModel.mMaterials.length) p.1 p.2)
    _ (recordedPairs g.gModel) <;> rfl

/-- Whenever the pass returns, its scan returned. -/
theorem preprocessMorphMeshes_scan (g : Globals) (res : Bool × Globals)
    (h : preprocessMorphMeshes g = some res) :
    ∃ r, (List.range (withDummyMaterial g.gModel).GetNodeCount).foldlM
      (scanNode (withDummyMaterial g.gModel)) ([], []) = some r := by
  cases hs : (List.range (withDummyMaterial g.gModel).GetNodeCount).foldlM
      (scanNode (withDummyMaterial g.gModel)) ([], []) with
  | some r => exact ⟨r, rfl⟩
  | none =>
    unfold preprocessMorphMeshes at h
    simp only [withDummyMaterial, FbxScene.CreateSurfacePhong] at hs
    simp [FbxScene.CreateSurfacePhong, hs] at h

theorem preprocessSourceMesh_frame (m : FbxMesh) :
    (preprocessSourceMesh m).2.mNode = m.mNode ∧
      (preprocessSourceMesh m).2.mDeformers = m.mDeformers ∧
      (preprocessSourceMesh m).2.mLayers.length = m.mLayers.length := by
  cases hl : m.mLayers with
  | nil => rw [preprocessSourceMesh_no_layer m hl]; simp [hl]
  | cons layer0 rest =>
    cases hc : layer0.mVertexColors with
    | none => rw [preprocessSourceMesh_ok m layer0 rest hl hc]; simp
    | some c =>
      rw [preprocessSourceMesh_tagged m layer0 rest hl (by simp [hc])]
      simp [hl]

theorem Grows.refl (s : FbxScene) : Grows s s where
  blend := fun _ => rfl
  meshes := fun _ m h => ⟨m, h, rfl, rfl⟩
  newMeshes := fun k m1 h1 h0 => by rw [h0] at h1; cases h1
  nodes := fun _ n h => ⟨n, h, rfl, rfl⟩
  newNodes := fun i n1 h1 h0 => by rw [h0] at h1; cases h1

/-- Storing, under the id of a mesh, a mesh with the same node and the same
deformer list. -/
theorem Grows.setMesh (s : FbxScene) (k : Nat) (m m1 : FbxMesh)
    (hk : s.GetMeshAt k = some m) (hn : m1.mNode = m.mNode)
    (hd : m1.mDeformers = m.mDeformers) : Grows s (s.setMesh k m1) where
  blend := fun _ => rfl
  meshes := by
    intro j mj hj
    have hlt : k < s.mMeshes.length := (List.getElem?_eq_some.mp hk).1
    by_cases e : k = j
    · subst e
      rw [hk] at hj
      cases hj
      exact ⟨m1, by simp [FbxScene.GetMeshAt, FbxScene.setMesh, hlt], hn, hd⟩
    · exact ⟨mj, by simpa [FbxScene.GetMeshAt, FbxScene.setMesh, List.getElem?_set_ne e] using hj,
        rfl, rfl⟩
  newMeshes := by
    intro j mj h1 h0
    have hlen : s.mMeshes.length ≤ j := by
      simpa [FbxScene.GetMeshAt] using h0
    have : (s.setMesh k m1).GetMeshAt j = none := by
      simp [FbxScene.GetMeshAt, FbxScene.setMesh, hlen]
    rw [this] at h1
    cases h1
  nodes := fun _ n h => ⟨n, h, rfl, rfl⟩
  newNodes := by
    intro i n1 h1 h0
    have : (s.setMesh k m1).GetNode i = s.GetNode i := by
      cases i <;> rfl
    rw [this, h0] at h1
    cases h1

/-- A call of the extractor that returns `NULL` leaves the scene as it is. -/
theorem extractMorphTarget_null (gModel : FbxScene) (gMat : Option Nat) (srcMesh : Nat)
    (mtChannel : FbxBlendShapeChannel) (gModel1 : FbxScene)
    (h : extractMorphTarget gModel gMat srcMesh mtChannel = some (none, gModel1)) :
    gModel1 = gModel := by
  unfold extractMorphTarget at h
  cases hmt : mtChannel.mTargetShapes with
  | nil => simpa [hmt] using h.symm
  | cons mt shapes =>
    cases hlayer : mt.mLayers with
    | nil => simpa [hmt, hlayer] using h.symm
    | cons mtLayer0 layers =>
      cases hsrc : gModel.GetNodeOfMesh srcMesh with
      | none => simp [hmt, hlayer, hsrc] at h
      | some srcNode =>
        cases hscal : ({ gModel with mRootNode := gModel.mRootNode.AddChild gModel.GetNodeCount }
            : FbxScene).GetNodeOfChannel mtChannel with
        | none => simp [hmt, hlayer, hsrc, hscal] at h
        | some n1 => simp [hmt, hlayer, hsrc, hscal] at h

/-- A call of the extractor keeps what `Grows` names. -/
theorem Grows.extract (gModel : FbxScene) (gMat : Option Nat) (srcMesh : Nat)
    (mtChannel : FbxBlendShapeChannel) (r : Option Nat × FbxScene)
    (h : extractMorphTarget gModel gMat srcMesh mtChannel = some r) : Grows gModel r.2 := by
  obtain ⟨res, gModel1⟩ := r
  cases res with
  | none =>
    rw [extractMorphTarget_null gModel gMat srcMesh mtChannel gModel1 h]
    exact Grows.refl gModel
  | some mtmesh =>
    obtain ⟨mt, shapes, mtLayer0, layers, srcNode, scalingNode, _, _, _, _, hid, hres⟩ :=
      extractMorphTarget_inv gModel gMat srcMesh mtChannel mtmesh gModel1 h
    subst hid hres
    refine ⟨fun _ => rfl, ?_, ?_, ?_, ?_⟩
    · intro k m hk
      have hlt : k < gModel.mMeshes.length := (List.getElem?_eq_some.mp hk).1
      refine ⟨m, ?_, rfl, rfl⟩
      simp only [FbxScene.GetMeshAt]
      rw [List.getElem?_append_left hlt]
      exact hk
    · intro k m1 h1 h0
      have hlen : gModel.mMeshes.length ≤ k := by simpa [FbxScene.GetMeshAt] using h0
      simp only [FbxScene.GetMeshAt] at h1
      rw [List.getElem?_append_right hlen] at h1
      have hk0 : k - gModel.mMeshes.length = 0 := by
        by_contra hne
        have : 1 ≤ k - gModel.mMeshes.length := by omega
        rw [List.getElem?_eq_none (by simpa using this)] at h1
        cases h1
      rw [hk0, List.getElem?_cons_zero] at h1
      cases h1
      rw [defineMorphTargetMesh_eq _ _ _ rfl]
      rfl
    · intro i n hi
      cases i with
      | zero =>
        simp only [FbxScene.GetNode, Option.some.injEq] at hi
        subst hi
        exact ⟨_, rfl, rfl, rfl⟩
      | succ i =>
        have hlt : i < gModel.mNodes.length := (List.getElem?_eq_some.mp hi).1
        refine ⟨n, ?_, rfl, rfl⟩
        simp only [FbxScene.GetNode]
        rw [List.getElem?_append_left hlt]
        exact hi
    · intro i n1 h1 h0
      cases i with
      | zero => simp [FbxScene.GetNode] at h0
      | succ i =>
        have hlen : gModel.mNodes.length ≤ i := by simpa [FbxScene.GetNode] using h0
        simp only [FbxScene.GetNode] at h1
        rw [List.getElem?_append_right hlen] at h1
        have hk0 : i - gModel.mNodes.length = 0 := by
          by_contra hne
          have : 1 ≤ i - gModel.mNodes.length := by omega
          rw [List.getElem?_eq_none (by simpa using this)] at h1
          cases h1
        rw [hk0, List.getElem?_cons_zero] at h1
        cases h1
        exact ⟨gModel.mMeshes.length, rfl, by simp [FbxScene.GetMeshAt]⟩

theorem Stripped.of_grows (s s1 : FbxScene) (h : Grows s s1) : Stripped s [] s1 where
  blend := fun d => by simpa using h.blend d
  meshes := fun k m0 hk => by
    obtain ⟨m1, h1, hn, hd⟩ := h.meshes k m0 hk
    exact ⟨m1, h1, hn, by simpa using hd⟩
  newMeshes := h.newMeshes
  nodes := h.nodes
  newNodes := h.newNodes

theorem Stripped.grows (s0 : FbxScene) (D : List Nat) (s s1 : FbxScene)
    (hs : Stripped s0 D s) (hg : Grows s s1) : Stripped s0 D s1 where
  blend := fun d => by rw [hg.blend d, hs.blend d]
  meshes := fun k m0 hk => by
    obtain ⟨m, hm, hn, hd⟩ := hs.meshes k m0 hk
    obtain ⟨m1, hm1, hn1, hd1⟩ := hg.meshes k m hm
    exact ⟨m1, hm1, hn1.trans hn, hd1.trans hd⟩
  newMeshes := fun k m1 h1 h0 => by
    cases hk : s.GetMeshAt k with
    | none => exact hg.newMeshes k m1 h1 hk
    | some m =>
      obtain ⟨m2, hm2, _, hd2⟩ := hg.meshes k m hk
      rw [h1] at hm2
      cases hm2
      rw [hd2]
      exact hs.newMeshes k m hk h0
  nodes := fun i n0 hi => by
    obtain ⟨n, hn, ha, hname⟩ := hs.nodes i n0 hi
    obtain ⟨n1, hn1, ha1, hname1⟩ := hg.nodes i n hn
    exact ⟨n1, hn1, ha1.trans ha, hname1.trans hname⟩
  newNodes := fun i n1 h1 h0 => by
    cases hi : s.GetNode i with
    | none =>
      obtain ⟨k, hk, hnone⟩ := hg.newNodes i n1 h1 hi
      refine ⟨k, hk, ?_⟩
      cases h0k : s0.GetMeshAt k with
      | none => rfl
      | some m0 =>
        obtain ⟨m, hm, _⟩ := hs.meshes k m0 h0k
        rw [hnone] at hm
        cases hm
    | some n =>
      obtain ⟨n2, hn2, ha2, _⟩ := hg.nodes i n hi
      rw [h1] at hn2
      cases hn2
      obtain ⟨k, hk, hnone⟩ := hs.newNodes i n hi h0
      exact ⟨k, ha2.trans hk, hnone⟩

theorem Stripped.to_grows (s s1 : FbxScene) (h : Stripped s [] s1) : Grows s s1 where
  blend := fun d => by simpa using h.blend d
  meshes := fun k m0 hk => by
    obtain ⟨m1, h1, hn, hd⟩ := h.meshes k m0 hk
    exact ⟨m1, h1, hn, by simpa using hd⟩
  newMeshes := h.newMeshes
  nodes := h.nodes
  newNodes := h.newNodes

theorem Grows.trans (s s1 s2 : FbxScene) (h1 : Grows s s1) (h2 : Grows s1 s2) : Grows s s2 :=
  Stripped.to_grows s s2 (Stripped.grows s [] s1 s2 (Stripped.of_grows s s1 h1) h2)

/-- The channel loop keeps what `Grows` names. -/
theorem Grows.channels (gMat : Option Nat) (mesh : Nat) (chs : List FbxBlendShapeChannel) :
    ∀ (s s1 : FbxScene), chs.foldlM (extractChannel gMat mesh) s = some s1 → Grows s s1 := by
  induction chs with
  | nil =>
    intro s s1 h
    simp only [List.foldlM_nil, Option.pure_def, Option.some.injEq] at h
    subst h
    exact Grows.refl s
  | cons ch chs ih =>
    intro s s1 h
    rw [List.foldlM_cons] at h
    cases he : extractMorphTarget s gMat mesh ch with
    | none => simp [extractChannel, he] at h
    | some r =>
      simp only [extractChannel, he, Option.map_some', Option.bind_eq_bind, Option.some_bind] at h
      exact Grows.trans s r.2 s1 (Grows.extract s gMat mesh ch r he) (ih r.2 s1 h)

theorem erase_filter_ne (l : List Nat) (d : Nat) :
    (l.erase d).filter (fun x => decide (x ≠ d)) = l.filter fun x => decide (x ≠ d) := by
  induction l with
  | nil => rfl
  | cons a l ih =>
    by_cases h : a = d
    · subst h
      simp
    · have hbeq : (a == d) = false := by simpa using h
      rw [List.erase_cons, hbeq]
      simp only [Bool.false_eq_true, if_false, List.filter_cons, h, ne_eq, not_false_eq_true,
        decide_True, if_true, List.cons.injEq, true_and]
      exact ih

theorem filter_not_mem_append (l D : List Nat) (d : Nat) :
    (l.filter fun x => decide (x ∉ D)).filter (fun x => decide (x ≠ d))
      = l.filter fun x => decide (x ∉ D ++ [d]) := by
  rw [List.filter_filter]
  congr 1
  funext x
  simp only [List.mem_append, List.mem_singleton, not_or, Bool.decide_and, ne_eq]
  rw [Bool.and_comm]

theorem GetBlendShapeAt_destroy (s : FbxScene) (d x : Nat) :
    (s.DestroyDeformer d).GetBlendShapeAt x
      = if x = d then none else s.GetBlendShapeAt x := by
  simp only [FbxScene.GetBlendShapeAt, FbxScene.DestroyDeformer]
  by_cases h : x = d
  · subst h
    simp only [if_true]
    by_cases hlt : x < s.mDeformers.length
    · simp [hlt]
    · rw [List.getElem?_eq_none (by simpa using hlt)]
  · rw [List.getElem?_set_ne (fun e => h e.symm)]
    simp [h]

theorem GetMeshAt_destroy (s : FbxScene) (d j : Nat) :
    (s.DestroyDeformer d).GetMeshAt j
      = (s.GetMeshAt j).map fun m =>
          { m with mDeformers := m.mDeformers.filter fun x => decide (x ≠ d) } := by
  simp only [FbxScene.GetMeshAt, FbxScene.DestroyDeformer, List.getElem?_map]

theorem GetMeshAt_setMesh (s : FbxScene) (k j : Nat) (m1 : FbxMesh) :
    (s.setMesh k m1).GetMeshAt j
      = if k = j then (s.GetMeshAt j).map fun _ => m1 else s.GetMeshAt j := by
  simp only [FbxScene.GetMeshAt, FbxScene.setMesh, List.getElem?_set]
  by_cases e : k = j
  · subst e
    simp only [if_true]
    by_cases hlt : k < s.mMeshes.length
    · simp [hlt, List.getElem?_eq_getElem hlt]
    · simp [hlt, List.getElem?_eq_none (by simpa using hlt : s.mMeshes.length ≤ k)]
  · simp [e]

theorem GetNode_strip (s : FbxScene) (k d i : Nat) (m1 : FbxMesh) :
    ((s.setMesh k m1).DestroyDeformer d).GetNode i = s.GetNode i := by
  cases i <;> rfl

/-- Removing the deformer `d` from the list of mesh `k` and destroying it. -/
theorem Stripped.strip (s0 : FbxScene) (D : List Nat) (s : FbxScene) (k d : Nat) (m : FbxMesh)
    (hs : Stripped s0 D s) (hk : s.GetMeshAt k = some m) :
    Stripped s0 (D ++ [d])
      ((s.setMesh k { m with mDeformers := m.mDeformers.erase d }).DestroyDeformer d) where
  blend := by
    intro x
    rw [GetBlendShapeAt_destroy]
    have hset : (s.setMesh k { m with mDeformers := m.mDeformers.erase d }).GetBlendShapeAt x
        = s.GetBlendShapeAt x := rfl
    rw [hset, hs.blend x]
    by_cases hx : x = d
    · simp [hx]
    · by_cases hD : x ∈ D
      · simp [hx, hD]
      · simp [hx, hD]
  meshes := by
    intro j m0 hj
    obtain ⟨mj, hmj, hn, hd⟩ := hs.meshes j m0 hj
    rw [GetMeshAt_destroy, GetMeshAt_setMesh]
    by_cases e : k = j
    · subst e
      rw [hk] at hmj
      cases hmj
      simp only [if_true, hk, Option.map_some']
      refine ⟨_, rfl, hn, ?_⟩
      show (m.mDeformers.erase d).filter (fun x => decide (x ≠ d)) = _
      rw [erase_filter_ne, hd, filter_not_mem_append]
    · simp only [e, if_false, hmj, Option.map_some']
      refine ⟨_, rfl, hn, ?_⟩
      show mj.mDeformers.filter (fun x => decide (x ≠ d)) = _
      rw [hd, filter_not_mem_append]
  newMeshes := by
    intro j x hx h0
    rw [GetMeshAt_destroy, GetMeshAt_setMesh] at hx
    cases hsj : s.GetMeshAt j with
    | none =>
      by_cases e : k = j <;> simp [e, hsj] at hx
    | some mj =>
      have hnil := hs.newMeshes j mj hsj h0
      by_cases e : k = j
      · subst e
        rw [hk] at hsj
        cases hsj
        simp only [if_true, hk, Option.map_some', Option.some.injEq] at hx
        subst hx
        simp [hnil]
      · simp only [e, if_false, hsj, Option.map_some', Option.some.injEq] at hx
        subst hx
        simp [hnil]
  nodes := by
    intro i n0 hi
    rw [GetNode_strip]
    exact hs.nodes i n0 hi
  newNodes := by
    intro i n hi h0
    rw [GetNode_strip] at hi
    exact hs.newNodes i n hi h0

/-- The processing of a pair whose deformer is a blend shape in the deformer
list the mesh had at the start: the deformer joins the stripped ones. -/
theorem Stripped.process (s0 : FbxScene) (D : List Nat) (s s1 : FbxScene) (gMat : Option Nat)
    (k d : Nat) (m0 : FbxMesh)
    (hs : Stripped s0 D s) (hk : s0.GetMeshAt k = some m0) (hd : d ∈ m0.mDeformers)
    (h : processMorphedMesh s gMat k d = some s1) :
    Stripped s0 (D ++ [d]) s1 ∧ d ∉ D := by
  rw [processMorphedMesh_eq] at h
  simp only [Option.bind_eq_some] at h
  obtain ⟨m, hm, blendShape, hb, s2, hloop, m2, hm2, hres⟩ := h
  simp only [Option.some.injEq] at hres
  have hfr := preprocessSourceMesh_frame m
  have hs1 : Stripped s0 D (s.setMesh k (preprocessSourceMesh m).2) :=
    Stripped.grows s0 D s _ hs (Grows.setMesh s k m _ hm hfr.1 hfr.2.1)
  have hs2 : Stripped s0 D s2 :=
    Stripped.grows s0 D _ s2 hs1 (Grows.channels gMat k blendShape.mChannels _ s2 hloop)
  have hnotD : d ∉ D := by
    intro hD
    have := hs1.blend d
    rw [hb] at this
    simp [hD] at this
  obtain ⟨m2', hm2', _, hd2⟩ := hs2.meshes k m0 hk
  rw [hm2] at hm2'
  cases hm2'
  have hin : d ∈ m2.mDeformers := by
    rw [hd2, List.mem_filter]
    exact ⟨hd, by simpa using hnotD⟩
  rw [stripMorpher, if_pos hin] at hres
  subst hres
  exact ⟨Stripped.strip s0 D s2 k d m2 hs2 hm2, hnotD⟩

/-- What a recorded pair says about the scene. -/
theorem recordedPair_some (s : FbxScene) (node_i k d : Nat)
    (h : recordedPair s node_i = some (k, d)) :
    ∃ node m0, s.GetNode node_i = some node ∧ node.mNodeAttribute = some k ∧
      s.GetMeshAt k = some m0 ∧ 0 < m0.GetLayerCount ∧
      m0.mDeformers.find? (fun x => (s.GetBlendShapeAt x).isSome) = some d := by
  unfold recordedPair at h
  simp only [Option.bind_eq_bind, Option.bind_eq_some] at h
  obtain ⟨node, hn, mesh, hk, m, hm, h⟩ := h
  by_cases hl : m.GetLayerCount ≤ 0
  · simp [hl] at h
  · simp only [hl, if_false, Option.bind_eq_some, Option.some.injEq, Prod.mk.injEq] at h
    obtain ⟨morpher, hf, h1, h2⟩ := h
    subst h1 h2
    exact ⟨node, m, hn, hk, hm, by omega, hf⟩

theorem recordedPair_of (s : FbxScene) (node_i k d : Nat) (node : FbxNode) (m0 : FbxMesh)
    (hn : s.GetNode node_i = some node) (hk : node.mNodeAttribute = some k)
    (hm : s.GetMeshAt k = some m0) (hl : 0 < m0.GetLayerCount)
    (hf : m0.mDeformers.find? (fun x => (s.GetBlendShapeAt x).isSome) = some d) :
    recordedPair s node_i = some (k, d) := by
  have hl1 : ¬ m0.GetLayerCount = 0 := by omega
  simp [recordedPair, hn, hk, hm, hl1, hf]

theorem mem_recordedPairs (s : FbxScene) (p : Nat × Nat) (h : p ∈ recordedPairs s) :
    ∃ node_i, node_i < s.GetNodeCount ∧ recordedPair s node_i = some p := by
  simpa [recordedPairs, List.mem_filterMap] using h

/-- A recorded deformer is in the deformer list of the recorded mesh and is a
blend shape. -/
theorem recordedPairs_mem (s : FbxScene) (p : Nat × Nat) (h : p ∈ recordedPairs s) :
    ∃ m0, s.GetMeshAt p.1 = some m0 ∧ p.2 ∈ m0.mDeformers ∧
      (s.GetBlendShapeAt p.2).isSome = true := by
  obtain ⟨node_i, _, hp⟩ := mem_recordedPairs s p h
  obtain ⟨node, m0, _, _, hm, _, hf⟩ := recordedPair_some s node_i p.1 p.2 hp
  exact ⟨m0, hm, List.mem_of_find?_eq_some hf,
    @List.find?_some _ (fun x => (s.GetBlendShapeAt x).isSome) _ _ hf⟩

/-- The processing loop over pairs whose deformers are in the deformer lists
their meshes had at the start: all of them are stripped. -/
theorem Stripped.pairs (s0 : FbxScene) (gMat : Option Nat) (P : List (Nat × Nat)) :
    (∀ p ∈ P, ∃ m0, s0.GetMeshAt p.1 = some m0 ∧ p.2 ∈ m0.mDeformers) →
    ∀ (D : List Nat) (s s1 : FbxScene), Stripped s0 D s →
      P.foldlM (fun s p => processMorphedMesh s gMat p.1 p.2) s = some s1 →
      Stripped s0 (D ++ P.map Prod.snd) s1 := by
  induction P with
  | nil =>
    intro _ D s s1 hs h
    simp only [List.foldlM_nil, Option.pure_def, Option.some.injEq] at h
    subst h
    simpa using hs
  | cons p P ih =>
    intro hP D s s1 hs h
    rw [List.foldlM_cons] at h
    simp only [Option.bind_eq_bind, Option.bind_eq_some] at h
    obtain ⟨s2, h2, hrest⟩ := h
    obtain ⟨m0, hm0, hd⟩ := hP p (List.mem_cons_self _ _)
    have hs2 := (Stripped.process s0 D s s2 gMat p.1 p.2 m0 hs hm0 hd h2).1
    have := ih (fun q hq => hP q (List.mem_cons_of_mem _ hq)) (D ++ [p.2]) s2 s1 hs2 hrest
    simpa using this

/-- Whenever the pass returns, it returns true, and the scene it leaves is the
scene it got with the recorded deformers stripped. -/
theorem preprocessMorphMeshes_stripped (g : Globals) (res : Bool × Globals)
    (h : preprocessMorphMeshes g = some res) :
    res.1 = true ∧ Stripped g.gModel ((recordedPairs g.gModel).map Prod.snd) res.2.gModel := by
  obtain ⟨r, hscan⟩ := preprocessMorphMeshes_scan g res h
  rw [(preprocessMorphMeshes_eq g r hscan).2] at h
  simp only [Option.map_eq_some'] at h
  obtain ⟨sF, hF, hres⟩ := h
  subst hres
  refine ⟨rfl, ?_⟩
  have hinit : Stripped (withDummyMaterial g.gModel) [] (withDummyMaterial g.gModel) :=
    Stripped.of_grows _ _ (Grows.refl _)
  have hP : ∀ p ∈ recordedPairs g.gModel,
      ∃ m0, (withDummyMaterial g.gModel).GetMeshAt p.1 = some m0 ∧ p.2 ∈ m0.mDeformers := by
    intro p hp
    obtain ⟨m0, hm0, hd, _⟩ := recordedPairs_mem g.gModel p hp
    exact ⟨m0, hm0, hd⟩
  have hfin := Stripped.pairs (withDummyMaterial g.gModel) _ (recordedPairs g.gModel) hP []
    _ sF hinit hF
  simp only [List.nil_append] at hfin
  exact ⟨hfin.blend, hfin.meshes, hfin.newMeshes, hfin.nodes, hfin.newNodes⟩

theorem GetNode_lt (s : FbxScene) (i : Nat) (n : FbxNode) (h : s.GetNode i = some n) :
    i < s.GetNodeCount := by
  cases i with
  | zero => simp [FbxScene.GetNodeCount]
  | succ j =>
    have : j < s.mNodes.length := (List.getElem?_eq_some.mp h).1
    simp only [FbxScene.GetNodeCount]
    omega

theorem eq_of_mem_of_length_le_one {α : Type} (l : List α) (a b : α) (hl : l.length ≤ 1)
    (ha : a ∈ l) (hb : b ∈ l) : a = b := by
  match l, hl, ha, hb with
  | [x], _, ha, hb =>
    simp only [List.mem_singleton] at ha hb
    rw [ha, hb]
  | _ :: _ :: _, hl, _, _ => simp at hl

/-- C11 as stated fails.  On `sceneTwoMorphers`, whose mesh has two blend-shape
deformers, the pass returns, and the mesh of node 1 still lists deformer 1,
which still is a blend shape.  On `sceneNoLayers`, whose mesh has no layer, the
pass returns, and the mesh of node 1 still lists the blend shape 0. -/
theorem C11_counterexample_blend_shape_left :
    (∃ g1 node m, preprocessMorphMeshes ⟨sceneTwoMorphers, none⟩ = some (true, g1) ∧
        g1.gModel.GetNode 1 = some node ∧ node.mNodeAttribute = some 0 ∧
        g1.gModel.GetMeshAt 0 = some m ∧ 1 ∈ m.mDeformers ∧
        (g1.gModel.GetBlendShapeAt 1).isSome = true) ∧
      (∃ g1 node m, preprocessMorphMeshes ⟨sceneNoLayers, none⟩ = some (true, g1) ∧
        g1.gModel.GetNode 1 = some node ∧ node.mNodeAttribute = some 0 ∧
        g1.gModel.GetMeshAt 0 = some m ∧ 0 ∈ m.mDeformers ∧
        (g1.gModel.GetBlendShapeAt 0).isSome = true) := by
  refine ⟨⟨_, _, _, rfl, rfl, rfl, rfl, ?_, rfl⟩, ⟨_, _, _, rfl, rfl, rfl, rfl, ?_, rfl⟩⟩
  · decide
  · decide

theorem sceneFace_one_morpher :
    ∀ i node k m0, sceneFace.GetNode i = some node → node.mNodeAttribute = some k →
      sceneFace.GetMeshAt k = some m0 →
      (m0.mDeformers.filter fun d => (sceneFace.GetBlendShapeAt d).isSome).length ≤ 1 ∧
      ((∃ d ∈ m0.mDeformers, (sceneFace.GetBlendShapeAt d).isSome = true) →
        0 < m0.GetLayerCount) := by
  intro i node k m0 _ _ hm
  have hk : k = 0 := by
    have : k < 1 := (List.getElem?_eq_some.mp hm).1
    omega
  subst hk
  have e : m0 = { meshPlain with mNode := some 1, mDeformers := [0] } := by
    have h0 : sceneFace.GetMeshAt 0
        = some { meshPlain with mNode := some 1, mDeformers := [0] } := rfl
    rw [h0] at hm
    exact (Option.some.inj hm).symm
  subst e
  exact ⟨by decide, fun _ => by decide⟩

theorem Stripped.GetNodeOfMesh (s0 : FbxScene) (D : List Nat) (s : FbxScene) (k : Nat)
    (n0 : FbxNode) (hs : Stripped s0 D s) (h : s0.GetNodeOfMesh k = some n0) :
    ∃ n, s.GetNodeOfMesh k = some n ∧ n.mName = n0.mName := by
  simp only [FbxScene.GetNodeOfMesh, Option.bind_eq_bind, Option.bind_eq_some] at h ⊢
  obtain ⟨m0, hm0, i, hi, hn0⟩ := h
  obtain ⟨m, hm, hnode, _⟩ := hs.meshes k m0 hm0
  obtain ⟨n, hn, _, hname⟩ := hs.nodes i n0 hn0
  exact ⟨n, ⟨m, hm, i, by rw [hnode, hi], hn⟩, hname⟩

theorem Stripped.GetNodeOfChannel (s0 : FbxScene) (D : List Nat) (s : FbxScene)
    (mtChannel : FbxBlendShapeChannel) (d : Nat) (hs : Stripped s0 D s)
    (hd : mtChannel.mBlendShapeDeformer = some d) (hD : d ∉ D)
    (h : (s0.GetNodeOfChannel mtChannel).isSome = true) :
    (s.GetNodeOfChannel mtChannel).isSome = true := by
  obtain ⟨n0, hn0⟩ := Option.isSome_iff_exists.mp h
  simp only [FbxScene.GetNodeOfChannel, Option.bind_eq_bind, Option.bind_eq_some, hd,
    Option.some.injEq, exists_eq_left'] at hn0
  obtain ⟨blendShape, hb, geometry, hg, hnode⟩ := hn0
  obtain ⟨n, hn, _⟩ := Stripped.GetNodeOfMesh s0 D s geometry n0 hs hnode
  have hb1 : s.GetBlendShapeAt d = some blendShape := by
    rw [hs.blend d, if_neg hD, hb]
  rw [Option.isSome_iff_exists]
  refine ⟨n, ?_⟩
  simp only [FbxScene.GetNodeOfChannel, Option.bind_eq_bind, Option.bind_eq_some, hd,
    Option.some.injEq, exists_eq_left']
  exact ⟨blendShape, hb1, geometry, hg, hn⟩

/-- The extractor returns whenever the pointers it may follow are not null. -/
theorem extractMorphTarget_defined (gModel : FbxScene) (gMat : Option Nat) (srcMesh : Nat)
    (mtChannel : FbxBlendShapeChannel)
    (hsrc : (gModel.GetNodeOfMesh srcMesh).isSome = true)
    (hscal : (gModel.GetNodeOfChannel mtChannel).isSome = true) :
    ∃ r, extractMorphTarget gModel gMat srcMesh mtChannel = some r := by
  cases hmt : mtChannel.mTargetShapes with
  | nil => exact ⟨(none, gModel), by simp [extractMorphTarget, hmt]⟩
  | cons mt shapes =>
    cases hlayer : mt.mLayers with
    | nil => exact ⟨(none, gModel), by simp [extractMorphTarget, hmt, hlayer]⟩
    | cons mtLayer0 layers =>
      obtain ⟨srcNode, hsrc1⟩ := Option.isSome_iff_exists.mp hsrc
      obtain ⟨scalingNode, hscal1⟩ := Option.isSome_iff_exists.mp hscal
      exact ⟨_, extractMorphTarget_ok gModel gMat srcMesh mtChannel mt shapes mtLayer0 layers
        srcNode scalingNode hmt hlayer hsrc1 hscal1⟩

/-- The channel loop returns when, at the start of the pass, the mesh had a
node and every channel had this deformer, not stripped yet, as its deformer
and led to a node. -/
theorem channels_defined (s0 : FbxScene) (D : List Nat) (gMat : Option Nat) (k d : Nat)
    (hD : d ∉ D) (hsrc : (s0.GetNodeOfMesh k).isSome = true)
    (chs : List FbxBlendShapeChannel) :
    (∀ ch ∈ chs, ch.mBlendShapeDeformer = some d ∧ (s0.GetNodeOfChannel ch).isSome = true) →
    ∀ s, Stripped s0 D s → ∃ s1, chs.foldlM (extractChannel gMat k) s = some s1 := by
  induction chs with
  | nil => intro _ s _; exact ⟨s, rfl⟩
  | cons ch chs ih =>
    intro hch s hs
    obtain ⟨hd, hscal⟩ := hch ch (List.mem_cons_self _ _)
    obtain ⟨n0, hn0⟩ := Option.isSome_iff_exists.mp hsrc
    obtain ⟨n, hn, _⟩ := Stripped.GetNodeOfMesh s0 D s k n0 hs hn0
    obtain ⟨r, hr⟩ := extractMorphTarget_defined s gMat k ch (by simp [hn])
      (Stripped.GetNodeOfChannel s0 D s ch d hs hd hD hscal)
    have hs1 : Stripped s0 D r.2 := Stripped.grows s0 D s r.2 hs (Grows.extract s gMat k ch r hr)
    obtain ⟨s1, h1⟩ := ih (fun c hc => hch c (List.mem_cons_of_mem _ hc)) r.2 hs1
    refine ⟨s1, ?_⟩
    rw [List.foldlM_cons]
    simp only [extractChannel, hr, Option.map_some', Option.bind_eq_bind, Option.some_bind]
    exact h1

/-- In a scene without instances the links the pass follows are there. -/
theorem WellFormed.linked (s : FbxScene) (hwf : WellFormed s) : Linked s where
  nodeAttr := by
    intro i node k hn hk
    obtain ⟨m, hm, hnode⟩ := hwf.nodeAttr i node k hn hk
    simp [FbxScene.GetNodeOfMesh, hm, hnode, hn]
  deformerOwner := hwf.deformerOwner

/-- What the links give for a recorded pair. -/
theorem Linked.recorded (s0 : FbxScene) (hl : Linked s0) (p : Nat × Nat)
    (hp : p ∈ recordedPairs s0) :
    (s0.GetNodeOfMesh p.1).isSome = true ∧
      ∃ blendShape, s0.GetBlendShapeAt p.2 = some blendShape ∧
        ∀ ch ∈ blendShape.mChannels,
          ch.mBlendShapeDeformer = some p.2 ∧ (s0.GetNodeOfChannel ch).isSome = true := by
  obtain ⟨node_i, _, hrec⟩ := mem_recordedPairs s0 p hp
  obtain ⟨node, m0, hn, hk, hm, _, hf⟩ := recordedPair_some s0 node_i p.1 p.2 hrec
  have hsrc := hl.nodeAttr node_i node p.1 hn hk
  have hmem : p.2 ∈ m0.mDeformers := List.mem_of_find?_eq_some hf
  have hb : (s0.GetBlendShapeAt p.2).isSome = true :=
    @List.find?_some _ (fun x => (s0.GetBlendShapeAt x).isSome) _ _ hf
  obtain ⟨blendShape, hbs⟩ := Option.isSome_iff_exists.mp hb
  obtain ⟨hgeo, hch⟩ := hl.deformerOwner p.1 m0 p.2 blendShape hm hmem hbs
  refine ⟨hsrc, blendShape, hbs, ?_⟩
  intro ch hc
  refine ⟨hch ch hc, ?_⟩
  simpa [FbxScene.GetNodeOfChannel, hch ch hc, hbs, hgeo] using hsrc

/-- The processing of a recorded pair of a linked scene returns when its
deformer has not been stripped yet. -/
theorem processMorphedMesh_defined (s0 : FbxScene) (hl : Linked s0) (D : List Nat)
    (s : FbxScene) (gMat : Option Nat) (p : Nat × Nat) (hp : p ∈ recordedPairs s0)
    (hD : p.2 ∉ D) (hs : Stripped s0 D s) :
    ∃ s1, processMorphedMesh s gMat p.1 p.2 = some s1 := by
  obtain ⟨hsrc, blendShape, hbs, hch⟩ := Linked.recorded s0 hl p hp
  obtain ⟨m0, hm0, _, _⟩ := recordedPairs_mem s0 p hp
  obtain ⟨m, hm, _, _⟩ := hs.meshes p.1 m0 hm0
  have hfr := preprocessSourceMesh_frame m
  have hs1 : Stripped s0 D (s.setMesh p.1 (preprocessSourceMesh m).2) :=
    Stripped.grows s0 D s _ hs (Grows.setMesh s p.1 m _ hm hfr.1 hfr.2.1)
  have hb1 : (s.setMesh p.1 (preprocessSourceMesh m).2).GetBlendShapeAt p.2
      = some blendShape := by
    rw [hs1.blend p.2, if_neg hD, hbs]
  obtain ⟨s2, h2⟩ := channels_defined s0 D gMat p.1 p.2 hD hsrc blendShape.mChannels hch _ hs1
  have hs2 : Stripped s0 D s2 :=
    Stripped.grows s0 D _ s2 hs1 (Grows.channels gMat p.1 blendShape.mChannels _ s2 h2)
  obtain ⟨m2, hm2, _, _⟩ := hs2.meshes p.1 m0 hm0
  refine ⟨stripMorpher s2 p.1 p.2 m2, ?_⟩
  rw [processMorphedMesh_eq]
  simp [hm, hb1, h2, hm2]

/-- In a well-formed scene no deformer is recorded twice. -/
theorem WellFormed.morphers_nodup (s0 : FbxScene) (hwf : WellFormed s0) :
    ((recordedPairs s0).map Prod.snd).Nodup := by
  have hpairs : (recordedPairs s0).Nodup := by
    refine List.Nodup.filterMap ?_ (List.nodup_range _)
    intro i j p hi hj
    simp only [Option.mem_def] at hi hj
    obtain ⟨node, m0, hn, hk, hm, _, _⟩ := recordedPair_some s0 i p.1 p.2 hi
    obtain ⟨node1, m1, hn1, hk1, hm1, _, _⟩ := recordedPair_some s0 j p.1 p.2 hj
    obtain ⟨m, hmm, hnode⟩ := hwf.nodeAttr i node p.1 hn hk
    obtain ⟨m2, hmm2, hnode2⟩ := hwf.nodeAttr j node1 p.1 hn1 hk1
    rw [hmm] at hmm2
    cases hmm2
    rw [hnode] at hnode2
    exact Option.some.inj hnode2
  refine List.Nodup.map_on ?_ hpairs
  intro p hp q hq hpq
  obtain ⟨m0, hm0, hd0, hb0⟩ := recordedPairs_mem s0 p hp
  obtain ⟨m1, hm1, hd1, _⟩ := recordedPairs_mem s0 q hq
  obtain ⟨blendShape, hbs⟩ := Option.isSome_iff_exists.mp hb0
  have g0 := (hwf.deformerOwner p.1 m0 p.2 blendShape hm0 hd0 hbs).1
  have g1 := (hwf.deformerOwner q.1 m1 p.2 blendShape hm1 (by rw [hpq]; exact hd1) hbs).1
  rw [g0] at g1
  exact Prod.ext (Option.some.inj g1) hpq

/-- The processing loop over recorded pairs of a linked scene, none of them
recorded twice, returns. -/
theorem pairs_defined (s0 : FbxScene) (hl : Linked s0) (gMat : Option Nat)
    (P : List (Nat × Nat)) :
    (∀ p ∈ P, p ∈ recordedPairs s0) → (P.map Prod.snd).Nodup →
    ∀ (D : List Nat) (s : FbxScene), (∀ p ∈ P, p.2 ∉ D) → Stripped s0 D s →
      ∃ s1, P.foldlM (fun s p => processMorphedMesh s gMat p.1 p.2) s = some s1 := by
  induction P with
  | nil => intro _ _ D s _ _; exact ⟨s, rfl⟩
  | cons p P ih =>
    intro hP hnd D s hD hs
    have hp := hP p (List.mem_cons_self _ _)
    obtain ⟨s2, h2⟩ := processMorphedMesh_defined s0 hl D s gMat p hp
      (hD p (List.mem_cons_self _ _)) hs
    obtain ⟨m0, hm0, hd0, _⟩ := recordedPairs_mem s0 p hp
    have hs2 := (Stripped.process s0 D s s2 gMat p.1 p.2 m0 hs hm0 hd0 h2).1
    simp only [List.map_cons, List.nodup_cons] at hnd
    have hD2 : ∀ q ∈ P, q.2 ∉ D ++ [p.2] := by
      intro q hq hmem
      rcases List.mem_append.mp hmem with h | h
      · exact hD q (List.mem_cons_of_mem _ hq) h
      · simp only [List.mem_singleton] at h
        exact hnd.1 (List.mem_map.mpr ⟨q, hq, h⟩)
    obtain ⟨s1, h1⟩ := ih (fun q hq => hP q (List.mem_cons_of_mem _ hq)) hnd.2
      (D ++ [p.2]) s2 hD2 hs2
    refine ⟨s1, ?_⟩
    rw [List.foldlM_cons]
    simp only [h2, Option.bind_eq_bind, Option.some_bind]
    exact h1

theorem GetNode_of_lt (s : FbxScene) (i : Nat) (h : i < s.GetNodeCount) :
    ∃ n, s.GetNode i = some n := by
  cases i with
  | zero => exact ⟨s.mRootNode, rfl⟩
  | succ j =>
    have hj : j < s.mNodes.length := by
      simp only [FbxScene.GetNodeCount] at h
      omega
    exact ⟨s.mNodes[j], List.getElem?_eq_getElem hj⟩

/-- The scan of a scene whose node attributes name meshes returns. -/
theorem scan_defined (s : FbxScene)
    (hattr : ∀ i node k, s.GetNode i = some node → node.mNodeAttribute = some k →
      ∃ m, s.GetMeshAt k = some m)
    (l : List Nat) :
    (∀ i ∈ l, i < s.GetNodeCount) →
    ∀ acc, ∃ r, l.foldlM (scanNode s) acc = some r := by
  induction l with
  | nil => intro _ acc; exact ⟨acc, rfl⟩
  | cons i l ih =>
    intro hl acc
    obtain ⟨node, hn⟩ := GetNode_of_lt s i (hl i (List.mem_cons_self _ _))
    have hstep : ∃ r1, scanNode s acc i = some r1 := by
      unfold scanNode
      cases hk : node.mNodeAttribute with
      | none => exact ⟨acc, by simp [hn, hk]⟩
      | some mesh =>
        obtain ⟨m, hm⟩ := hattr i node mesh hn hk
        simp only [hn, hk, hm, Option.bind_eq_bind, Option.some_bind]
        by_cases hlc : m.GetLayerCount ≤ 0
        · exact ⟨acc, by simp [hlc]⟩
        · simp only [hlc, if_false]
          cases findMorpher s m.mDeformers with
          | none => exact ⟨acc, rfl⟩
          | some morpher => exact ⟨_, rfl⟩
    obtain ⟨r1, h1⟩ := hstep
    obtain ⟨r, hr⟩ := ih (fun j hj => hl j (List.mem_cons_of_mem _ hj)) r1
    refine ⟨r, ?_⟩
    rw [List.foldlM_cons]
    simp only [h1, Option.bind_eq_bind, Option.some_bind]
    exact hr

/-- On a linked scene in which no deformer is recorded twice the pass returns,
and it returns true. -/
theorem preprocessMorphMeshes_returns (g : Globals) (hl : Linked g.gModel)
    (hnd : ((recordedPairs g.gModel).map Prod.snd).Nodup) :
    ∃ g1, preprocessMorphMeshes g = some (true, g1) := by
  have hl0 : Linked (withDummyMaterial g.gModel) := ⟨hl.nodeAttr, hl.deformerOwner⟩
  obtain ⟨r, hscan⟩ := scan_defined (withDummyMaterial g.gModel)
    (fun i node k hn hk => by
      have h := hl0.nodeAttr i node k hn hk
      cases hm : (withDummyMaterial g.gModel).GetMeshAt k with
      | none => simp [FbxScene.GetNodeOfMesh, hm] at h
      | some m => exact ⟨m, rfl⟩)
    (List.range (withDummyMaterial g.gModel).GetNodeCount)
    (fun i hi => List.mem_range.mp hi) ([], [])
  obtain ⟨s1, h1⟩ := pairs_defined (withDummyMaterial g.gModel) hl0
    (some g.gModel.mMaterials.length) (recordedPairs g.gModel) (fun p hp => hp)
    hnd [] (withDummyMaterial g.gModel)
    (fun _ _ h => by cases h) (Stripped.of_grows _ _ (Grows.refl _))
  refine ⟨{ gModel := s1, gMat := some g.gModel.mMaterials.length }, ?_⟩
  rw [(preprocessMorphMeshes_eq g r hscan).2, h1]
  rfl

/-- On a well-formed scene the pass returns, and it returns true. -/
theorem preprocessMorphMeshes_defined (g : Globals) (hwf : WellFormed g.gModel) :
    ∃ g1, preprocessMorphMeshes g = some (true, g1) :=
  preprocessMorphMeshes_returns g (WellFormed.linked g.gModel hwf)
    (WellFormed.morphers_nodup g.gModel hwf)

theorem preprocessSourceMesh_false (m : FbxMesh) (h : (preprocessSourceMesh m).1 = false) :
    (preprocessSourceMesh m).2 = m := by
  cases hl : m.mLayers with
  | nil => rw [preprocessSourceMesh_no_layer m hl]
  | cons layer0 rest =>
    cases hc : layer0.mVertexColors with
    | none => rw [preprocessSourceMesh_ok m layer0 rest hl hc] at h; cases h
    | some c => rw [preprocessSourceMesh_tagged m layer0 rest hl (by simp [hc])]

theorem setMesh_self (s : FbxScene) (k : Nat) (m : FbxMesh) (h : s.GetMeshAt k = some m) :
    s.setMesh k m = s := by
  obtain ⟨hlt, hget⟩ := List.getElem?_eq_some.mp h
  have : s.mMeshes.set k m = s.mMeshes := by
    rw [← hget]
    apply List.ext_getElem?
    intro j
    rw [List.getElem?_set]
    by_cases e : k = j
    · subst e
      simp [hlt]
    · simp [e]
  simp only [FbxScene.setMesh, this]

/-- A channel on which the extractor fails its precondition leaves the scene
as it is. -/
theorem extractChannel_fail (gMat : Option Nat) (mesh : Nat) (s : FbxScene)
    (ch : FbxBlendShapeChannel)
    (h : ch.mTargetShapes.length = 0 ∨
      ∃ mt, ch.mTargetShapes.head? = some mt ∧ mt.GetLayerCount = 0) :
    extractMorphTarget s gMat mesh ch = some (none, s) ∧ extractChannel gMat mesh s ch = some s := by
  have h1 : extractMorphTarget s gMat mesh ch = some (none, s) := by
    rcases h with h | ⟨mt, hmt, hl⟩
    · have h0 : ch.mTargetShapes = [] := List.length_eq_zero.mp h
      simp [extractMorphTarget, h0]
    · obtain ⟨shapes, hmt1⟩ := head?_eq_some _ _ hmt
      have h0 : mt.mLayers = [] := List.length_eq_zero.mp hl
      simp [extractMorphTarget, hmt1, h0]
  exact ⟨h1, by simp [extractChannel, h1]⟩

theorem sceneFace_wellFormed : WellFormed sceneFace where
  nodeAttr := by
    intro i node k hn hk
    match i, hn with
    | 0, hn =>
      have e : node = sceneFace.mRootNode := (Option.some.inj hn).symm
      subst e
      cases hk
    | 1, hn =>
      have e : node = nodeFace := (Option.some.inj hn).symm
      subst e
      have ek : k = 0 := (Option.some.inj hk).symm
      subst ek
      exact ⟨_, rfl, rfl⟩
    | i + 2, hn => cases hn
  deformerOwner := by
    intro k m d blendShape hm hd hb
    have hk : k = 0 := by
      have : k < 1 := (List.getElem?_eq_some.mp hm).1
      omega
    subst hk
    have e : m = { meshPlain with mNode := some 1, mDeformers := [0] } :=
      (Option.some.inj hm).symm
    subst e
    have hd0 : d = 0 := by simpa using hd
    subst hd0
    have eb : blendShape
        = { mName := "morpher", mGeometry := some 0, mChannels := [channelSmile] } :=
      (Option.some.inj hb).symm
    subst eb
    refine ⟨rfl, ?_⟩
    intro ch hc
    have ec : ch = channelSmile := by simpa using hc
    subst ec
    rfl

/-- C11 (amended): strip completeness.  For every scene in which each mesh
attached to a node has at most one blend-shape deformer in its deformer list,
and at least one layer if it has one: `preprocessMorphMeshes` returns when the
scene is well formed, and after it returns, no mesh attached to any node of the
scene has a blend-shape deformer in its deformer list. -/
theorem C11_strip_completeness (g : Globals)
    (hscene : ∀ i node k m0, g.gModel.GetNode i = some node → node.mNodeAttribute = some k →
      g.gModel.GetMeshAt k = some m0 →
      (m0.mDeformers.filter fun d => (g.gModel.GetBlendShapeAt d).isSome).length ≤ 1 ∧
      ((∃ d ∈ m0.mDeformers, (g.gModel.GetBlendShapeAt d).isSome = true) →
        0 < m0.GetLayerCount)) :
    (WellFormed g.gModel → ∃ g1, preprocessMorphMeshes g = some (true, g1)) ∧
    ∀ res, preprocessMorphMeshes g = some res →
      ∀ i node k m, res.2.gModel.GetNode i = some node → node.mNodeAttribute = some k →
        res.2.gModel.GetMeshAt k = some m →
        ∀ d ∈ m.mDeformers, res.2.gModel.GetBlendShapeAt d = none := by
  refine ⟨preprocessMorphMeshes_defined g, ?_⟩
  intro res h
  obtain ⟨_, st⟩ := preprocessMorphMeshes_stripped g res h
  intro i node k m hi hk hm d hd
  cases hb : res.2.gModel.GetBlendShapeAt d with
  | none => rfl
  | some blendShape =>
    exfalso
    have hblend := st.blend d
    rw [hb] at hblend
    by_cases hD : d ∈ (recordedPairs g.gModel).map Prod.snd
    · simp [hD] at hblend
    · simp only [hD, if_false] at hblend
      cases hm0 : g.gModel.GetMeshAt k with
      | none =>
        have := st.newMeshes k m hm hm0
        rw [this] at hd
        cases hd
      | some m0 =>
        obtain ⟨m1, hm1, _, hdm⟩ := st.meshes k m0 hm0
        rw [hm] at hm1
        cases hm1
        rw [hdm, List.mem_filter] at hd
        have hd0 : d ∈ m0.mDeformers := hd.1
        cases hi0 : g.gModel.GetNode i with
        | none =>
          obtain ⟨k1, hk1, hnone⟩ := st.newNodes i node hi hi0
          rw [hk] at hk1
          cases hk1
          rw [hm0] at hnone
          cases hnone
        | some n0 =>
          obtain ⟨n1, hn1, ha, _⟩ := st.nodes i n0 hi0
          rw [hi] at hn1
          cases hn1
          have hk0 : n0.mNodeAttribute = some k := by rw [← ha, hk]
          obtain ⟨hone, hlay⟩ := hscene i n0 k m0 hi0 hk0 hm0
          have hdb : (g.gModel.GetBlendShapeAt d).isSome = true := by simp [← hblend]
          have hl := hlay ⟨d, hd0, hdb⟩
          cases hf : m0.mDeformers.find? (fun x => (g.gModel.GetBlendShapeAt x).isSome) with
          | none =>
            have := (List.find?_eq_none.mp hf) d hd0
            exact this hdb
          | some d1 =>
            have hp := recordedPair_of g.gModel i k d1 n0 m0 hi0 hk0 hm0 hl hf
            have hmem : (k, d1) ∈ recordedPairs g.gModel := by
              simp only [recordedPairs, List.mem_filterMap, List.mem_range]
              exact ⟨i, GetNode_lt g.gModel i n0 hi0, hp⟩
            have hd1D : d1 ∈ (recordedPairs g.gModel).map Prod.snd :=
              List.mem_map.mpr ⟨(k, d1), hmem, rfl⟩
            have hd1b : (g.gModel.GetBlendShapeAt d1).isSome = true :=
              @List.find?_some _ (fun x => (g.gModel.GetBlendShapeAt x).isSome) _ _ hf
            have hd1m : d1 ∈ m0.mDeformers := List.mem_of_find?_eq_some hf
            have e : d = d1 := eq_of_mem_of_length_le_one _ d d1 hone
              (List.mem_filter.mpr ⟨hd0, hdb⟩) (List.mem_filter.mpr ⟨hd1m, hd1b⟩)
            rw [e] at hD
            exact hD hd1D

theorem C11_strip_completeness_witness :
    (∀ i node k m0, sceneFace.GetNode i = some node → node.mNodeAttribute = some k →
      sceneFace.GetMeshAt k = some m0 →
      (m0.mDeformers.filter fun d => (sceneFace.GetBlendShapeAt d).isSome).length ≤ 1 ∧
      ((∃ d ∈ m0.mDeformers, (sceneFace.GetBlendShapeAt d).isSome = true) →
        0 < m0.GetLayerCount)) ∧
    WellFormed sceneFace ∧
    ∃ g1, preprocessMorphMeshes ⟨sceneFace, none⟩ = some (true, g1) ∧
      ∀ i node k m, g1.gModel.GetNode i = some node → node.mNodeAttribute = some k →
        g1.gModel.GetMeshAt k = some m →
        ∀ d ∈ m.mDeformers, g1.gModel.GetBlendShapeAt d = none :=
  ⟨sceneFace_one_morpher, sceneFace_wellFormed,
    (C11_strip_completeness ⟨sceneFace, none⟩ sceneFace_one_morpher).1
      sceneFace_wellFormed |>.elim fun g1 h1 =>
        ⟨g1, h1, (C11_strip_completeness ⟨sceneFace, none⟩ sceneFace_one_morpher).2 _ h1⟩⟩

theorem zip_map_fst_snd {α β : Type} (P : List (α × β)) :
    (P.map Prod.fst).zip (P.map Prod.snd) = P := by
  induction P with
  | nil => rfl
  | cons p P ih => simp [ih]

/-- In a linked scene a deformer in the list of a recorded mesh that is
recorded at all is the one recorded for that mesh. -/
theorem Linked.recorded_unique (s0 : FbxScene) (hwf : Linked s0) (p : Nat × Nat)
    (hp : p ∈ recordedPairs s0) (m0 : FbxMesh) (hm0 : s0.GetMeshAt p.1 = some m0) (x : Nat)
    (hx : x ∈ m0.mDeformers) (hxD : x ∈ (recordedPairs s0).map Prod.snd) : x = p.2 := by
  obtain ⟨q, hq, hqx⟩ := List.mem_map.mp hxD
  obtain ⟨m1, hm1, hd1, hb1⟩ := recordedPairs_mem s0 q hq
  obtain ⟨blendShape, hbs⟩ := Option.isSome_iff_exists.mp hb1
  have g1 := (hwf.deformerOwner q.1 m1 q.2 blendShape hm1 hd1 hbs).1
  have g0 := (hwf.deformerOwner p.1 m0 q.2 blendShape hm0 (by rw [hqx]; exact hx) hbs).1
  rw [g1] at g0
  have hk : q.1 = p.1 := Option.some.inj g0
  obtain ⟨i, _, hi⟩ := mem_recordedPairs s0 p hp
  obtain ⟨j, _, hj⟩ := mem_recordedPairs s0 q hq
  obtain ⟨_, ma, _, _, hma, _, hfa⟩ := recordedPair_some s0 i p.1 p.2 hi
  obtain ⟨_, mb, _, _, hmb, _, hfb⟩ := recordedPair_some s0 j q.1 q.2 hj
  rw [hk, hma] at hmb
  cases hmb
  rw [hfa] at hfb
  rw [← hqx]
  exact (Option.some.inj hfb).symm

theorem Grows.nodeOfMesh_name (s s1 : FbxScene) (k : Nat) (n : FbxNode) (hg : Grows s s1)
    (h : s.GetNodeOfMesh k = some n) :
    ∃ n1, s1.GetNodeOfMesh k = some n1 ∧ n1.mName = n.mName :=
  Stripped.GetNodeOfMesh s [] s1 k n (Stripped.of_grows s s1 hg) h

theorem stripMorpher_nodes (s : FbxScene) (k d : Nat) (m : FbxMesh) :
    (stripMorpher s k d m).mNodes = s.mNodes ∧
      (stripMorpher s k d m).mRootNode = s.mRootNode ∧
      (stripMorpher s k d m).mMeshes.length = s.mMeshes.length := by
  unfold stripMorpher
  split
  · simp [FbxScene.DestroyDeformer, FbxScene.setMesh]
  · exact ⟨rfl, rfl, rfl⟩

theorem String.append_left_cancel (a x y : String) (h : a ++ x = a ++ y) : x = y := by
  have hd := congrArg String.data h
  simp only [String.data_append] at hd
  exact String.ext (List.append_cancel_left hd)

/-- The extractor on valid arguments, by what it adds. -/
theorem extractMorphTarget_adds (gModel : FbxScene) (gMat : Option Nat) (srcMesh : Nat)
    (mtChannel : FbxBlendShapeChannel) (mt : FbxShape) (srcNode : FbxNode)
    (hmt : mtChannel.mTargetShapes.head? = some mt) (hl : 0 < mt.GetLayerCount)
    (hsrc : gModel.GetNodeOfMesh srcMesh = some srcNode)
    (hscal : (gModel.GetNodeOfChannel mtChannel).isSome = true) :
    ∃ gModel1 mtnode,
      extractMorphTarget gModel gMat srcMesh mtChannel
        = some (some gModel.mMeshes.length, gModel1) ∧
      gModel1.mNodes = gModel.mNodes ++ [mtnode] ∧
      gModel1.mRootNode.mChildren = gModel.mRootNode.mChildren ++ [gModel.GetNodeCount] ∧
      gModel1.mMeshes.length = gModel.mMeshes.length + 1 ∧
      mtnode.mNodeAttribute = some gModel.mMeshes.length ∧
      mtnode.mName = "MT&" ++ srcNode.mName ++ "&" ++ mt.mName := by
  obtain ⟨shapes, hs⟩ := head?_eq_some _ _ hmt
  obtain ⟨layer, layers, hly⟩ : ∃ a b, mt.mLayers = a :: b := by
    cases h : mt.mLayers with
    | nil => simp [FbxShape.GetLayerCount, h] at hl
    | cons a b => exact ⟨a, b, rfl⟩
  obtain ⟨sc, hsc⟩ := Option.isSome_iff_exists.mp hscal
  exact ⟨_, _, extractMorphTarget_ok gModel gMat srcMesh mtChannel mt shapes layer layers
    srcNode sc hs hly hsrc hsc, rfl, rfl, by simp, rfl, rfl⟩

/-- A call of the extractor on a channel that passes its preconditions, when
it returns, has followed pointers that are not null. -/
theorem extractMorphTarget_valid (gModel : FbxScene) (gMat : Option Nat) (srcMesh : Nat)
    (mtChannel : FbxBlendShapeChannel) (mt : FbxShape) (r : Option Nat × FbxScene)
    (hmt : mtChannel.mTargetShapes.head? = some mt) (hl : 0 < mt.GetLayerCount)
    (h : extractMorphTarget gModel gMat srcMesh mtChannel = some r) :
    (gModel.GetNodeOfMesh srcMesh).isSome = true ∧
      (gModel.GetNodeOfChannel mtChannel).isSome = true := by
  obtain ⟨shapes, hs⟩ := head?_eq_some _ _ hmt
  obtain ⟨layer, layers, hly⟩ : ∃ a b, mt.mLayers = a :: b := by
    cases h : mt.mLayers with
    | nil => simp [FbxShape.GetLayerCount, h] at hl
    | cons a b => exact ⟨a, b, rfl⟩
  obtain ⟨res, gModel1⟩ := r
  cases res with
  | none =>
    exfalso
    unfold extractMorphTarget at h
    cases hsrc : gModel.GetNodeOfMesh srcMesh with
    | none => simp [hs, hly, hsrc] at h
    | some srcNode =>
      cases hscal : ({ gModel with mRootNode := gModel.mRootNode.AddChild gModel.GetNodeCount }
          : FbxScene).GetNodeOfChannel mtChannel with
      | none => simp [hs, hly, hsrc, hscal] at h
      | some n1 => simp [hs, hly, hsrc, hscal] at h
  | some mtmesh =>
    obtain ⟨_, _, _, _, srcNode, scalingNode, _, _, hsrc, hscal⟩ :=
      extractMorphTarget_some gModel gMat srcMesh mtChannel mtmesh gModel1 h
    simp [hsrc, hscal]

/-- A call of the extractor keeps the nodes and the children of the root and
may add to them at the end. -/
theorem extractMorphTarget_prefix (gModel : FbxScene) (gMat : Option Nat) (srcMesh : Nat)
    (mtChannel : FbxBlendShapeChannel) (r : Option Nat × FbxScene)
    (h : extractMorphTarget gModel gMat srcMesh mtChannel = some r) :
    gModel.mNodes <+: r.2.mNodes ∧
      gModel.mRootNode.mChildren <+: r.2.mRootNode.mChildren := by
  obtain ⟨res, gModel1⟩ := r
  cases res with
  | none =>
    rw [extractMorphTarget_null gModel gMat srcMesh mtChannel gModel1 h]
    exact ⟨List.prefix_refl _, List.prefix_refl _⟩
  | some mtmesh =>
    obtain ⟨mt, shapes, mtLayer0, layers, srcNode, scalingNode, _, _, _, _, _, hres⟩ :=
      extractMorphTarget_inv gModel gMat srcMesh mtChannel mtmesh gModel1 h
    subst hres
    exact ⟨List.prefix_append _ _, List.prefix_append _ _⟩

theorem channels_prefix (gMat : Option Nat) (mesh : Nat) (chs : List FbxBlendShapeChannel) :
    ∀ (s s1 : FbxScene), chs.foldlM (extractChannel gMat mesh) s = some s1 →
      s.mNodes <+: s1.mNodes ∧ s.mRootNode.mChildren <+: s1.mRootNode.mChildren := by
  induction chs with
  | nil =>
    intro s s1 h
    simp only [List.foldlM_nil, Option.pure_def, Option.some.injEq] at h
    subst h
    exact ⟨List.prefix_refl _, List.prefix_refl _⟩
  | cons ch chs ih =>
    intro s s1 h
    rw [List.foldlM_cons] at h
    cases he : extractMorphTarget s gMat mesh ch with
    | none => simp [extractChannel, he] at h
    | some r =>
      simp only [extractChannel, he, Option.map_some', Option.bind_eq_bind, Option.some_bind] at h
      obtain ⟨h1, h2⟩ := extractMorphTarget_prefix s gMat mesh ch r he
      obtain ⟨h3, h4⟩ := ih r.2 s1 h
      exact ⟨h1.trans h3, h2.trans h4⟩

/-- The processing of a pair keeps the nodes and the children of the root and
may add to them at the end. -/
theorem processMorphedMesh_prefix (s s1 : FbxScene) (gMat : Option Nat) (k d : Nat)
    (h : processMorphedMesh s gMat k d = some s1) :
    s.mNodes <+: s1.mNodes ∧ s.mRootNode.mChildren <+: s1.mRootNode.mChildren := by
  rw [processMorphedMesh_eq] at h
  simp only [Option.bind_eq_some] at h
  obtain ⟨m, _, blendShape, _, s2, hloop, m2, _, hres⟩ := h
  simp only [Option.some.injEq] at hres
  subst hres
  obtain ⟨h1, h2⟩ := channels_prefix gMat k blendShape.mChannels _ s2 hloop
  have hstrip := stripMorpher_nodes s2 k d m2
  rw [hstrip.1, hstrip.2.1]
  exact ⟨h1, h2⟩

theorem pairs_prefix (gMat : Option Nat) (P : List (Nat × Nat)) :
    ∀ (s s1 : FbxScene),
      P.foldlM (fun s p => processMorphedMesh s gMat p.1 p.2) s = some s1 →
      s.mNodes <+: s1.mNodes ∧ s.mRootNode.mChildren <+: s1.mRootNode.mChildren := by
  induction P with
  | nil =>
    intro s s1 h
    simp only [List.foldlM_nil, Option.pure_def, Option.some.injEq] at h
    subst h
    exact ⟨List.prefix_refl _, List.prefix_refl _⟩
  | cons p P ih =>
    intro s s1 h
    rw [List.foldlM_cons] at h
    simp only [Option.bind_eq_bind, Option.bind_eq_some] at h
    obtain ⟨s2, h2, hrest⟩ := h
    obtain ⟨h1, h3⟩ := processMorphedMesh_prefix s s2 gMat p.1 p.2 h2
    obtain ⟨h4, h5⟩ := ih s2 s1 hrest
    exact ⟨h1.trans h4, h3.trans h5⟩

/-- The processing of a mesh whose deformer has two channels that pass the
preconditions of the extractor, when it returns: after the tagger the
extractor is called on the first channel, then on the second, each call
returns a new mesh, and the deformer is stripped; two nodes are added, one per
channel in channel order, as the last children of the root. -/
theorem processMorphedMesh_two_channels (s s4 : FbxScene) (gMat : Option Nat) (k d : Nat)
    (blendShape : FbxBlendShape) (ch1 ch2 : FbxBlendShapeChannel)
    (mt1 mt2 : FbxShape) (srcNode : FbxNode)
    (hb : s.GetBlendShapeAt d = some blendShape)
    (hch : blendShape.mChannels = [ch1, ch2])
    (hmt1 : ch1.mTargetShapes.head? = some mt1) (hl1 : 0 < mt1.GetLayerCount)
    (hmt2 : ch2.mTargetShapes.head? = some mt2) (hl2 : 0 < mt2.GetLayerCount)
    (hsrc : s.GetNodeOfMesh k = some srcNode)
    (h : processMorphedMesh s gMat k d = some s4) :
    ∃ m s2 s3 m3 n1 n2,
      s.GetMeshAt k = some m ∧
      extractMorphTarget (s.setMesh k (preprocessSourceMesh m).2) gMat k ch1
        = some (some s.mMeshes.length, s2) ∧
      extractMorphTarget s2 gMat k ch2 = some (some (s.mMeshes.length + 1), s3) ∧
      s3.GetMeshAt k = some m3 ∧ s4 = stripMorpher s3 k d m3 ∧
      s4.mNodes = s.mNodes ++ [n1, n2] ∧
      s4.mRootNode.mChildren
        = s.mRootNode.mChildren ++ [s.GetNodeCount, s.GetNodeCount + 1] ∧
      s4.mMeshes.length = s.mMeshes.length + 2 ∧
      n1.mNodeAttribute = some s.mMeshes.length ∧
      n2.mNodeAttribute = some (s.mMeshes.length + 1) ∧
      n1.mName = "MT&" ++ srcNode.mName ++ "&" ++ mt1.mName ∧
      n2.mName = "MT&" ++ srcNode.mName ++ "&" ++ mt2.mName := by
  rw [processMorphedMesh_eq] at h
  simp only [Option.bind_eq_some] at h
  obtain ⟨m, hm, blendShape1, hb1, sF, hloop, m3, hm3, hres⟩ := h
  simp only [Option.some.injEq] at hres
  have hfr := preprocessSourceMesh_frame m
  -- the tagger
  obtain ⟨s1, hs1def⟩ : ∃ s1, s1 = s.setMesh k (preprocessSourceMesh m).2 := ⟨_, rfl⟩
  rw [← hs1def] at hb1 hloop
  have hg1 : Grows s s1 := by
    rw [hs1def]
    exact Grows.setMesh s k m _ hm hfr.1 hfr.2.1
  have eb : blendShape1 = blendShape := by
    rw [hg1.blend d, hb] at hb1
    exact (Option.some.inj hb1).symm
  subst eb
  have hn1 : s1.mNodes = s.mNodes := by rw [hs1def]; rfl
  have hr1 : s1.mRootNode = s.mRootNode := by rw [hs1def]; rfl
  have hl1m : s1.mMeshes.length = s.mMeshes.length := by
    rw [hs1def]
    simp [FbxScene.setMesh]
  obtain ⟨src1, hsrc1, hname1⟩ := Grows.nodeOfMesh_name s s1 k srcNode hg1 hsrc
  -- the channel loop
  simp only [hch, List.foldlM_cons, List.foldlM_nil, extractChannel, Option.bind_eq_bind,
    Option.bind_eq_some, Option.map_eq_some', Option.pure_def, Option.some.injEq] at hloop
  obtain ⟨sa, ⟨r1, hr1e, hr1s⟩, sb, ⟨r2, hr2e, hr2s⟩, hsF⟩ := hloop
  subst hr1s hr2s hsF
  -- the first channel
  obtain ⟨s2, n1, he1, hn2, hr2, hl2m, ha1, hnm1⟩ := extractMorphTarget_adds s1 gMat k ch1 mt1
    src1 hmt1 hl1 hsrc1 (extractMorphTarget_valid s1 gMat k ch1 mt1 r1 hmt1 hl1 hr1e).2
  rw [he1] at hr1e
  have e1 : r1 = (some s1.mMeshes.length, s2) := (Option.some.inj hr1e).symm
  subst e1
  have hg2 : Grows s1 s2 := Grows.extract s1 gMat k ch1 _ he1
  have hg12 : Grows s s2 := Grows.trans s s1 s2 hg1 hg2
  obtain ⟨src2, hsrc2, hname2⟩ := Grows.nodeOfMesh_name s s2 k srcNode hg12 hsrc
  -- the second channel
  obtain ⟨s3, n2, he2, hn3, hr3, hl3m, ha2, hnm2⟩ := extractMorphTarget_adds s2 gMat k ch2 mt2
    src2 hmt2 hl2 hsrc2 (extractMorphTarget_valid s2 gMat k ch2 mt2 r2 hmt2 hl2 hr2e).2
  rw [he2] at hr2e
  have e2 : r2 = (some s2.mMeshes.length, s3) := (Option.some.inj hr2e).symm
  subst e2
  have hstrip := stripMorpher_nodes s3 k d m3
  have hcount : ∀ t : FbxScene, t.GetNodeCount = t.mNodes.length + 1 := fun _ => rfl
  refine ⟨m, s2, s3, m3, n1, n2, hm, ?_, ?_, hm3, hres.symm, ?_, ?_, ?_, ?_, ?_, ?_, ?_⟩
  · rw [← hs1def, he1, hl1m]
  · rw [he2, hl2m, hl1m]
  · rw [← hres, hstrip.1, hn3, hn2, hn1]
    simp
  · rw [← hres, hstrip.2.1, hr3, hr2, hr1, hcount s2, hcount s1, hcount s, hn2, hn1]
    simp
  · rw [← hres, hstrip.2.2, hl3m, hl2m, hl1m]
  · rw [ha1, hl1m]
  · rw [ha2, hl2m, hl1m]
  · rw [hnm1, hname1]
  · rw [hnm2, hname2]

/-- The processing loop strips a deformer once: when it returns, no deformer
was among those stripped before or twice among the pairs. -/
theorem pairs_nodup (s0 : FbxScene) (gMat : Option Nat) (P : List (Nat × Nat)) :
    (∀ p ∈ P, ∃ m0, s0.GetMeshAt p.1 = some m0 ∧ p.2 ∈ m0.mDeformers) →
    ∀ (D : List Nat) (s s1 : FbxScene), Stripped s0 D s → D.Nodup →
      P.foldlM (fun s p => processMorphedMesh s gMat p.1 p.2) s = some s1 →
      (D ++ P.map Prod.snd).Nodup := by
  induction P with
  | nil =>
    intro _ D s s1 _ hD _
    simpa using hD
  | cons p P ih =>
    intro hP D s s1 hs hD h
    rw [List.foldlM_cons] at h
    simp only [Option.bind_eq_bind, Option.bind_eq_some] at h
    obtain ⟨s2, h2, hrest⟩ := h
    obtain ⟨m0, hm0, hd⟩ := hP p (List.mem_cons_self _ _)
    obtain ⟨hs2, hnot⟩ := Stripped.process s0 D s s2 gMat p.1 p.2 m0 hs hm0 hd h2
    have hD2 : (D ++ [p.2]).Nodup := by
      rw [List.nodup_append]
      refine ⟨hD, List.nodup_singleton _, ?_⟩
      intro x hx hx1
      simp only [List.mem_singleton] at hx1
      subst hx1
      exact hnot hx
    have := ih (fun q hq => hP q (List.mem_cons_of_mem _ hq)) (D ++ [p.2]) s2 s1 hs2 hD2 hrest
    simpa using this

/-- Whenever the pass returns, no deformer was recorded twice. -/
theorem preprocessMorphMeshes_nodup (g : Globals) (res : Bool × Globals)
    (h : preprocessMorphMeshes g = some res) :
    ((recordedPairs g.gModel).map Prod.snd).Nodup := by
  obtain ⟨r, hscan⟩ := preprocessMorphMeshes_scan g res h
  rw [(preprocessMorphMeshes_eq g r hscan).2] at h
  simp only [Option.map_eq_some'] at h
  obtain ⟨sF, hF, _⟩ := h
  have hP : ∀ p ∈ recordedPairs g.gModel,
      ∃ m0, (withDummyMaterial g.gModel).GetMeshAt p.1 = some m0 ∧ p.2 ∈ m0.mDeformers := by
    intro p hp
    obtain ⟨m0, hm0, hd, _⟩ := recordedPairs_mem g.gModel p hp
    exact ⟨m0, hm0, hd⟩
  have := pairs_nodup (withDummyMaterial g.gModel) _ (recordedPairs g.gModel) hP []
    _ sF (Stripped.of_grows _ _ (Grows.refl _)) List.nodup_nil hF
  simpa using this

/-- Every call of the extractor in the processing of a recorded pair of a
linked scene (line 228) passes the recorded mesh and a channel of its recorded
deformer: at the call the channel names that deformer, which is still a blend
shape of the scene and deforms the mesh. -/
theorem processMorphedMesh_call (s0 : FbxScene) (hl : Linked s0) (D : List Nat) (s : FbxScene)
    (gMat : Option Nat) (p : Nat × Nat) (hp : p ∈ recordedPairs s0) (hs : Stripped s0 D s)
    (m : FbxMesh) (hm : s.GetMeshAt p.1 = some m)
    (blendShape : FbxBlendShape) (hb : s.GetBlendShapeAt p.2 = some blendShape)
    (chs1 chs2 : List FbxBlendShapeChannel) (ch : FbxBlendShapeChannel)
    (hch : blendShape.mChannels = chs1 ++ ch :: chs2) (s1 : FbxScene)
    (hloop : chs1.foldlM (extractChannel gMat p.1) (s.setMesh p.1 (preprocessSourceMesh m).2)
      = some s1) :
    ch.mBlendShapeDeformer = some p.2 ∧ s1.GetBlendShapeAt p.2 = some blendShape ∧
      blendShape.mGeometry = some p.1 := by
  have hb0 : s0.GetBlendShapeAt p.2 = some blendShape := by
    have h := hs.blend p.2
    rw [hb] at h
    by_cases hD : p.2 ∈ D
    · simp [hD] at h
    · simpa [hD] using h.symm
  obtain ⟨m0, hm0, hd0, _⟩ := recordedPairs_mem s0 p hp
  obtain ⟨hgeo, hown⟩ := hl.deformerOwner p.1 m0 p.2 blendShape hm0 hd0 hb0
  have hfr := preprocessSourceMesh_frame m
  have hg1 := Grows.setMesh s p.1 m (preprocessSourceMesh m).2 hm hfr.1 hfr.2.1
  have hg2 := Grows.channels gMat p.1 chs1 _ s1 hloop
  refine ⟨hown ch (by rw [hch]; simp), ?_, hgeo⟩
  rw [hg2.blend, hg1.blend, hb]

theorem sceneInstanced_linked : Linked sceneInstanced where
  nodeAttr := by
    intro i node k hn hk
    match i, hn with
    | 0, hn =>
      have e : node = sceneInstanced.mRootNode := (Option.some.inj hn).symm
      subst e
      cases hk
    | 1, hn =>
      have e : node = nodeFace := (Option.some.inj hn).symm
      subst e
      have ek : k = 0 := (Option.some.inj hk).symm
      subst ek
      rfl
    | 2, hn =>
      have e : node = { nodeFace with mName := "FaceCopy" } := (Option.some.inj hn).symm
      subst e
      have ek : k = 0 := (Option.some.inj hk).symm
      subst ek
      rfl
    | i + 3, hn => cases hn
  deformerOwner := by
    intro k m d blendShape hm hd hb
    have hk : k = 0 := by
      have : k < 1 := (List.getElem?_eq_some.mp hm).1
      omega
    subst hk
    have e : m = { meshPlain with mNode := some 1, mDeformers := [0] } :=
      (Option.some.inj hm).symm
    subst e
    have hd0 : d = 0 := by simpa using hd
    subst hd0
    have eb : blendShape
        = { mName := "morpher", mGeometry := some 0, mChannels := [channelSmile] } :=
      (Option.some.inj hb).symm
    subst eb
    refine ⟨rfl, ?_⟩
    intro ch hc
    have ec : ch = channelSmile := by simpa using hc
    subst ec
    rfl

/-- C14 fails on the code.  In `sceneInstanced` two nodes carry the same mesh,
which has a layer and a blend-shape deformer.  The scan of
`preprocessMorphMeshes` records the mesh and its deformer once per node.  The
first round of the processing loop returns and has destroyed the deformer; the
second round, on the same mesh and the same deformer, calls
`morpher->GetBlendShapeChannelCount()` on the destroyed object (line 225 after
line 237), so the pass does not return true: it has no defined result. -/
theorem C14_instanced_mesh_uses_destroyed_morpher :
    Linked sceneInstanced ∧
    (List.range (withDummyMaterial sceneInstanced).GetNodeCount).foldlM
      (scanNode (withDummyMaterial sceneInstanced)) ([], []) = some ([0, 0], [0, 0]) ∧
    (∃ gModel1, processMorphedMesh (withDummyMaterial sceneInstanced) (some 0) 0 0 = some gModel1 ∧
      gModel1.mDeformers = [none] ∧ gModel1.GetBlendShapeAt 0 = none ∧
      processMorphedMesh gModel1 (some 0) 0 0 = none) ∧
    preprocessMorphMeshes ⟨sceneInstanced, none⟩ = none :=
  ⟨sceneInstanced_linked, rfl, ⟨_, rfl, rfl, rfl, rfl⟩, rfl⟩

/-- C15: scan and strip of one deformer per mesh.  Whenever the scan of
`preprocessMorphMeshes` returns, its two vectors have equal length and, paired
index by index, are the pairs recorded in node order: for each node whose mesh
has at least one layer and a blend-shape deformer, that mesh and the first
blend-shape deformer of its deformer list, and nothing for any other node.
Whenever the pass returns, it returns true, no deformer was recorded twice,
and for each recorded pair the recorded deformer is absent from the deformer
list of the mesh, which is its list before the pass without the recorded
deformers.  In a linked scene, where a deformer is in the list of one mesh,
the scan returns, the pass returns when no deformer is recorded twice, and
whenever the pass returns the deformer list of a recorded mesh is its list
before the pass without the deformer recorded for it: that deformer is absent
and every other deformer is there, in the original order. -/
theorem C15_scan_and_strip (g : Globals) :
    (∀ meshes morphers,
      (List.range (withDummyMaterial g.gModel).GetNodeCount).foldlM
        (scanNode (withDummyMaterial g.gModel)) ([], []) = some (meshes, morphers) →
      meshes.length = morphers.length ∧
      meshes.zip morphers
        = (List.range g.gModel.GetNodeCount).filterMap (recordedPair g.gModel) ∧
      ∀ p ∈ meshes.zip morphers, ∃ m0 before after,
        g.gModel.GetMeshAt p.1 = some m0 ∧ 0 < m0.GetLayerCount ∧
        m0.mDeformers = before ++ p.2 :: after ∧
        (∀ x ∈ before, g.gModel.GetBlendShapeAt x = none) ∧
        (g.gModel.GetBlendShapeAt p.2).isSome = true) ∧
    (∀ res, preprocessMorphMeshes g = some res →
      ∃ meshes morphers,
        (List.range (withDummyMaterial g.gModel).GetNodeCount).foldlM
          (scanNode (withDummyMaterial g.gModel)) ([], []) = some (meshes, morphers) ∧
        res.1 = true ∧ morphers.Nodup ∧
        ∀ p ∈ meshes.zip morphers, ∃ m0 m,
          g.gModel.GetMeshAt p.1 = some m0 ∧ res.2.gModel.GetMeshAt p.1 = some m ∧
          p.2 ∉ m.mDeformers ∧
          m.mDeformers = (m0.mDeformers.filter fun x => decide (x ∉ morphers))) ∧
    (Linked g.gModel →
      (∃ meshes morphers, (List.range (withDummyMaterial g.gModel).GetNodeCount).foldlM
        (scanNode (withDummyMaterial g.gModel)) ([], []) = some (meshes, morphers)) ∧
      (((recordedPairs g.gModel).map Prod.snd).Nodup →
        ∃ g1, preprocessMorphMeshes g = some (true, g1)) ∧
      ∀ res, preprocessMorphMeshes g = some res →
        ∀ p ∈ (List.range g.gModel.GetNodeCount).filterMap (recordedPair g.gModel), ∃ m0 m,
          g.gModel.GetMeshAt p.1 = some m0 ∧ res.2.gModel.GetMeshAt p.1 = some m ∧
          p.2 ∉ m.mDeformers ∧
          m.mDeformers = m0.mDeformers.filter fun x => decide (x ≠ p.2)) := by
  have hzip : ((recordedPairs g.gModel).map Prod.fst).zip ((recordedPairs g.gModel).map Prod.snd)
      = recordedPairs g.gModel := zip_map_fst_snd _
  have hrun : ∀ res, preprocessMorphMeshes g = some res →
      ∀ p ∈ recordedPairs g.gModel, ∃ m0 m,
        g.gModel.GetMeshAt p.1 = some m0 ∧ res.2.gModel.GetMeshAt p.1 = some m ∧
        p.2 ∉ m.mDeformers ∧
        m.mDeformers = (m0.mDeformers.filter fun x =>
          decide (x ∉ (recordedPairs g.gModel).map Prod.snd)) := by
    intro res h p hp
    obtain ⟨_, st⟩ := preprocessMorphMeshes_stripped g _ h
    obtain ⟨m0, hm0, _, _⟩ := recordedPairs_mem g.gModel p hp
    obtain ⟨m, hm, _, hd⟩ := st.meshes p.1 m0 hm0
    have hpD : p.2 ∈ (recordedPairs g.gModel).map Prod.snd := List.mem_map.mpr ⟨p, hp, rfl⟩
    refine ⟨m0, m, hm0, hm, ?_, hd⟩
    rw [hd, List.mem_filter]
    intro hmem
    simpa [hpD] using hmem.2
  refine ⟨?_, ?_, ?_⟩
  · intro meshes morphers hscan
    obtain ⟨hr, _⟩ := preprocessMorphMeshes_eq g _ hscan
    simp only [Prod.mk.injEq] at hr
    obtain ⟨h1, h2⟩ := hr
    subst h1 h2
    refine ⟨by simp, hzip, ?_⟩
    intro p hp
    rw [hzip] at hp
    obtain ⟨i, _, hi⟩ := mem_recordedPairs g.gModel p hp
    obtain ⟨_, m0, _, _, hm0, hl, hf⟩ := recordedPair_some g.gModel i p.1 p.2 hi
    obtain ⟨hb, before, after, hsplit, hbefore⟩ := List.find?_eq_some.mp hf
    refine ⟨m0, before, after, hm0, hl, hsplit, ?_, hb⟩
    intro x hx
    have := hbefore x hx
    cases hbx : g.gModel.GetBlendShapeAt x with
    | none => rfl
    | some b => simp [hbx] at this
  · intro res h
    obtain ⟨r, hscan⟩ := preprocessMorphMeshes_scan g _ h
    obtain ⟨hr, _⟩ := preprocessMorphMeshes_eq g r hscan
    obtain ⟨htrue, _⟩ := preprocessMorphMeshes_stripped g _ h
    subst hr
    refine ⟨_, _, hscan, htrue, preprocessMorphMeshes_nodup g res h, ?_⟩
    intro p hp
    rw [hzip] at hp
    exact hrun res h p hp
  · intro hl
    refine ⟨?_, preprocessMorphMeshes_returns g hl, ?_⟩
    · obtain ⟨r, hr⟩ := scan_defined (withDummyMaterial g.gModel)
        (fun i node k hn hk => by
          have h := hl.nodeAttr i node k hn hk
          cases hm : (withDummyMaterial g.gModel).GetMeshAt k with
          | none =>
            have hm1 : g.gModel.GetMeshAt k = none := hm
            simp [FbxScene.GetNodeOfMesh, hm1] at h
          | some m => exact ⟨m, rfl⟩)
        (List.range (withDummyMaterial g.gModel).GetNodeCount)
        (fun i hi => List.mem_range.mp hi) ([], [])
      exact ⟨r.1, r.2, hr⟩
    · intro res h p hp
      obtain ⟨m0, m, hm0, hm, hnot, hd⟩ := hrun res h p hp
      refine ⟨m0, m, hm0, hm, hnot, ?_⟩
      rw [hd]
      apply List.filter_congr
      intro x hx
      by_cases hxD : x ∈ (recordedPairs g.gModel).map Prod.snd
      · have e := Linked.recorded_unique g.gModel hl p hp m0 hm0 x hx hxD
        have h1 : decide (x ∉ (recordedPairs g.gModel).map Prod.snd) = false := by
          simpa using hxD
        have h2 : decide (x ≠ p.2) = false := by simpa using e
        rw [h1, h2]
      · have hne : x ≠ p.2 := by
          intro e
          exact hxD (List.mem_map.mpr ⟨p, hp, e.symm⟩)
        have h1 : decide (x ∉ (recordedPairs g.gModel).map Prod.snd) = true := by
          simpa using hxD
        have h2 : decide (x ≠ p.2) = true := by simpa using hne
        rw [h1, h2]

theorem sceneSkinned_linked : Linked sceneSkinned where
  nodeAttr := by
    intro i node k hn hk
    match i, hn with
    | 0, hn =>
      have e : node = sceneSkinned.mRootNode := (Option.some.inj hn).symm
      subst e
      cases hk
    | 1, hn =>
      have e : node = nodeFace := (Option.some.inj hn).symm
      subst e
      have ek : k = 0 := (Option.some.inj hk).symm
      subst ek
      rfl
    | 2, hn =>
      have e : node = { FbxNode.Create "Prop" with mNodeAttribute := some 1 } :=
        (Option.some.inj hn).symm
      subst e
      have ek : k = 1 := (Option.some.inj hk).symm
      subst ek
      rfl
    | 3, hn =>
      have e : node = { FbxNode.Create "PropCopy" with mNodeAttribute := some 1 } :=
        (Option.some.inj hn).symm
      subst e
      have ek : k = 1 := (Option.some.inj hk).symm
      subst ek
      rfl
    | i + 4, hn => cases hn
  deformerOwner := by
    intro k m d blendShape hm hd hb
    have hk : k < 2 := (List.getElem?_eq_some.mp hm).1
    match k, hk, hm with
    | 0, _, hm =>
      have e : m = { meshPlain with mNode := some 1, mDeformers := [1, 0, 2] } :=
        (Option.some.inj hm).symm
      subst e
      have hd0 : d = 1 ∨ d = 0 ∨ d = 2 := by simpa using hd
      rcases hd0 with rfl | rfl | rfl
      · cases hb
      · have eb : blendShape
            = { mName := "morpher", mGeometry := some 0, mChannels := [channelSmile] } :=
          (Option.some.inj hb).symm
        subst eb
        refine ⟨rfl, ?_⟩
        intro ch hc
        have ec : ch = channelSmile := by simpa using hc
        subst ec
        rfl
      · cases hb
    | 1, _, hm =>
      have e : m = { meshPlain with mName := "P", mNode := some 2 } :=
        (Option.some.inj hm).symm
      subst e
      cases hd

theorem C15_scan_and_strip_witness :
    Linked sceneSkinned ∧ ((recordedPairs sceneSkinned).map Prod.snd).Nodup ∧
    ∃ g1, preprocessMorphMeshes ⟨sceneSkinned, none⟩ = some (true, g1) ∧
      (∃ m0 m, sceneSkinned.GetMeshAt 0 = some m0 ∧ m0.mDeformers = [1, 0, 2] ∧
        g1.gModel.GetMeshAt 0 = some m ∧ m.mDeformers = [1, 2]) ∧
      ∀ p ∈ (List.range sceneSkinned.GetNodeCount).filterMap (recordedPair sceneSkinned),
        ∃ m0 m,
          sceneSkinned.GetMeshAt p.1 = some m0 ∧ g1.gModel.GetMeshAt p.1 = some m ∧
          p.2 ∉ m.mDeformers ∧
          m.mDeformers = m0.mDeformers.filter fun x => decide (x ≠ p.2) :=
  ⟨sceneSkinned_linked, by decide, _, rfl, ⟨_, _, rfl, rfl, rfl, by decide⟩,
    ((C15_scan_and_strip ⟨sceneSkinned, none⟩).2.2 sceneSkinned_linked).2.2 _ rfl⟩

/-- C12 as stated fails, in three ways.  The deformer of `sceneSameShapeNames`
has two channels with the distinct names "smile" and "smile2", each with a
first target shape with a layer; the pass adds two nodes, and both are named
"MT&Face&smile", after the target shapes.  The mesh of
`sceneTwoChannelsNoLayers` has a deformer of two such channels and no layer;
the pass adds no node.  The mesh of `sceneSecondMorpher` has a deformer of two
such channels after another blend-shape deformer of one channel; the pass adds
one node, for the channel of the first deformer. -/
theorem C12_counterexample_two_channels :
    (channelSmile.mName ≠ channelSmile2.mName ∧
      ∃ g1 n1 n2, preprocessMorphMeshes ⟨sceneSameShapeNames, none⟩ = some (true, g1) ∧
        g1.gModel.mNodes = sceneSameShapeNames.mNodes ++ [n1, n2] ∧
        n1.mName = "MT&Face&smile" ∧ n2.mName = "MT&Face&smile" ∧ n1.mName = n2.mName) ∧
    (channelSmile.mName ≠ channelWink.mName ∧
      (∃ m, sceneTwoChannelsNoLayers.GetMeshAt 0 = some m ∧ 0 ∈ m.mDeformers) ∧
      sceneTwoChannelsNoLayers.GetBlendShapeAt 0
        = some { mName := "morpher", mGeometry := some 0,
                 mChannels := [channelSmile, channelWink] } ∧
      ∃ g1, preprocessMorphMeshes ⟨sceneTwoChannelsNoLayers, none⟩ = some (true, g1) ∧
        g1.gModel.mNodes = sceneTwoChannelsNoLayers.mNodes) ∧
    (channelFrown.mName ≠ channelFrown2.mName ∧
      (∃ m, sceneSecondMorpher.GetMeshAt 0 = some m ∧ 1 ∈ m.mDeformers) ∧
      sceneSecondMorpher.GetBlendShapeAt 1
        = some { mName := "second", mGeometry := some 0,
                 mChannels := [channelFrown, channelFrown2] } ∧
      ∃ g1 n1, preprocessMorphMeshes ⟨sceneSecondMorpher, none⟩ = some (true, g1) ∧
        g1.gModel.mNodes = sceneSecondMorpher.mNodes ++ [n1] ∧
        n1.mName = "MT&Face&smile") := by
  refine ⟨⟨by decide, _, _, _, rfl, rfl, ?_, ?_, ?_⟩,
    ⟨by decide, ⟨_, rfl, by decide⟩, rfl, _, rfl, rfl⟩,
    ⟨by decide, ⟨_, rfl, by decide⟩, rfl, _, _, rfl, rfl, ?_⟩⟩ <;> decide

/-- C12 (amended): multi-channel scenario.  Take a recorded mesh, that is a
mesh attached to a node with at least one layer, and let the first blend-shape
deformer of its deformer list have 2 channels, each with a first target shape
with at least one layer.  The pass returns when the scene is linked and no
deformer is recorded twice.  In every run of `preprocessMorphMeshes` that
returns, the processing of that mesh calls the extractor on the first channel
and then on the second, each call returns a new mesh, and the scene after it
has exactly 2 more nodes, the last children of the scene root, carrying the 2
new meshes, one per channel in channel order, named after the node of the mesh
and the first target shape of the channel; these nodes are in the scene the
pass leaves.  The two new nodes have distinct names exactly when the two
target shapes have distinct names. -/
theorem C12_two_channels (g : Globals) (pre post : List (Nat × Nat)) (mesh morpher : Nat)
    (blendShape : FbxBlendShape) (ch1 ch2 : FbxBlendShapeChannel) (mt1 mt2 : FbxShape)
    (srcNode : FbxNode)
    (hrec : recordedPairs g.gModel = pre ++ (mesh, morpher) :: post)
    (hb : g.gModel.GetBlendShapeAt morpher = some blendShape)
    (hch : blendShape.mChannels = [ch1, ch2])
    (hmt1 : ch1.mTargetShapes.head? = some mt1) (hl1 : 0 < mt1.GetLayerCount)
    (hmt2 : ch2.mTargetShapes.head? = some mt2) (hl2 : 0 < mt2.GetLayerCount)
    (hsrc : g.gModel.GetNodeOfMesh mesh = some srcNode) :
    (Linked g.gModel → ((recordedPairs g.gModel).map Prod.snd).Nodup →
      ∃ g1, preprocessMorphMeshes g = some (true, g1)) ∧
    ∀ res, preprocessMorphMeshes g = some res →
      ∃ s m s2 s3 m3 s4 n1 n2,
        pre.foldlM (fun s p => processMorphedMesh s (some g.gModel.mMaterials.length) p.1 p.2)
          (withDummyMaterial g.gModel) = some s ∧
        s.GetMeshAt mesh = some m ∧
        extractMorphTarget (s.setMesh mesh (preprocessSourceMesh m).2)
          (some g.gModel.mMaterials.length) mesh ch1 = some (some s.mMeshes.length, s2) ∧
        extractMorphTarget s2 (some g.gModel.mMaterials.length) mesh ch2
          = some (some (s.mMeshes.length + 1), s3) ∧
        s3.GetMeshAt mesh = some m3 ∧ s4 = stripMorpher s3 mesh morpher m3 ∧
        processMorphedMesh s (some g.gModel.mMaterials.length) mesh morpher = some s4 ∧
        post.foldlM (fun s p => processMorphedMesh s (some g.gModel.mMaterials.length) p.1 p.2)
          s4 = some res.2.gModel ∧
        s4.mNodes = s.mNodes ++ [n1, n2] ∧
        s4.mRootNode.mChildren
          = s.mRootNode.mChildren ++ [s.GetNodeCount, s.GetNodeCount + 1] ∧
        s4.mMeshes.length = s.mMeshes.length + 2 ∧
        n1.mNodeAttribute = some s.mMeshes.length ∧
        n2.mNodeAttribute = some (s.mMeshes.length + 1) ∧
        n1.mName = "MT&" ++ srcNode.mName ++ "&" ++ mt1.mName ∧
        n2.mName = "MT&" ++ srcNode.mName ++ "&" ++ mt2.mName ∧
        (n1.mName ≠ n2.mName ↔ mt1.mName ≠ mt2.mName) ∧
        s4.mNodes <+: res.2.gModel.mNodes ∧
        s4.mRootNode.mChildren <+: res.2.gModel.mRootNode.mChildren := by
  refine ⟨preprocessMorphMeshes_returns g, ?_⟩
  intro res h
  obtain ⟨r, hscan⟩ := preprocessMorphMeshes_scan g res h
  rw [(preprocessMorphMeshes_eq g r hscan).2, hrec, List.foldlM_append] at h
  simp only [List.foldlM_cons, Option.map_eq_some', Option.bind_eq_bind,
    Option.bind_eq_some] at h
  obtain ⟨sF, ⟨s, hpre, s4, hproc, hpost⟩, hres⟩ := h
  subst hres
  have hmemP : ∀ p ∈ pre, ∃ m0, (withDummyMaterial g.gModel).GetMeshAt p.1 = some m0 ∧
      p.2 ∈ m0.mDeformers := by
    intro p hp
    have hp1 : p ∈ recordedPairs g.gModel := by
      rw [hrec]
      exact List.mem_append_left _ hp
    obtain ⟨m0, hm0, hd, _⟩ := recordedPairs_mem g.gModel p hp1
    exact ⟨m0, hm0, hd⟩
  have hst : Stripped (withDummyMaterial g.gModel) ([] ++ pre.map Prod.snd) s :=
    Stripped.pairs (withDummyMaterial g.gModel) _ pre hmemP [] _ s
      (Stripped.of_grows _ _ (Grows.refl _)) hpre
  have hmem : (mesh, morpher) ∈ recordedPairs g.gModel := by
    rw [hrec]
    exact List.mem_append_right _ (List.mem_cons_self _ _)
  obtain ⟨m0, hm0, hd0, _⟩ := recordedPairs_mem g.gModel (mesh, morpher) hmem
  have hnot := (Stripped.process (withDummyMaterial g.gModel) _ s s4 _ mesh morpher m0 hst
    hm0 hd0 hproc).2
  have hbs : s.GetBlendShapeAt morpher = some blendShape := by
    rw [hst.blend morpher, if_neg hnot]
    exact hb
  obtain ⟨src, hsrcs, hname⟩ := Stripped.GetNodeOfMesh (withDummyMaterial g.gModel) _ s mesh
    srcNode hst hsrc
  obtain ⟨m, s2, s3, m3, n1, n2, hm, he1, he2, hm3, hs4, hnodes, hroot, hlen, ha1, ha2, hn1,
    hn2⟩ := processMorphedMesh_two_channels s s4 _ mesh morpher blendShape ch1 ch2 mt1 mt2 src
      hbs hch hmt1 hl1 hmt2 hl2 hsrcs hproc
  obtain ⟨hp1, hp2⟩ := pairs_prefix _ post s4 sF hpost
  rw [hname] at hn1 hn2
  refine ⟨s, m, s2, s3, m3, s4, n1, n2, hpre, hm, he1, he2, hm3, hs4, hproc, hpost, hnodes,
    hroot, hlen, ha1, ha2, hn1, hn2, ?_, hp1, hp2⟩
  rw [hn1, hn2]
  constructor
  · intro hne e
    exact hne (by rw [e])
  · intro hne e
    exact hne (String.append_left_cancel _ _ _ e)

theorem C12_two_channels_witness :
    (recordedPairs sceneTwoChannels = [] ++ (0, 0) :: [] ∧
      sceneTwoChannels.GetBlendShapeAt 0
        = some { mName := "morpher", mGeometry := some 0,
                 mChannels := [channelSmile, channelWink] } ∧
      channelSmile.mTargetShapes.head? = some shapeSmile ∧ 0 < shapeSmile.GetLayerCount ∧
      channelWink.mTargetShapes.head? = some { shapeSmile with mName := "wink" } ∧
      sceneTwoChannels.GetNodeOfMesh 0 = some nodeFace) ∧
    ∃ res, preprocessMorphMeshes ⟨sceneTwoChannels, none⟩ = some res ∧
      ∃ s m s2 s3 m3 s4 n1 n2,
        ([] : List (Nat × Nat)).foldlM
          (fun s p => processMorphedMesh s (some sceneTwoChannels.mMaterials.length) p.1 p.2)
          (withDummyMaterial sceneTwoChannels) = some s ∧
        s.GetMeshAt 0 = some m ∧
        extractMorphTarget (s.setMesh 0 (preprocessSourceMesh m).2)
          (some sceneTwoChannels.mMaterials.length) 0 channelSmile
          = some (some s.mMeshes.length, s2) ∧
        extractMorphTarget s2 (some sceneTwoChannels.mMaterials.length) 0 channelWink
          = some (some (s.mMeshes.length + 1), s3) ∧
        s3.GetMeshAt 0 = some m3 ∧ s4 = stripMorpher s3 0 0 m3 ∧
        processMorphedMesh s (some sceneTwoChannels.mMaterials.length) 0 0 = some s4 ∧
        ([] : List (Nat × Nat)).foldlM
          (fun s p => processMorphedMesh s (some sceneTwoChannels.mMaterials.length) p.1 p.2)
          s4 = some res.2.gModel ∧
        s4.mNodes = s.mNodes ++ [n1, n2] ∧
        s4.mRootNode.mChildren
          = s.mRootNode.mChildren ++ [s.GetNodeCount, s.GetNodeCount + 1] ∧
        s4.mMeshes.length = s.mMeshes.length + 2 ∧
        n1.mNodeAttribute = some s.mMeshes.length ∧
        n2.mNodeAttribute = some (s.mMeshes.length + 1) ∧
        n1.mName = "MT&" ++ nodeFace.mName ++ "&" ++ shapeSmile.mName ∧
        n2.mName = "MT&" ++ nodeFace.mName ++ "&" ++ "wink" ∧
        (n1.mName ≠ n2.mName ↔ shapeSmile.mName ≠ "wink") ∧
        s4.mNodes <+: res.2.gModel.mNodes ∧
        s4.mRootNode.mChildren <+: res.2.gModel.mRootNode.mChildren :=
  ⟨⟨by decide, rfl, rfl, by decide, rfl, rfl⟩, _, rfl,
    (C12_two_channels ⟨sceneTwoChannels, none⟩ [] [] 0 0
      { mName := "morpher", mGeometry := some 0, mChannels := [channelSmile, channelWink] }
      channelSmile channelWink shapeSmile { shapeSmile with mName := "wink" } nodeFace
      (by decide) rfl rfl rfl (by decide) rfl (by decide) rfl).2 _ rfl⟩

end FBXUtils
